import Mathlib

/-!
# Interoperator resource manager: a shallow embedding

Verification development for `interoperator/pkg/internal/resources/resources.go`
of the service-fabrik-broker repository: sub-resource deletion, ownership
stamping and the reconcile loop against a target cluster.

The Kubernetes client is an external collaborator.  It is embedded as a record
of four operations over an explicit cluster state `σ`; the functions of the
resource manager are written once against an arbitrary client.  A recording
wrapper keeps the sequence of calls that reach the client, and an in-memory
cluster gives the behaviour of a target cluster that nobody else changes.
-/

namespace Interoperator

/-! ## Generic resource trees -/

/-- A generic JSON/YAML value, the content of `map[string]interface{}` trees.
A Go mapping is kept as an association list of its entries. -/
inductive Value where
  | null : Value
  | bool (b : Bool) : Value
  | num (n : Int) : Value
  | str (s : String) : Value
  | arr (items : List Value) : Value
  | map (fields : List (String × Value)) : Value

mutual
/-- Equality of values is decidable. -/
def Value.decEq : (a b : Value) → Decidable (a = b)
  | .null, .null => isTrue rfl
  | .null, .bool _ => isFalse (fun h => Value.noConfusion h)
  | .null, .num _ => isFalse (fun h => Value.noConfusion h)
  | .null, .str _ => isFalse (fun h => Value.noConfusion h)
  | .null, .arr _ => isFalse (fun h => Value.noConfusion h)
  | .null, .map _ => isFalse (fun h => Value.noConfusion h)
  | .bool _, .null => isFalse (fun h => Value.noConfusion h)
  | .bool x, .bool y => if h : x = y then isTrue (h ▸ rfl) else isFalse (fun h' => h (Value.bool.inj h'))
  | .bool _, .num _ => isFalse (fun h => Value.noConfusion h)
  | .bool _, .str _ => isFalse (fun h => Value.noConfusion h)
  | .bool _, .arr _ => isFalse (fun h => Value.noConfusion h)
  | .bool _, .map _ => isFalse (fun h => Value.noConfusion h)
  | .num _, .null => isFalse (fun h => Value.noConfusion h)
  | .num _, .bool _ => isFalse (fun h => Value.noConfusion h)
  | .num x, .num y => if h : x = y then isTrue (h ▸ rfl) else isFalse (fun h' => h (Value.num.inj h'))
  | .num _, .str _ => isFalse (fun h => Value.noConfusion h)
  | .num _, .arr _ => isFalse (fun h => Value.noConfusion h)
  | .num _, .map _ => isFalse (fun h => Value.noConfusion h)
  | .str _, .null => isFalse (fun h => Value.noConfusion h)
  | .str _, .bool _ => isFalse (fun h => Value.noConfusion h)
  | .str _, .num _ => isFalse (fun h => Value.noConfusion h)
  | .str x, .str y => if h : x = y then isTrue (h ▸ rfl) else isFalse (fun h' => h (Value.str.inj h'))
  | .str _, .arr _ => isFalse (fun h => Value.noConfusion h)
  | .str _, .map _ => isFalse (fun h => Value.noConfusion h)
  | .arr _, .null => isFalse (fun h => Value.noConfusion h)
  | .arr _, .bool _ => isFalse (fun h => Value.noConfusion h)
  | .arr _, .num _ => isFalse (fun h => Value.noConfusion h)
  | .arr _, .str _ => isFalse (fun h => Value.noConfusion h)
  | .arr x, .arr y =>
    match Value.decEqList x y with
    | isTrue h => isTrue (h ▸ rfl)
    | isFalse h => isFalse (fun h' => h (Value.arr.inj h'))
  | .arr _, .map _ => isFalse (fun h => Value.noConfusion h)
  | .map _, .null => isFalse (fun h => Value.noConfusion h)
  | .map _, .bool _ => isFalse (fun h => Value.noConfusion h)
  | .map _, .num _ => isFalse (fun h => Value.noConfusion h)
  | .map _, .str _ => isFalse (fun h => Value.noConfusion h)
  | .map _, .arr _ => isFalse (fun h => Value.noConfusion h)
  | .map x, .map y =>
    match Value.decEqFields x y with
    | isTrue h => isTrue (h ▸ rfl)
    | isFalse h => isFalse (fun h' => h (Value.map.inj h'))
/-- Equality of arrays of values is decidable. -/
def Value.decEqList : (a b : List Value) → Decidable (a = b)
  | [], [] => isTrue rfl
  | [], _ :: _ => isFalse (fun h => List.noConfusion h)
  | _ :: _, [] => isFalse (fun h => List.noConfusion h)
  | x :: xs, y :: ys =>
    match Value.decEq x y, Value.decEqList xs ys with
    | isTrue h1, isTrue h2 => isTrue (h1 ▸ h2 ▸ rfl)
    | isFalse h1, _ => isFalse (fun h => h1 (List.cons.inj h).1)
    | _, isFalse h2 => isFalse (fun h => h2 (List.cons.inj h).2)
/-- Equality of the entries of mappings is decidable. -/
def Value.decEqFields : (a b : List (String × Value)) → Decidable (a = b)
  | [], [] => isTrue rfl
  | [], _ :: _ => isFalse (fun h => List.noConfusion h)
  | _ :: _, [] => isFalse (fun h => List.noConfusion h)
  | (k, x) :: xs, (l, y) :: ys =>
    if hk : k = l then
      match Value.decEq x y, Value.decEqFields xs ys with
      | isTrue h1, isTrue h2 => isTrue (hk ▸ h1 ▸ h2 ▸ rfl)
      | isFalse h1, _ => isFalse (fun h => h1 (Prod.mk.inj (List.cons.inj h).1).2)
      | _, isFalse h2 => isFalse (fun h => h2 (List.cons.inj h).2)
    else isFalse (fun h => hk (Prod.mk.inj (List.cons.inj h).1).1)
end

instance : DecidableEq Value := Value.decEq


/-- The entry stored under key `k` (Go: `v, ok := m[k]`). -/
def lookup {α : Type} (k : String) : List (String × α) → Option α
  | [] => none
  | (k', v) :: rest => if k' = k then some v else lookup k rest

/-- Assignment `m[k] = v`: overwrite the entry of `k`, or add it. -/
def insert {α : Type} (k : String) (v : α) : List (String × α) → List (String × α)
  | [] => [(k, v)]
  | (k', v') :: rest => if k' = k then (k, v) :: rest else (k', v') :: insert k v rest

/-- Removal `delete(m, k)`. -/
def remove {α : Type} (k : String) (m : List (String × α)) : List (String × α) :=
  m.filter (fun p => decide (p.1 ≠ k))

/-! ## Unstructured objects and their accessors -/

/-- Model of `unstructured.Unstructured`: the object is its content tree. -/
structure Unstructured where
  Object : List (String × Value)
deriving DecidableEq

/-- Model of `types.NamespacedName`. -/
structure NamespacedName where
  Name : String
  Namespace : String
deriving DecidableEq

/-- Read a string stored under a top-level field; the empty string when the
field is missing or is not a string. -/
def fieldString (k : String) (m : List (String × Value)) : String :=
  match lookup k m with
  | some (.str s) => s
  | _ => ""

/-- The `metadata` mapping of a content tree; empty when missing or not a mapping. -/
def metadataOf (m : List (String × Value)) : List (String × Value) :=
  match lookup "metadata" m with
  | some (.map md) => md
  | _ => []

/-- `SetNestedField(obj, v, "metadata", field)` as the setters of
`Unstructured` call it, dropping its error: the `metadata` mapping is created
when the tree has none; when `metadata` is present and is not a mapping the
call fails and the tree stays as it is. -/
def setMetadata (field : String) (v : Value) (m : List (String × Value)) :
    List (String × Value) :=
  match lookup "metadata" m with
  | none => insert "metadata" (.map (insert field v [])) m
  | some (.map md) => insert "metadata" (.map (insert field v md)) m
  | some _ => m

/-- `RemoveNestedField(obj, "metadata", field)`: the key is deleted from the
`metadata` mapping; without such a mapping nothing happens. -/
def removeMetadata (field : String) (m : List (String × Value)) : List (String × Value) :=
  match lookup "metadata" m with
  | some (.map md) => insert "metadata" (.map (remove field md)) m
  | _ => m

/-- The tree has no `metadata` entry or one that is a mapping: the case in
which a setter of a metadata field takes effect. -/
def metadataSettable (m : List (String × Value)) : Bool :=
  match lookup "metadata" m with
  | none => true
  | some (.map _) => true
  | some _ => false

def Unstructured.GetKind (u : Unstructured) : String := fieldString "kind" u.Object

def Unstructured.GetAPIVersion (u : Unstructured) : String := fieldString "apiVersion" u.Object

def Unstructured.GetName (u : Unstructured) : String := fieldString "name" (metadataOf u.Object)

def Unstructured.GetNamespace (u : Unstructured) : String :=
  fieldString "namespace" (metadataOf u.Object)

def Unstructured.SetKind (u : Unstructured) (kind : String) : Unstructured :=
  { Object := insert "kind" (.str kind) u.Object }

def Unstructured.SetAPIVersion (u : Unstructured) (version : String) : Unstructured :=
  { Object := insert "apiVersion" (.str version) u.Object }

/-- `SetName`: the empty name removes the field. -/
def Unstructured.SetName (u : Unstructured) (name : String) : Unstructured :=
  if name = "" then { Object := removeMetadata "name" u.Object }
  else { Object := setMetadata "name" (.str name) u.Object }

/-- `SetNamespace`: the empty namespace removes the field. -/
def Unstructured.SetNamespace (u : Unstructured) (ns : String) : Unstructured :=
  if ns = "" then { Object := removeMetadata "namespace" u.Object }
  else { Object := setMetadata "namespace" (.str ns) u.Object }

/-- Convert a mapping to `map[string]string`; `none` (Go `nil`) when some entry
is not a string. -/
def toStringMap : List (String × Value) → Option (List (String × String))
  | [] => some []
  | (k, .str s) :: rest => (toStringMap rest).map (fun r => (k, s) :: r)
  | _ :: _ => none

def ofStringMap (a : List (String × String)) : List (String × Value) :=
  a.map (fun p => (p.1, Value.str p.2))

/-- The annotations of an object, `nil` when there are none. -/
def Unstructured.GetAnnotations (u : Unstructured) : Option (List (String × String)) :=
  match lookup "annotations" (metadataOf u.Object) with
  | some (.map a) => toStringMap a
  | _ => none

def Unstructured.SetAnnotations (u : Unstructured)
    (annotations : Option (List (String × String))) : Unstructured :=
  match annotations with
  | none => { Object := removeMetadata "annotations" u.Object }
  | some a => { Object := setMetadata "annotations" (.map (ofStringMap a)) u.Object }

/-! ## Sources, errors and the cluster client -/

/-- Model of `osbv1alpha1.Source`: an owned resource named by four strings. -/
structure Source where
  APIVersion : String
  Kind : String
  Name : String
  Namespace : String
deriving DecidableEq

/-- An error value: whether `apiErrors.IsNotFound` holds of it, and its message. -/
structure Error where
  IsNotFound : Bool
  message : String
deriving DecidableEq

/-- The four operations of `kubernetes.Client` used by the resource manager,
over a cluster state `σ`.  `Get` receives the key and the object to fill and
answers the fetched object or an error; the others answer `nil` or an error. -/
structure Client (σ : Type) where
  Get : σ → NamespacedName → Unstructured → Except Error Unstructured × σ
  Create : σ → Unstructured → Option Error × σ
  Update : σ → Unstructured → Option Error × σ
  Delete : σ → Unstructured → Option Error × σ

deriving instance DecidableEq for Except

/-- One call that reached the client, with its argument and its answer. -/
inductive Call where
  | Get (key : NamespacedName) (obj : Unstructured) (answer : Except Error Unstructured) : Call
  | Create (obj : Unstructured) (answer : Option Error) : Call
  | Update (obj : Unstructured) (answer : Option Error) : Call
  | Delete (obj : Unstructured) (answer : Option Error) : Call
deriving DecidableEq

/-- A client that behaves as `c` and appends every call to a log. -/
def Client.recorded {σ : Type} (c : Client σ) : Client (σ × List Call) where
  Get := fun s key obj =>
    let r := c.Get s.1 key obj
    (r.1, (r.2, s.2 ++ [Call.Get key obj r.1]))
  Create := fun s obj =>
    let r := c.Create s.1 obj
    (r.1, (r.2, s.2 ++ [Call.Create obj r.1]))
  Update := fun s obj =>
    let r := c.Update s.1 obj
    (r.1, (r.2, s.2 ++ [Call.Update obj r.1]))
  Delete := fun s obj =>
    let r := c.Delete s.1 obj
    (r.1, (r.2, s.2 ++ [Call.Delete obj r.1]))

/-- The bare object `{kind, apiVersion, name, namespace}` built from a Source
(`resource := &unstructured.Unstructured{}` followed by the four setters). -/
def sourceToUnstructured (src : Source) : Unstructured :=
  ((((Unstructured.mk []).SetKind src.Kind).SetAPIVersion src.APIVersion).SetName
    src.Name).SetNamespace src.Namespace

/-! ## Sub-resource deletion -/

/-- API versions whose objects are torn down by their own operator. -/
def specialDelete : List String :=
  ["deployment.servicefabrik.io/v1alpha1", "bind.servicefabrik.io/v1alpha1"]

/-- The body written by the state-transition delete: `status["state"] = "delete"`
on the given status mapping, stored back under `status`. -/
def markDeleted (content status : List (String × Value)) : List (String × Value) :=
  insert "status" (.map (insert "state" (.str "delete") status)) content

/-- `resourceManager.deleteSubResource`. -/
def deleteSubResource {σ : Type} (client : Client σ) (s : σ) (resource : Unstructured) :
    Option Error × σ :=
  let apiVersion := resource.GetAPIVersion
  if specialDelete.contains apiVersion then
    let namespacedName : NamespacedName :=
      { Name := resource.GetName, Namespace := resource.GetNamespace }
    match client.Get s namespacedName resource with
    | (.error err, s1) => (some err, s1)
    | (.ok resource, s1) =>
      let content := resource.Object
      match lookup "status" content with
      | some (.map status) =>
        client.Update s1 { Object := markDeleted content status }
      | some _ =>
        (some { IsNotFound := false, message := "status field not map for resource" }, s1)
      | none =>
        client.Update s1 { Object := markDeleted content [] }
  else
    client.Delete s resource

/-- The loop of `DeleteSubResources`, carrying `remainingResource` and `lastError`. -/
def DeleteSubResources.loop {σ : Type} (client : Client σ) :
    σ → List Source → List Source → Option Error → (List Source × Option Error) × σ
  | s, [], remainingResource, lastError => ((remainingResource, lastError), s)
  | s, subResource :: rest, remainingResource, lastError =>
    let resource := sourceToUnstructured subResource
    match deleteSubResource client s resource with
    | (some err, s1) =>
      if err.IsNotFound then
        DeleteSubResources.loop client s1 rest remainingResource lastError
      else
        DeleteSubResources.loop client s1 rest (remainingResource ++ [subResource]) (some err)
    | (none, s1) =>
      DeleteSubResources.loop client s1 rest (remainingResource ++ [subResource]) lastError

/-- `resourceManager.DeleteSubResources`: the remaining Sources, the last error
and the cluster state left behind. -/
def DeleteSubResources {σ : Type} (client : Client σ) (s : σ) (subResources : List Source) :
    (List Source × Option Error) × σ :=
  DeleteSubResources.loop client s subResources [] none

/-! ## Ownership stamping -/

/-- The owner as seen through `metav1.Object`: its name and namespace. -/
structure ObjectMeta where
  Name : String
  Namespace : String
deriving DecidableEq

/-- Model of `schema.GroupVersionKind`. -/
structure GroupVersionKind where
  Group : String
  Version : String
  Kind : String
deriving DecidableEq

/-- `GroupVersion().String()`: `group/version`, or the version alone for the
empty group. -/
def GroupVersionKind.GroupVersionString (gvk : GroupVersionKind) : String :=
  if gvk.Group = "" then gvk.Version else gvk.Group ++ "/" ++ gvk.Version

/-- The annotation keys `constants.OwnerNameKey`, `OwnerNamespaceKey`,
`OwnerKindKey` and `OwnerAPIVersionKey`.  Their declarations are not part of
the sources at hand, so the keys are a parameter of the development. -/
structure OwnerKeys where
  OwnerNameKey : String
  OwnerNamespaceKey : String
  OwnerKindKey : String
  OwnerAPIVersionKey : String
deriving DecidableEq

/-- The four keys are different strings. -/
def OwnerKeys.Distinct (keys : OwnerKeys) : Prop :=
  keys.OwnerNameKey ≠ keys.OwnerNamespaceKey ∧ keys.OwnerNameKey ≠ keys.OwnerKindKey ∧
  keys.OwnerNameKey ≠ keys.OwnerAPIVersionKey ∧ keys.OwnerNamespaceKey ≠ keys.OwnerKindKey ∧
  keys.OwnerNamespaceKey ≠ keys.OwnerAPIVersionKey ∧ keys.OwnerKindKey ≠ keys.OwnerAPIVersionKey

instance (keys : OwnerKeys) : Decidable keys.Distinct := by
  unfold OwnerKeys.Distinct; infer_instance

/-- The body of the loop of `SetOwnerReference`, for one resource. -/
def setOwnerAnnotations (keys : OwnerKeys) (owner : ObjectMeta) (ownerGVK : GroupVersionKind)
    (obj : Unstructured) : Unstructured :=
  let annotations := obj.GetAnnotations
  let annotations := match annotations with
    | none => []
    | some a => a
  let annotations := insert keys.OwnerNameKey owner.Name annotations
  let annotations := insert keys.OwnerNamespaceKey owner.Namespace annotations
  let annotations := insert keys.OwnerKindKey ownerGVK.Kind annotations
  let annotations := insert keys.OwnerAPIVersionKey ownerGVK.GroupVersionString annotations
  obj.SetAnnotations (some annotations)

/-- `resourceManager.SetOwnerReference`: the resources after the in-place
update, and the returned error (always `nil`). -/
def SetOwnerReference (keys : OwnerKeys) (owner : ObjectMeta) (ownerGVK : GroupVersionKind)
    (resources : List Unstructured) : List Unstructured × Option Error :=
  (resources.map (setOwnerAnnotations keys owner ownerGVK), none)

/-! ## Structural merge -/

mutual
/-- Modelled from the spec: `dynamic.DeepUpdate` (package `internal/dynamic`) is
not among the sources.  Section 4.6: every key of `expected` is merged
recursively into `found`, scalars are overwritten, nested mappings are merged
key by key, arrays are replaced wholesale, keys only in `found` are kept. -/
def merge : Value → Value → Value
  | .map found, .map expected => .map (mergeFields found expected)
  | _, expected => expected
/-- Modelled from the spec: the key-by-key merge of the entries of `expected`
into the mapping `found` (see `merge`). -/
def mergeFields : List (String × Value) → List (String × Value) → List (String × Value)
  | found, [] => found
  | found, (k, v) :: rest =>
    match lookup k found with
    | some fv => mergeFields (insert k (merge fv v) found) rest
    | none => mergeFields (insert k v found) rest
end

/-- Modelled from the spec: `dynamic.DeepUpdate`, absent from the sources.
Section 4.6: the merged document and `changed`, which "is true iff the merge
result differs from `found`". -/
def DeepUpdate (currentObj newObj : Value) : Value × Bool :=
  let merged := merge currentObj newObj
  (merged, decide (merged ≠ currentObj))

/-! ## Reconciliation -/

/-- `resourceManager.unstructuredToSource`. -/
def unstructuredToSource (object : Unstructured) : Source :=
  { Kind := object.GetKind, APIVersion := object.GetAPIVersion, Name := object.GetName,
    Namespace := object.GetNamespace }

/-- `resourceManager.findUnstructuredObject`. -/
def findUnstructuredObject : List Unstructured → Unstructured → Bool
  | [], _ => false
  | object :: list, item =>
    if object.GetKind = item.GetKind ∧ object.GetAPIVersion = item.GetAPIVersion ∧
        object.GetName = item.GetName ∧ object.GetNamespace = item.GetNamespace then
      true
    else
      findUnstructuredObject list item

/-- First loop of `ReconcileResources` (lines 203-246): fetch every expected
resource, create it when it is not found, update it when the merge changes it.
Carries `foundResources`; a hard error ends the loop. -/
def reconcileExpected {σ : Type} (targetClient : Client σ) :
    σ → List Unstructured → List Unstructured → Except Error (List Unstructured) × σ
  | s, [], foundResources => (.ok foundResources, s)
  | s, expectedResource :: rest, foundResources =>
    let kind := expectedResource.GetKind
    let apiVersion := expectedResource.GetAPIVersion
    let foundResource := ((Unstructured.mk []).SetKind kind).SetAPIVersion apiVersion
    let namespacedName : NamespacedName :=
      { Name := expectedResource.GetName, Namespace := expectedResource.GetNamespace }
    let foundResource :=
      (foundResource.SetName namespacedName.Name).SetNamespace namespacedName.Namespace
    match targetClient.Get s namespacedName foundResource with
    | (.error err, s1) =>
      if err.IsNotFound then
        match targetClient.Create s1 expectedResource with
        | (some err, s2) => (.error err, s2)
        | (none, s2) => reconcileExpected targetClient s2 rest (foundResources ++ [foundResource])
      else
        (.error err, s1)
    | (.ok foundResource, s1) =>
      match DeepUpdate (.map foundResource.Object) (.map expectedResource.Object) with
      | (.map updatedResource, true) =>
        let foundResource : Unstructured := { Object := updatedResource }
        match targetClient.Update s1 foundResource with
        | (some err, s2) => (.error err, s2)
        | (none, s2) => reconcileExpected targetClient s2 rest (foundResources ++ [foundResource])
      | (_, true) =>
        -- `updatedResource.(map[string]interface{})` on a value that is no mapping
        (.error { IsNotFound := false, message := "interface conversion" }, s1)
      | (_, false) =>
        reconcileExpected targetClient s1 rest (foundResources ++ [foundResource])

/-- Second loop of `ReconcileResources` (lines 248-265): delete every previous
Source that matches no found resource; a Source whose delete fails is added to
`foundResources`. -/
def deleteOutdated {σ : Type} (targetClient : Client σ) :
    σ → List Source → List Unstructured → List Unstructured × σ
  | s, [], foundResources => (foundResources, s)
  | s, lastResource :: rest, foundResources =>
    let oldResource := sourceToUnstructured lastResource
    if findUnstructuredObject foundResources oldResource then
      deleteOutdated targetClient s rest foundResources
    else
      match targetClient.Delete s oldResource with
      | (some _, s1) => deleteOutdated targetClient s1 rest (foundResources ++ [oldResource])
      | (none, s1) => deleteOutdated targetClient s1 rest foundResources

/-- `resourceManager.ReconcileResources`.  The source client is not used by the
function and is left out. -/
def ReconcileResources {σ : Type} (targetClient : Client σ) (s : σ)
    (expectedResources : List Unstructured) (lastResources : List Source) :
    Except Error (List Source) × σ :=
  match reconcileExpected targetClient s expectedResources [] with
  | (.error err, s1) => (.error err, s1)
  | (.ok foundResources, s1) =>
    match deleteOutdated targetClient s1 lastResources foundResources with
    | (foundResources, s2) => (.ok (foundResources.map unstructuredToSource), s2)

/-! ## An in-memory target cluster -/

/-- A cluster that only this program changes: the objects it holds. -/
abbrev Cluster := List Unstructured

/-- The object stored under a key, if any. -/
def Cluster.find : Cluster → Source → Option Unstructured
  | [], _ => none
  | o :: rest, key => if unstructuredToSource o = key then some o else Cluster.find rest key

/-- Put `obj` in the place of the object stored under its key. -/
def Cluster.replace : Cluster → Unstructured → Cluster
  | [], _ => []
  | o :: rest, obj =>
    if unstructuredToSource o = unstructuredToSource obj then obj :: rest
    else o :: Cluster.replace rest obj

/-- Drop what is stored under a key. -/
def Cluster.remove : Cluster → Source → Cluster
  | [], _ => []
  | o :: rest, key =>
    if unstructuredToSource o = key then Cluster.remove rest key
    else o :: Cluster.remove rest key

/-- The client of an in-memory cluster: `Get` answers the stored object or
not-found, `Create` adds an object under a free key, `Update` replaces the
object stored under the key, `Delete` removes it or answers not-found. -/
def memoryClient : Client Cluster where
  Get := fun s key obj =>
    match Cluster.find s { Kind := obj.GetKind, APIVersion := obj.GetAPIVersion,
                           Name := key.Name, Namespace := key.Namespace } with
    | some o => (.ok o, s)
    | none => (.error { IsNotFound := true, message := "not found" }, s)
  Create := fun s obj =>
    match Cluster.find s (unstructuredToSource obj) with
    | some _ => (some { IsNotFound := false, message := "already exists" }, s)
    | none => (none, s ++ [obj])
  Update := fun s obj =>
    match Cluster.find s (unstructuredToSource obj) with
    | some _ => (none, Cluster.replace s obj)
    | none => (some { IsNotFound := true, message := "not found" }, s)
  Delete := fun s obj =>
    match Cluster.find s (unstructuredToSource obj) with
    | some _ => (none, Cluster.remove s (unstructuredToSource obj))
    | none => (some { IsNotFound := true, message := "not found" }, s)

/-- A client without state whose answers depend on the object only; used to
exhibit runs in which single calls fail. -/
def scriptedClient (get : Unstructured → Except Error Unstructured)
    (create update delete : Unstructured → Option Error) : Client Unit where
  Get := fun s _ obj => (get obj, s)
  Create := fun s obj => (create obj, s)
  Update := fun s obj => (update obj, s)
  Delete := fun s obj => (delete obj, s)

/-! ## Observations used to state the properties -/

/-- The deletion attempts of `DeleteSubResources`, one per Source in input
order: `deleteSubResource` run on the bare object of each Source, each attempt
starting in the state the previous one left. -/
def deleteAttempts {σ : Type} (client : Client σ) :
    σ → List Source → List (Source × Option Error) × σ
  | s, [] => ([], s)
  | s, subResource :: rest =>
    let r := deleteSubResource client s (sourceToUnstructured subResource)
    let t := deleteAttempts client r.2 rest
    ((subResource, r.1) :: t.1, t.2)

/-- The attempt reported a not-found error. -/
def attemptNotFound (r : Option Error) : Bool :=
  match r with
  | some err => err.IsNotFound
  | none => false

/-- The error of an attempt that failed with something else than not-found. -/
def attemptFailure (r : Option Error) : Option Error :=
  match r with
  | some err => if err.IsNotFound then none else some err
  | none => none

/-- The Sources of the attempts that did not report not-found, in order. -/
def keptSources (a : List (Source × Option Error)) : List Source :=
  (a.filter (fun p => !attemptNotFound p.2)).map Prod.fst

/-- The errors of the attempts that failed with something else than not-found,
in order. -/
def hardErrors (a : List (Source × Option Error)) : List Error :=
  a.filterMap (fun p => attemptFailure p.2)

/-- The `status` mapping of a content tree; empty when the field is missing. -/
def statusOf (m : List (String × Value)) : List (String × Value) :=
  match lookup "status" m with
  | some (.map st) => st
  | _ => []

/-- The object a call was made for. -/
def Call.obj : Call → Unstructured
  | .Get _ obj _ => obj
  | .Create obj _ => obj
  | .Update obj _ => obj
  | .Delete obj _ => obj

def Call.isCreate : Call → Bool
  | .Create _ _ => true
  | _ => false

def Call.isUpdate : Call → Bool
  | .Update _ _ => true
  | _ => false

def Call.isDelete : Call → Bool
  | .Delete _ _ => true
  | _ => false

mutual
/-- Every mapping of the tree has pairwise different keys, as every Go
`map[string]interface{}` has. -/
def Value.WF : Value → Bool
  | .arr items => Value.WFList items
  | .map fields => decide ((fields.map Prod.fst).Nodup) && Value.WFFields fields
  | _ => true
/-- Every value of the array is well formed. -/
def Value.WFList : List Value → Bool
  | [] => true
  | v :: rest => Value.WF v && Value.WFList rest
/-- Every value stored in the mapping is well formed. -/
def Value.WFFields : List (String × Value) → Bool
  | [] => true
  | (_, v) :: rest => Value.WF v && Value.WFFields rest
end

/-- The value stored under a key of `expected` after the merge, from the value
`found` had there, if any. -/
def mergedEntry (fv : Option Value) (v : Value) : Value :=
  match fv with
  | some x => merge x v
  | none => v

/-- The annotations of an object as a mapping, empty when there are none. -/
def annotationsOf (u : Unstructured) : List (String × String) :=
  match u.GetAnnotations with
  | none => []
  | some a => a

/-- The key under which `ReconcileResources` looks an expected resource up. -/
def namespacedNameOf (e : Unstructured) : NamespacedName :=
  { Name := e.GetName, Namespace := e.GetNamespace }

/-- The bare object `{kind, apiVersion, name, namespace}` handed to `Get` for
an expected resource. -/
def bareOf (e : Unstructured) : Unstructured := sourceToUnstructured (unstructuredToSource e)

/-- The calls that create every resource of the list: a `Get` answered
not-found, then a `Create` that succeeds. -/
def createCalls : List Unstructured → List Call
  | [] => []
  | e :: rest =>
    Call.Get (namespacedNameOf e) (bareOf e) (.error { IsNotFound := true, message := "not found" })
      :: Call.Create e none :: createCalls rest

/-! ## Plans and templates -/

def ProvisionAction : String := "provision"

def PropertiesAction : String := "properties"

def BindAction : String := "bind"

def SourcesAction : String := "sources"

/-- Modelled from the spec: `osbv1alpha1.StatusAction` is used by `ComputeStatus`
and is not declared in the sources at hand; the glossary names the four
actions provision, bind, sources and status. -/
def StatusAction : String := "status"

/-- `TemplateSpec`; the field `Type` is written `Type'`. -/
structure TemplateSpec where
  Action : String
  Type' : String
  URL : String
  Content : String
deriving DecidableEq

/-- `SFPlanSpec`, without its raw-extension fields. -/
structure SFPlanSpec where
  Name : String
  ID : String
  Description : String
  Free : Bool
  Bindable : Bool
  PlanUpdatable : Bool
  Templates : List TemplateSpec
  ServiceID : String
deriving DecidableEq

structure SFPlan where
  ObjectMeta : ObjectMeta
  Spec : SFPlanSpec
deriving DecidableEq

/-- The loop of `GetTemplate` over `sfPlan.Spec.Templates`. -/
def SFPlan.GetTemplate.loop (action : String) : List TemplateSpec → Except Error TemplateSpec
  | [] => .error { IsNotFound := false, message := "failed to get template " ++ action }
  | template :: rest =>
    if template.Action = action then .ok template else SFPlan.GetTemplate.loop action rest

/-- `SFPlan.GetTemplate`. -/
def SFPlan.GetTemplate (sfPlan : SFPlan) (action : String) : Except Error TemplateSpec :=
  SFPlan.GetTemplate.loop action sfPlan.Spec.Templates

/-! ## Entities of the source cluster -/

/-- `SFServiceBindingSpec`; a raw extension is kept as its text. -/
structure SFServiceBindingSpec where
  ID : String
  InstanceID : String
  PlanID : String
  ServiceID : String
  AppGUID : String
  BindResource : Option String
  RawContext : Option String
  RawParameters : Option String
  AcceptsIncomplete : Bool
deriving DecidableEq

structure BindingResponse where
  SecretRef : String
deriving DecidableEq

structure SFServiceBindingStatus where
  State : String
  Error : String
  Response : BindingResponse
  AppliedSpec : SFServiceBindingSpec
  Resources : List Source
deriving DecidableEq

structure SFServiceBinding where
  ObjectMeta : ObjectMeta
  Spec : SFServiceBindingSpec
  Status : SFServiceBindingStatus
deriving DecidableEq

/-- A service instance.  The declaration of `SFServiceInstance` is not among
the sources; the functions at hand read its name only, the rest of the object
is kept as its generic form. -/
structure SFServiceInstance where
  ObjectMeta : ObjectMeta
  Content : List (String × Value)
deriving DecidableEq

/-- A service.  The declaration of `SFService` is not among the sources; its
`Spec.ID` is kept, the rest of the object is kept as its generic form. -/
structure SFService where
  ObjectMeta : ObjectMeta
  ID : String
  Content : List (String × Value)
deriving DecidableEq

/-! ## Renderers and the renderer factory -/

/-- The input of a renderer: `helm.NewInput(chartPath, releaseName, namespace,
values)` or `gotemplate.NewInput(content, name, values)`. -/
inductive Input where
  | helm (chartPath releaseName namespace' : String) (values : List (String × Value)) : Input
  | gotemplate (content name : String) (values : List (String × Value)) : Input
deriving DecidableEq

/-- The interface `renderer.Output`: the list of files and the content of a file. -/
structure Output where
  ListFiles : Except Error (List String)
  FileContent : String → Except Error String

/-- The interface `renderer.Renderer`. -/
structure Renderer where
  Render : Input → Except Error Output

/-- The error of the `default` case of the factory functions. -/
def notImplemented (rendererType : String) : Error :=
  { IsNotFound := false,
    message := "unable to create renderer for type " ++ rendererType ++ ". not implemented" }

/-- `factory.GetRenderer`.  The results of `helm.New(clientSet)` and of
`gotemplate.New()` are parameters. -/
def GetRenderer (helmNew gotemplateNew : Except Error Renderer) (rendererType : String) :
    Except Error Renderer :=
  if rendererType = "helm" ∨ rendererType = "Helm" ∨ rendererType = "HELM" then
    helmNew
  else if rendererType = "gotemplate" ∨ rendererType = "Gotemplate" ∨
      rendererType = "GoTemplate" ∨ rendererType = "GOTEMPLATE" then
    gotemplateNew
  else
    .error (notImplemented rendererType)

/-- What the resource manager takes from outside the sources at hand: the
environment variable `POD_NAMESPACE`, the constructors of the two renderers,
`dynamic.ObjectToMapInterface` on the four entities,
`dynamic.StringToUnstructured`, `properties.ParseSources` and
`properties.ParseStatus`. -/
structure Externals where
  podNamespace : String
  helmNew : Except Error Renderer
  gotemplateNew : Except Error Renderer
  serviceToMap : SFService → Except Error (List (String × Value))
  planToMap : SFPlan → Except Error (List (String × Value))
  instanceToMap : SFServiceInstance → Except Error (List (String × Value))
  bindingToMap : SFServiceBinding → Except Error (List (String × Value))
  StringToUnstructured : String → Except Error (List Unstructured)
  ParseSources : String → Except Error (List (String × Source))
  ParseStatus : String → Except Error Value

/-- One block of `GetRendererInput`: when the entity is not nil, convert it and
store it in `values` under the key. -/
def addValue {α : Type} (toMap : α → Except Error (List (String × Value))) (key : String)
    (entity : Option α) (values : List (String × Value)) :
    Except Error (List (String × Value)) :=
  match entity with
  | none => .ok values
  | some obj =>
    match toMap obj with
    | .error err => .error err
    | .ok m => .ok (insert key (.map m) values)

/-- The `switch rendererType` that ends `GetRendererInput` and
`GetPropertiesRendererInput`. -/
def newInput (template : TemplateSpec) (name : NamespacedName) (values : List (String × Value)) :
    Except Error Input :=
  let rendererType := template.Type'
  if rendererType = "helm" ∨ rendererType = "Helm" ∨ rendererType = "HELM" then
    .ok (Input.helm template.URL name.Name name.Namespace values)
  else if rendererType = "gotemplate" ∨ rendererType = "Gotemplate" ∨
      rendererType = "GoTemplate" ∨ rendererType = "GOTEMPLATE" then
    .ok (Input.gotemplate template.Content name.Name values)
  else
    .error (notImplemented rendererType)

/-- The four blocks of `GetRendererInput` that fill `values` from the entities
that are not nil. -/
def rendererValues (ext : Externals) (service : Option SFService) (plan : Option SFPlan)
    (instance' : Option SFServiceInstance) (binding : Option SFServiceBinding) :
    Except Error (List (String × Value)) :=
  match addValue ext.serviceToMap "service" service [] with
  | .error err => .error err
  | .ok values =>
    match addValue ext.planToMap "plan" plan values with
    | .error err => .error err
    | .ok values =>
      match addValue ext.instanceToMap "instance" instance' values with
      | .error err => .error err
      | .ok values => addValue ext.bindingToMap "binding" binding values

/-- `factory.GetRendererInput`. -/
def GetRendererInput (ext : Externals) (template : TemplateSpec) (service : Option SFService)
    (plan : Option SFPlan) (instance' : Option SFServiceInstance)
    (binding : Option SFServiceBinding) (name : NamespacedName) : Except Error Input :=
  match rendererValues ext service plan instance' binding with
  | .error err => .error err
  | .ok values => newInput template name values

/-- The loop `values[key] = val.Object` of `GetPropertiesRendererInput`. -/
def sourceValues : List (String × Unstructured) → List (String × Value) → List (String × Value)
  | [], values => values
  | (key, val) :: rest, values => sourceValues rest (insert key (.map val.Object) values)

/-- `factory.GetPropertiesRendererInput`; `ComputeStatus` calls it under the
name `GetStatusRendererInput`. -/
def GetPropertiesRendererInput (template : TemplateSpec) (name : NamespacedName)
    (sources : List (String × Unstructured)) : Except Error Input :=
  newInput template name (sourceValues sources [])

/-- The strings are equal when the case of the letters A to Z is ignored. -/
def foldChar (c : Char) : Char :=
  if 65 ≤ c.toNat ∧ c.toNat ≤ 90 then Char.ofNat (c.toNat + 32) else c

/-- The two strings are equal when letter case is ignored. -/
def equalFold (a b : String) : Bool :=
  decide (a.data.map foldChar = b.data.map foldChar)

/-! ## The chart renderer -/

/-- Suffixes of rendered files that are left out. -/
def ignoreFileSuffix : List String := ["NOTES.txt"]

/-- Go `path.Base`: the last element of a slash-separated path, trailing
slashes removed; `.` for the empty path and `/` for a path of slashes only. -/
def pathBase (path : String) : String :=
  if path.data = [] then "."
  else
    let stripped := (path.data.reverse.dropWhile (fun c => c = '/')).reverse
    let last := (stripped.reverse.takeWhile (fun c => c ≠ '/')).reverse
    if last = [] then "/" else String.mk last

/-- Go `strings.HasPrefix`. -/
def HasPrefix (s pre : String) : Bool := pre.data.isPrefixOf s.data

/-- Go `strings.HasSuffix`. -/
def HasSuffix (s suf : String) : Bool := suf.data.isSuffixOf s.data

/-- The test of the loop of `renderResources`: the file is deleted. -/
def ignoredFile (k : String) : Bool :=
  HasPrefix (pathBase k) "_" || ignoreFileSuffix.any (fun suffix => HasSuffix k suffix)

/-- `helmOutput`. -/
structure helmOutput where
  Name : String
  Files : List (String × String)
deriving DecidableEq

/-- `helmRenderer.renderResources`.  The result of the template engine,
`r.renderer.Render(ch, values)`, and the name of the chart are parameters. -/
def renderResources (rendered : Except Error (List (String × String))) (chartName : String) :
    Except Error helmOutput :=
  match rendered with
  | .error err => .error err
  | .ok files =>
    .ok { Name := chartName, Files := files.filter (fun entry => !ignoredFile entry.1) }
/-! ## The composition of resources and of the status -/

/-- The codes of the typed not-found errors. -/
inductive ErrorCode where
  | SFServiceInstanceNotFound : ErrorCode
  | SFServiceBindingNotFound : ErrorCode
  | SFServiceNotFound : ErrorCode
  | SFPlanNotFound : ErrorCode
deriving DecidableEq

/-- Modelled from the spec: package `errors` is not among the sources.  An
error value returned by the resource manager is a typed not-found error
(`errors.NewSFServiceInstanceNotFound(id, err)` and its three siblings, section
4.3: `InstanceNotFound`, `BindingNotFound`, `ServiceNotFound`, `PlanNotFound`),
carrying the identifier and the cause, or any other error, passed on as is. -/
inductive Failure where
  | plain (err : Error) : Failure
  | notFound (code : ErrorCode) (id : String) (cause : Option Error) : Failure
deriving DecidableEq

/-- How a call ends: with a result, with an error, or with a run-time panic
(a method called through a nil pointer). -/
inductive Outcome (α : Type) where
  | ok (a : α) : Outcome α
  | error (err : Failure) : Outcome α
  | panic : Outcome α
deriving DecidableEq

/-- The reads of the source cluster made by `fetchResources`: `client.Get` into
an `SFServiceInstance`, `client.Get` into an `SFServiceBinding`, and
`services.FindServiceInfo(client, serviceID, planID, serviceNamespace)`, which
is not among the sources. -/
structure SourceClient (σ : Type) where
  GetInstance : σ → NamespacedName → Except Error SFServiceInstance × σ
  GetBinding : σ → NamespacedName → Except Error SFServiceBinding × σ
  FindServiceInfo : σ → String → String → String →
    Except Failure (Option SFService × Option SFPlan) × σ

def DefaultServiceFabrikNamespace : String := "default"

/-- `fetchResources`, lines 54-67: the instance. -/
def fetchInstance {σ : Type} (client : SourceClient σ) (s : σ) (instanceID namespace' : String) :
    Except Failure (Option SFServiceInstance) × σ :=
  if instanceID ≠ "" then
    match client.GetInstance s { Name := instanceID, Namespace := namespace' } with
    | (.error err, s1) =>
      if err.IsNotFound then
        (.error (.notFound .SFServiceInstanceNotFound instanceID (some err)), s1)
      else
        (.error (.plain err), s1)
    | (.ok instance', s1) => (.ok (some instance'), s1)
  else
    (.ok none, s)

/-- `fetchResources`, lines 69-79: the service and the plan. -/
def fetchServiceInfo {σ : Type} (client : SourceClient σ) (podNamespace : String) (s : σ)
    (serviceID planID : String) : Except Failure (Option SFService × Option SFPlan) × σ :=
  if serviceID ≠ "" ∧ planID ≠ "" then
    let serviceNamespace :=
      if podNamespace = "" then DefaultServiceFabrikNamespace else podNamespace
    client.FindServiceInfo s serviceID planID serviceNamespace
  else
    (.ok (none, none), s)

/-- `fetchResources`, lines 81-94: the binding. -/
def fetchBinding {σ : Type} (client : SourceClient σ) (s : σ) (bindingID namespace' : String) :
    Except Failure (Option SFServiceBinding) × σ :=
  if bindingID ≠ "" then
    match client.GetBinding s { Name := bindingID, Namespace := namespace' } with
    | (.error err, s1) =>
      if err.IsNotFound then
        (.error (.notFound .SFServiceBindingNotFound bindingID (some err)), s1)
      else
        (.error (.plain err), s1)
    | (.ok binding, s1) => (.ok (some binding), s1)
  else
    (.ok none, s)

/-- The four entities that `fetchResources` returns, each possibly nil. -/
structure Fetched where
  instance' : Option SFServiceInstance
  binding : Option SFServiceBinding
  service : Option SFService
  plan : Option SFPlan
deriving DecidableEq

/-- `resourceManager.fetchResources`. -/
def fetchResources {σ : Type} (client : SourceClient σ) (podNamespace : String) (s : σ)
    (instanceID bindingID serviceID planID namespace' : String) : Except Failure Fetched × σ :=
  match fetchInstance client s instanceID namespace' with
  | (.error err, s1) => (.error err, s1)
  | (.ok instance', s1) =>
    match fetchServiceInfo client podNamespace s1 serviceID planID with
    | (.error err, s2) => (.error err, s2)
    | (.ok (service, plan), s2) =>
      match fetchBinding client s2 bindingID namespace' with
      | (.error err, s3) => (.error err, s3)
      | (.ok binding, s3) =>
        (.ok { instance' := instance', binding := binding, service := service, plan := plan }, s3)

/-- Lines 115-123 and 307-315: the name handed to the renderer input.
`instance.GetName()` and `binding.GetName()` are calls through pointers. -/
def targetName (action namespace' : String) (instance' : Option SFServiceInstance)
    (binding : Option SFServiceBinding) : Outcome NamespacedName :=
  match instance' with
  | none => .panic
  | some inst =>
    let name : NamespacedName := { Namespace := namespace', Name := inst.ObjectMeta.Name }
    if action = BindAction then
      match binding with
      | none => .panic
      | some b => .ok { name with Name := b.ObjectMeta.Name }
    else
      .ok name

/-- Lines 125-151 and their copies in `ComputeStatus`: select the renderer of a
template, build the input with the function given and render it. -/
def renderTemplate (ext : Externals) (template : TemplateSpec) (input : Except Error Input) :
    Except Error Output :=
  match GetRenderer ext.helmNew ext.gotemplateNew template.Type' with
  | .error err => .error err
  | .ok renderer =>
    match input with
    | .error err => .error err
    | .ok input => renderer.Render input

/-- The loop of lines 160-177: parse every listed file and stamp every
document with the namespace. -/
def parseFiles (ext : Externals) (output : Output) (namespace' : String) :
    List String → List Unstructured → Except Error (List Unstructured)
  | [], resources => .ok resources
  | file :: rest, resources =>
    match output.FileContent file with
    | .error err => .error err
    | .ok subResourcesString =>
      match ext.StringToUnstructured subResourcesString with
      | .error err => .error err
      | .ok subresources =>
        parseFiles ext output namespace' rest
          (resources ++ subresources.map (fun obj => obj.SetNamespace namespace'))

/-- Lift an error into an outcome. -/
def Outcome.ofExcept {α : Type} (r : Except Error α) : Outcome α :=
  match r with
  | .error err => .error (.plain err)
  | .ok a => .ok a

/-- `ComputeExpectedResources` from line 115 on: what is computed from the
entities once the plan and the service are known not to be nil. -/
def expectedResourcesOf (ext : Externals) (instance' : Option SFServiceInstance)
    (binding : Option SFServiceBinding) (service : SFService) (plan : SFPlan)
    (action namespace' : String) : Outcome (List Unstructured) :=
  match targetName action namespace' instance' binding with
  | .panic => .panic
  | .error err => .error err
  | .ok name =>
    match plan.GetTemplate action with
    | .error err => .error (.plain err)
    | .ok template =>
      match renderTemplate ext template
          (GetRendererInput ext template (some service) (some plan) instance' binding name) with
      | .error err => .error (.plain err)
      | .ok output =>
        match output.ListFiles with
        | .error err => .error (.plain err)
        | .ok files => Outcome.ofExcept (parseFiles ext output namespace' files [])

/-- `resourceManager.ComputeExpectedResources`. -/
def ComputeExpectedResources {σ : Type} (client : SourceClient σ) (ext : Externals) (s : σ)
    (instanceID bindingID serviceID planID action namespace' : String) :
    Outcome (List Unstructured) × σ :=
  match fetchResources client ext.podNamespace s instanceID bindingID serviceID planID
      namespace' with
  | (.error err, s1) => (.error err, s1)
  | (.ok fetched, s1) =>
    match fetched.plan with
    | none => (.error (.notFound .SFPlanNotFound planID none), s1)
    | some plan =>
      match fetched.service with
      | none => (.error (.notFound .SFServiceNotFound serviceID none), s1)
      | some service =>
        (expectedResourcesOf ext fetched.instance' fetched.binding service plan action
          namespace', s1)

/-- Lines 356-362 and 435-441: the file to read, the first one unless a file
of the preferred name is listed. -/
def preferredFile (preferred first : String) : List String → String
  | [] => first
  | file :: rest => if file = preferred then file else preferredFile preferred first rest

/-- The loop of lines 376-394: fetch the object of every source that has a
name; a source whose `Get` fails is left out. -/
def fetchSources {τ : Type} (targetClient : Client τ) (namespace' : String) :
    τ → List (String × Source) → List (String × Unstructured) →
      List (String × Unstructured) × τ
  | t, [], sourceObjects => (sourceObjects, t)
  | t, (key, val) :: rest, sourceObjects =>
    if val.Name ≠ "" then
      let obj := ((Unstructured.mk []).SetKind val.Kind).SetAPIVersion val.APIVersion
      let namespacedName : NamespacedName := { Name := val.Name, Namespace := namespace' }
      match targetClient.Get t namespacedName obj with
      | (.error _, t1) => fetchSources targetClient namespace' t1 rest sourceObjects
      | (.ok obj, t1) =>
        fetchSources targetClient namespace' t1 rest (insert key obj sourceObjects)
    else
      fetchSources targetClient namespace' t rest sourceObjects

/-- Lines 345-374: the sources read from the rendered sources template.  The
result `none` is the return `nil, err` of line 353, where `err` is `nil`. -/
def readSources (ext : Externals) (output : Output) :
    Outcome (Option (List (String × Source))) :=
  match output.ListFiles with
  | .error err => .error (.plain err)
  | .ok [] => .ok none
  | .ok (first :: files) =>
    let sourcesFileName := preferredFile "sources.yaml" first (first :: files)
    match output.FileContent sourcesFileName with
    | .error err => .error (.plain err)
    | .ok sourcesString =>
      match ext.ParseSources sourcesString with
      | .error err => .error (.plain err)
      | .ok sources => .ok (some sources)

/-- Lines 424-455: the status read from the rendered status template.  The
result `none` is the return `nil, err` of line 432, where `err` is `nil`. -/
def readStatus (ext : Externals) (output : Output) : Outcome (Option Value) :=
  match output.ListFiles with
  | .error err => .error (.plain err)
  | .ok [] => .ok none
  | .ok (first :: files) =>
    let statusFileName := preferredFile "status.yaml" first (first :: files)
    match output.FileContent statusFileName with
    | .error err => .error (.plain err)
    | .ok statusString =>
      match ext.ParseStatus statusString with
      | .error err => .error (.plain err)
      | .ok status => .ok (some status)

/-- `ComputeStatus` from line 307 on: what is computed from the entities once
the plan and the service are known not to be nil.  The result `ok none` is the
return of a nil status with a nil error. -/
def observedStatusOf {τ : Type} (targetClient : Client τ) (ext : Externals) (t : τ)
    (instance' : Option SFServiceInstance) (binding : Option SFServiceBinding)
    (service : SFService) (plan : SFPlan) (action namespace' : String) :
    Outcome (Option Value) × τ :=
  match targetName action namespace' instance' binding with
  | .panic => (.panic, t)
  | .error err => (.error err, t)
  | .ok name =>
    match plan.GetTemplate SourcesAction with
    | .error err => (.error (.plain err), t)
    | .ok template =>
      match renderTemplate ext template
          (GetRendererInput ext template (some service) (some plan) instance' binding name) with
      | .error err => (.error (.plain err), t)
      | .ok output =>
        match readSources ext output with
        | .panic => (.panic, t)
        | .error err => (.error err, t)
        | .ok none => (.ok none, t)
        | .ok (some sources) =>
          match fetchSources targetClient name.Namespace t sources [] with
          | (sourceObjects, t1) =>
            match plan.GetTemplate StatusAction with
            | .error err => (.error (.plain err), t1)
            | .ok template =>
              match renderTemplate ext template
                  (GetPropertiesRendererInput template name sourceObjects) with
              | .error err => (.error (.plain err), t1)
              | .ok output => (readStatus ext output, t1)

/-- `resourceManager.ComputeStatus`. -/
def ComputeStatus {σ τ : Type} (sourceClient : SourceClient σ) (targetClient : Client τ)
    (ext : Externals) (s : σ) (t : τ)
    (instanceID bindingID serviceID planID action namespace' : String) :
    Outcome (Option Value) × σ × τ :=
  match fetchResources sourceClient ext.podNamespace s instanceID bindingID serviceID planID
      namespace' with
  | (.error err, s1) => (.error err, s1, t)
  | (.ok fetched, s1) =>
    match fetched.plan with
    | none => (.error (.notFound .SFPlanNotFound planID none), s1, t)
    | some plan =>
      match fetched.service with
      | none => (.error (.notFound .SFServiceNotFound serviceID none), s1, t)
      | some service =>
        match observedStatusOf targetClient ext t fetched.instance' fetched.binding service plan action
            namespace' with
        | (r, t1) => (r, s1, t1)

/-! ## Observations on the composed resources -/

/-- The documents of the parsed files, each stamped with the namespace, in file
order then document order. -/
def stampAll (namespace' : String) : List (List Unstructured) → List Unstructured
  | [] => []
  | docs :: rest => docs.map (fun obj => obj.SetNamespace namespace') ++ stampAll namespace' rest

/-- The number of documents of the parsed files. -/
def countAll : List (List Unstructured) → Nat
  | [] => 0
  | docs :: rest => docs.length + countAll rest

/-- The file is listed with content that parses to the documents. -/
def parsesTo (ext : Externals) (output : Output) (file : String) (docs : List Unstructured) :
    Prop :=
  ∃ content, output.FileContent file = .ok content ∧ ext.StringToUnstructured content = .ok docs

/-! ## Observations on the sources fetched for the status -/

/-- The fetches of the loop of lines 376-394, one entry per source in the order
visited: nothing for a source without a name, otherwise the answer of `Get`
for the key (name, target namespace) and an empty object of the kind and
apiVersion of the source; each fetch starts in the state the previous one
left. -/
def fetchAttempts {τ : Type} (targetClient : Client τ) (namespace' : String) :
    τ → List (String × Source) → List (String × Option (Except Error Unstructured)) × τ
  | t, [] => ([], t)
  | t, (key, val) :: rest =>
    if val.Name ≠ "" then
      let r := targetClient.Get t { Name := val.Name, Namespace := namespace' }
        (((Unstructured.mk []).SetKind val.Kind).SetAPIVersion val.APIVersion)
      let a := fetchAttempts targetClient namespace' r.2 rest
      ((key, some r.1) :: a.1, a.2)
    else
      let a := fetchAttempts targetClient namespace' t rest
      ((key, none) :: a.1, a.2)

/-- The objects of the fetches that succeeded, under their logical names. -/
def fetchedObjects :
    List (String × Option (Except Error Unstructured)) → List (String × Unstructured)
  | [] => []
  | (key, some (.ok obj)) :: rest => (key, obj) :: fetchedObjects rest
  | _ :: rest => fetchedObjects rest

/-- The keys of a mapping, in order. -/
def keysOf {α : Type} (m : List (String × α)) : List String := m.map Prod.fst

/-! ## The watch mapping by annotations -/

/-- `MapReconcileByAnnotations`: the reconcile requests, each a
`types.NamespacedName`, for the owner that the annotations of the object name.
The argument stands for `a.Meta`; reading a key of a nil map answers that the
key is absent. -/
def MapReconcileByAnnotations (keys : OwnerKeys) (a : Unstructured)
    (ownerGvk : GroupVersionKind) : List NamespacedName :=
  let annotations := match a.GetAnnotations with
    | none => []
    | some m => m
  match lookup keys.OwnerKindKey annotations with
  | none => []
  | some ownerKind =>
    match lookup keys.OwnerAPIVersionKey annotations with
    | none => []
    | some ownerAPIVersion =>
      if ownerKind ≠ ownerGvk.Kind ∨ ownerAPIVersion ≠ ownerGvk.GroupVersionString then []
      else
        match lookup keys.OwnerNameKey annotations with
        | none => []
        | some ownerName =>
          match lookup keys.OwnerNamespaceKey annotations with
          | none => []
          | some ownerNamespace => [{ Name := ownerName, Namespace := ownerNamespace }]

/-! ## The state of a binding -/

/-- `r.GetName()` on a `*SFServiceBinding`: the accessor promoted from the
embedded `ObjectMeta`, which reads through the receiver. -/
def SFServiceBinding.GetName (r : Option SFServiceBinding) : Outcome String :=
  match r with
  | none => .panic
  | some b => .ok b.ObjectMeta.Name

/-- `SFServiceBinding.GetState`, lines 80-86.  In the branch of the guard the
argument `r.GetName()` of `log.Printf` is evaluated before the return. -/
def SFServiceBinding.GetState (r : Option SFServiceBinding) : Outcome String :=
  let guard := match r with
    | none => true
    | some b => b.Status.State = ""
  if guard then
    match SFServiceBinding.GetName r with
    | .panic => .panic
    | .error err => .error err
    | .ok _ => .ok ""
  else
    match r with
    | none => .panic
    | some b => .ok b.Status.State

/-- `SFServiceBinding.SetState`, lines 89-93: the receiver after the call. -/
def SFServiceBinding.SetState (r : Option SFServiceBinding) (state : String) :
    Option SFServiceBinding :=
  match r with
  | none => none
  | some b => some { b with Status := { b.Status with State := state } }

/-! ## The plan controller -/

/-- Model of `metav1.OwnerReference`. -/
structure OwnerReference where
  APIVersion : String
  Kind : String
  Name : String
  UID : String
deriving DecidableEq

/-- A service as the plan controller reads it (`osbv1alpha1.Service`, whose
declaration is not among the sources): its metadata and `Spec.ID`. -/
structure Service where
  ObjectMeta : ObjectMeta
  ID : String
deriving DecidableEq

/-- A plan as the plan controller reads it (`osbv1alpha1.Plan`): metadata with
labels, which may be nil, and owner references, and the spec. -/
structure Plan where
  ObjectMeta : ObjectMeta
  Labels : Option (List (String × String))
  OwnerReferences : List OwnerReference
  Spec : SFPlanSpec
deriving DecidableEq

/-- The calls of the embedded `client.Client` that `Reconcile` makes: `Get` of
the plan, `List` of the services matching labels in a namespace, `Update` of
the plan. -/
structure PlanClient (σ : Type) where
  Get : σ → NamespacedName → Except Error Plan × σ
  List : σ → List (String × String) → String → Except Error (List Service) × σ
  Update : σ → Plan → Option Error × σ

/-- The library functions that `Reconcile` calls:
`controllerutil.SetControllerReference(owner, object, scheme)`, answering the
object with its owner references set or an error, and
`schema.ParseGroupVersion`. -/
structure PlanExternals where
  SetControllerReference : Service → Plan → Except Error Plan
  ParseGroupVersion : String → Except Error (String × String)

/-- `referSameObject`, lines 163-176. -/
def referSameObject (ext : PlanExternals) (a b : OwnerReference) : Bool :=
  match ext.ParseGroupVersion a.APIVersion with
  | .error _ => false
  | .ok aGV =>
    match ext.ParseGroupVersion b.APIVersion with
    | .error _ => false
    | .ok bGV => aGV = bGV && a.Kind = b.Kind && a.Name = b.Name

/-- The two label checks of lines 91-100.  `labels` is the map of the plan
itself; the assignment to a key of a nil map is a run-time panic.  The result
is the map after the check and the flag `updateRequired`. -/
def checkLabel (labels : Option (List (String × String))) (key value : String)
    (updateRequired : Bool) : Outcome (Option (List (String × String)) × Bool) :=
  let differs := match labels with
    | none => true
    | some m =>
      match lookup key m with
      | none => true
      | some found => value ≠ found
  if differs then
    match labels with
    | none => .panic
    | some m => .ok (some (insert key value m), true)
  else
    .ok (labels, updateRequired)

/-- The loop of lines 119-124.  `obj` is the one variable of the `range`
statement, assigned every item in turn, and `service` is nil or the address
`&obj` of that variable: the state of the loop is the value held by `obj` and
whether `service` has been set. -/
def findService.loop (serviceID : String) :
    List Service → Option Service → Bool → Option Service × Bool
  | [], obj, isSet => (obj, isSet)
  | item :: rest, _, isSet =>
    findService.loop serviceID rest (some item) (isSet || decide (item.ID = serviceID))

/-- What `service` points to after the loop, nil when it was never set. -/
def findService (items : List Service) (serviceID : String) : Option Service :=
  match findService.loop serviceID items none false with
  | (some obj, true) => some obj
  | _ => none

/-- The loop of lines 140-145 over the indices of `ownerRefs`, entered when the
two lists have the same length: some pair does not refer to the same object. -/
def refsChanged (ext : PlanExternals) : List OwnerReference → List OwnerReference → Bool
  | a :: ownerRefs, b :: existingRefs =>
    if !referSameObject ext a b then true else refsChanged ext ownerRefs existingRefs
  | _, _ => false

def serviceNotFoundError (serviceID : String) : Error :=
  { IsNotFound := false, message := "unable to find service with id " ++ serviceID }

/-- `ReconcilePlan.Reconcile`, lines 78-160: how the call ends and the state of
the cluster after it. -/
def ReconcilePlan.Reconcile {σ : Type} (client : PlanClient σ) (ext : PlanExternals) (s : σ)
    (request : NamespacedName) : Outcome Unit × σ :=
  match client.Get s request with
  | (.error err, s1) =>
    if err.IsNotFound then (.ok (), s1) else (.error (.plain err), s1)
  | (.ok instance', s1) =>
    match checkLabel instance'.Labels "serviceId" instance'.Spec.ServiceID false with
    | .panic => (.panic, s1)
    | .error err => (.error err, s1)
    | .ok (labels, updateRequired) =>
      match checkLabel labels "planId" instance'.Spec.ID updateRequired with
      | .panic => (.panic, s1)
      | .error err => (.error err, s1)
      | .ok (labels, updateRequired) =>
        let instance' := { instance' with Labels := labels }
        let serviceID := instance'.Spec.ServiceID
        match client.List s1 [("serviceId", serviceID)] request.Namespace with
        | (.error err, s2) =>
          if err.IsNotFound then (.error (.plain (serviceNotFoundError serviceID)), s2)
          else (.error (.plain err), s2)
        | (.ok items, s2) =>
          match findService items serviceID with
          | none => (.error (.plain (serviceNotFoundError serviceID)), s2)
          | some service =>
            let existingRefs := instance'.OwnerReferences
            match ext.SetControllerReference service instance' with
            | .error err => (.error (.plain err), s2)
            | .ok instance' =>
              let updateRequired :=
                if !updateRequired then
                  if instance'.OwnerReferences.length ≠ existingRefs.length then true
                  else refsChanged ext instance'.OwnerReferences existingRefs
                else updateRequired
              if updateRequired then
                match client.Update s2 { instance' with Labels := labels } with
                | (some err, s3) => (.error (.plain err), s3)
                | (none, s3) => (.ok (), s3)
              else
                (.ok (), s2)

/-! ## Paths into a content tree -/

/-- The value found by following a path of keys through nested mappings. -/
def lookupPath : List String → Value → Option Value
  | [], v => some v
  | k :: rest, .map fields =>
    match lookup k fields with
    | none => none
    | some v => lookupPath rest v
  | _ :: _, _ => none

/-- The path leaves the tree at a key that a mapping of the tree does not have:
every key before it leads to a mapping, and the next key is absent from that
mapping. -/
def absentPath : List String → Value → Bool
  | [], _ => false
  | k :: rest, .map fields =>
    match lookup k fields with
    | none => true
    | some v => absentPath rest v
  | _ :: _, _ => false

/-- The `metadata.annotations` mapping as the tree stores it; empty when it is
missing or is not a mapping. -/
def rawAnnotations (u : Unstructured) : List (String × Value) :=
  match lookup "annotations" (metadataOf u.Object) with
  | some (.map a) => a
  | _ => []

/-- The values handed to `helm.NewInput` or `gotemplate.NewInput`. -/
def Input.values : Input → List (String × Value)
  | .helm _ _ _ values => values
  | .gotemplate _ _ values => values

/-! ## Concrete objects and clients used in the examples -/

def exampleB : Source :=
  { APIVersion := "v1", Kind := "ConfigMap", Name := "b", Namespace := "default" }

def exampleC : Source :=
  { APIVersion := "v1", Kind := "ConfigMap", Name := "c", Namespace := "default" }

def boom : Error := { IsNotFound := false, message := "boom" }

/-- A client on which `Delete` fails with `boom` for the object of the given
name and every other call succeeds. -/
def failDeleteOf (name : String) : Client Unit :=
  scriptedClient (fun o => .ok o) (fun _ => none) (fun _ => none)
    (fun o => if o.GetName = name then some boom else none)

def exampleDirectorSource : Source :=
  { APIVersion := "deployment.servicefabrik.io/v1alpha1", Kind := "Director", Name := "dddd",
    Namespace := "default" }

/-- A live object of a graceful-teardown type, with a status mapping. -/
def exampleDirector : Unstructured :=
  { Object :=
      [("apiVersion", .str "deployment.servicefabrik.io/v1alpha1"), ("kind", .str "Director"),
       ("metadata", .map [("name", .str "dddd"), ("namespace", .str "default")]),
       ("spec", .map [("options", .str "{}")]),
       ("status", .map [("state", .str "succeeded"), ("lastOperation", .str "create")])] }

def exampleKeys : OwnerKeys :=
  { OwnerNameKey := "interoperator.servicefabrik.io/ownerName",
    OwnerNamespaceKey := "interoperator.servicefabrik.io/ownerNamespace",
    OwnerKindKey := "interoperator.servicefabrik.io/ownerKind",
    OwnerAPIVersionKey := "interoperator.servicefabrik.io/ownerAPIVersion" }

def exampleOwner : ObjectMeta := { Name := "instance-1", Namespace := "default" }

def exampleGVK : GroupVersionKind :=
  { Group := "osb.servicefabrik.io", Version := "v1alpha1", Kind := "SFServiceInstance" }

/-- A rendered resource that already carries annotations, one of them under an
ownership key. -/
def exampleConfigMap : Unstructured :=
  { Object :=
      [("apiVersion", .str "v1"), ("kind", .str "ConfigMap"),
       ("metadata", .map [("name", .str "b"), ("namespace", .str "default"),
          ("annotations", .map [("team", .str "storage"),
            ("interoperator.servicefabrik.io/ownerName", .str "old-owner")])]),
       ("data", .map [("size", .num 3)])] }

/-- A ConfigMap of the given name and size in namespace `default`. -/
def configMap (name : String) (size : Int) : Unstructured :=
  { Object :=
      [("apiVersion", .str "v1"), ("kind", .str "ConfigMap"),
       ("metadata", .map [("name", .str name), ("namespace", .str "default")]),
       ("data", .map [("size", .num size)])] }

def exampleA : Source :=
  { APIVersion := "v1", Kind := "ConfigMap", Name := "a", Namespace := "default" }

/-- The in-memory cluster client, except that `Delete` fails with `boom` for
the object of the given name. -/
def memoryClientFailingDelete (name : String) : Client Cluster :=
  { memoryClient with
    Delete := fun s obj => if obj.GetName = name then (some boom, s) else memoryClient.Delete s obj }

/-- A live ConfigMap `a` holding fields that no template renders. -/
def exampleLiveConfigMap : Unstructured :=
  { Object :=
      [("apiVersion", .str "v1"), ("kind", .str "ConfigMap"),
       ("metadata", .map [("name", .str "a"), ("namespace", .str "default"),
          ("uid", .str "1234")]),
       ("data", .map [("size", .num 1), ("color", .str "red")]),
       ("status", .map [("phase", .str "Active")])] }

/-- A Director object whose `status` is a string. -/
def exampleDirectorBadStatus : Unstructured :=
  { Object :=
      [("apiVersion", .str "deployment.servicefabrik.io/v1alpha1"), ("kind", .str "Director"),
       ("metadata", .map [("name", .str "dddd"), ("namespace", .str "default")]),
       ("status", .str "succeeded")] }

/-- The in-memory cluster client, except that `Create` fails with `boom` for
the object of the given name. -/
def memoryClientFailingCreate (name : String) : Client Cluster :=
  { memoryClient with
    Create := fun s obj => if obj.GetName = name then (some boom, s) else memoryClient.Create s obj }

def examplePlan : SFPlan :=
  { ObjectMeta := { Name := "plan-1", Namespace := "default" },
    Spec :=
      { Name := "small", ID := "plan-1", Description := "", Free := true, Bindable := true,
        PlanUpdatable := false, ServiceID := "service-1",
        Templates :=
          [{ Action := "provision", Type' := "gotemplate", URL := "", Content := "provision" },
           { Action := "bind", Type' := "gotemplate", URL := "", Content := "bind" },
           { Action := "sources", Type' := "gotemplate", URL := "", Content := "sources" },
           { Action := "status", Type' := "gotemplate", URL := "", Content := "status" },
           { Action := "bind", Type' := "helm", URL := "chart", Content := "" }] } }

def exampleService : SFService :=
  { ObjectMeta := { Name := "service-1", Namespace := "default" }, ID := "service-1",
    Content := [] }

def exampleBindingSpec : SFServiceBindingSpec :=
  { ID := "binding-1", InstanceID := "instance-1", PlanID := "plan-1", ServiceID := "service-1",
    AppGUID := "", BindResource := none, RawContext := none, RawParameters := none,
    AcceptsIncomplete := false }

/-- A source cluster that holds every instance and binding asked for, and the
service `service-1` with its plan `plan-1`. -/
def exampleSourceClient : SourceClient Unit where
  GetInstance := fun s key =>
    (.ok { ObjectMeta := { Name := key.Name, Namespace := key.Namespace }, Content := [] }, s)
  GetBinding := fun s key =>
    (.ok { ObjectMeta := { Name := key.Name, Namespace := key.Namespace },
           Spec := exampleBindingSpec,
           Status := { State := "", Error := "", Response := { SecretRef := "" },
                       AppliedSpec := exampleBindingSpec, Resources := [] } }, s)
  FindServiceInfo := fun s _ _ _ => (.ok (some exampleService, some examplePlan), s)

/-- A source cluster that holds no instance and no binding. -/
def emptySourceClient : SourceClient Unit where
  GetInstance := fun s _ => (.error { IsNotFound := true, message := "not found" }, s)
  GetBinding := fun s _ => (.error { IsNotFound := true, message := "not found" }, s)
  FindServiceInfo := fun s _ _ _ => (.ok (some exampleService, some examplePlan), s)

/-- A rendered output of two files; the second holds two documents. -/
def exampleOutput : Output where
  ListFiles := .ok ["a.yaml", "b.yaml"]
  FileContent := fun file =>
    if file = "a.yaml" then .ok "svc-a" else if file = "b.yaml" then .ok "svc-b,svc-c"
    else .error { IsNotFound := false, message := "no such file" }

/-- Externals whose inline-template renderer answers `exampleOutput`. -/
def exampleExternals : Externals where
  podNamespace := ""
  helmNew := .error { IsNotFound := false, message := "failed to get kubernetes server version" }
  gotemplateNew := .ok { Render := fun _ => .ok exampleOutput }
  serviceToMap := fun _ => .ok []
  planToMap := fun _ => .ok []
  instanceToMap := fun _ => .ok []
  bindingToMap := fun _ => .ok []
  StringToUnstructured := fun content =>
    if content = "svc-a" then .ok [configMap "svc-a" 1]
    else if content = "svc-b,svc-c" then .ok [configMap "svc-b" 2, exampleDirector]
    else .error { IsNotFound := false, message := "cannot parse" }
  ParseSources := fun _ => .ok []
  ParseStatus := fun _ => .ok (.map [])

/-- A rendered output of three files, among them `sources.yaml` and
`status.yaml`, neither of them first. -/
def exampleStatusOutput : Output where
  ListFiles := .ok ["a.yaml", "sources.yaml", "status.yaml"]
  FileContent := fun file =>
    if file = "a.yaml" then .ok "first"
    else if file = "sources.yaml" then .ok "the sources"
    else if file = "status.yaml" then .ok "the status"
    else .error { IsNotFound := false, message := "no such file" }

/-- A rendered output without any file. -/
def emptyOutput : Output where
  ListFiles := .ok []
  FileContent := fun _ => .error { IsNotFound := false, message := "no such file" }

/-- Three sources: one held by the cluster of the examples, one that is not,
and one without a name. -/
def exampleSources : List (String × Source) :=
  [("config", { APIVersion := "v1", Kind := "ConfigMap", Name := "svc-a", Namespace := "" }),
   ("secret", { APIVersion := "v1", Kind := "Secret", Name := "svc-a", Namespace := "" }),
   ("unnamed", { APIVersion := "v1", Kind := "ConfigMap", Name := "", Namespace := "" })]

/-- Externals whose inline-template renderer answers `exampleStatusOutput` and
whose parsers answer `exampleSources` and the text they were given. -/
def echoExternals : Externals where
  podNamespace := ""
  helmNew := .error { IsNotFound := false, message := "failed to get kubernetes server version" }
  gotemplateNew := .ok { Render := fun _ => .ok exampleStatusOutput }
  serviceToMap := fun _ => .ok []
  planToMap := fun _ => .ok []
  instanceToMap := fun _ => .ok []
  bindingToMap := fun _ => .ok []
  StringToUnstructured := fun _ => .ok []
  ParseSources := fun _ => .ok exampleSources
  ParseStatus := fun content => .ok (.str content)

/-- Externals whose inline-template renderer answers no file for every
template. -/
def emptyOutputExternals : Externals :=
  { echoExternals with gotemplateNew := .ok { Render := fun _ => .ok emptyOutput } }

/-- Externals whose inline-template renderer answers no file for the template
with the content `status`, and `exampleStatusOutput` for every other one. -/
def emptyStatusExternals : Externals :=
  { echoExternals with
    gotemplateNew := .ok { Render := fun input =>
      match input with
      | .gotemplate content _ _ =>
        if content = "status" then .ok emptyOutput else .ok exampleStatusOutput
      | .helm _ _ _ _ => .ok exampleStatusOutput } }

def exampleBinding : SFServiceBinding :=
  { ObjectMeta := { Name := "binding-1", Namespace := "default" },
    Spec := exampleBindingSpec,
    Status := { State := "succeeded", Error := "", Response := { SecretRef := "creds" },
                AppliedSpec := exampleBindingSpec, Resources := [] } }

def serviceOne : Service :=
  { ObjectMeta := { Name := "service-one", Namespace := "default" }, ID := "service-1" }

def serviceTwo : Service :=
  { ObjectMeta := { Name := "service-two", Namespace := "default" }, ID := "service-2" }

/-- A plan of the service `service-1` that carries both labels already. -/
def labelledPlan : Plan :=
  { ObjectMeta := { Name := "plan-1", Namespace := "default" },
    Labels := some [("serviceId", "service-1"), ("planId", "plan-1")],
    OwnerReferences := [],
    Spec := examplePlan.Spec }

/-- A cluster holding one plan and a list of services; its state is the list of
the plans written by `Update`. -/
def examplePlanClient (plan : Plan) (services : List Service) : PlanClient (List Plan) where
  Get := fun s _ => (.ok plan, s)
  List := fun s _ _ => (.ok services, s)
  Update := fun s updated => (none, s ++ [updated])

/-- Library functions for the examples: the controller reference names the
owner, and a group-version string is split at its first slash. -/
def examplePlanExternals : PlanExternals where
  SetControllerReference := fun owner object =>
    .ok { object with
          OwnerReferences :=
            [{ APIVersion := "osb.servicefabrik.io/v1alpha1", Kind := "Service",
               Name := owner.ObjectMeta.Name, UID := "" }] }
  ParseGroupVersion := fun gv =>
    match gv.splitOn "/" with
    | [version] => .ok ("", version)
    | [group, version] => .ok (group, version)
    | _ => .error { IsNotFound := false, message := "unexpected GroupVersion string: " ++ gv }

/-- A document whose `metadata` is null, not a mapping. -/
def exampleNullMetadata : Unstructured :=
  { Object := [("apiVersion", .str "v1"), ("kind", .str "ConfigMap"), ("metadata", .null)] }

/-- A ConfigMap one of whose annotations is a number, not a string. -/
def exampleMixedAnnotations : Unstructured :=
  { Object :=
      [("apiVersion", .str "v1"), ("kind", .str "ConfigMap"),
       ("metadata", .map [("name", .str "cm"), ("namespace", .str "default"),
          ("annotations", .map [("team", .str "db"), ("replicas", .num 3)])])] }

/-- Externals whose parser answers the document `exampleNullMetadata` for every
file. -/
def nullMetadataExternals : Externals :=
  { exampleExternals with StringToUnstructured := fun _ => .ok [exampleNullMetadata] }

/-! ## Lemmas on mappings and accessors -/

theorem lookup_insert_self {α : Type} (k : String) (v : α) (m : List (String × α)) :
    lookup k (insert k v m) = some v := by
  induction m with
  | nil => simp [insert, lookup]
  | cons p rest ih =>
    obtain ⟨k', v'⟩ := p
    by_cases h : k' = k
    · simp [insert, lookup, h]
    · simp [insert, lookup, h, ih]

theorem lookup_insert_other {α : Type} (k k' : String) (v : α) (m : List (String × α))
    (h : k ≠ k') : lookup k' (insert k v m) = lookup k' m := by
  induction m with
  | nil => simp [insert, lookup, h]
  | cons p rest ih =>
    obtain ⟨k1, v1⟩ := p
    by_cases h1 : k1 = k
    · subst h1
      simp [insert, lookup, h]
    · by_cases h2 : k1 = k'
      · subst h2
        simp [insert, lookup, h1]
      · simp [insert, lookup, h1, h2, ih]

theorem unstructuredToSource_sourceToUnstructured (src : Source) :
    unstructuredToSource (sourceToUnstructured src) = src := by
  obtain ⟨a, k, n, ns⟩ := src
  by_cases hn : n = "" <;> by_cases hns : ns = "" <;>
    simp [unstructuredToSource, sourceToUnstructured, Unstructured.GetKind,
      Unstructured.GetAPIVersion, Unstructured.GetName, Unstructured.GetNamespace,
      Unstructured.SetKind, Unstructured.SetAPIVersion, Unstructured.SetName,
      Unstructured.SetNamespace, setMetadata, removeMetadata, remove, metadataOf, fieldString,
      insert, lookup, hn, hns]

theorem markDeleted_spec (content status : List (String × Value)) :
    (∀ k, k ≠ "status" → lookup k (markDeleted content status) = lookup k content) ∧
    lookup "status" (markDeleted content status) =
      some (.map (insert "state" (.str "delete") status)) ∧
    lookup "state" (insert "state" (Value.str "delete") status) = some (.str "delete") ∧
    (∀ k, k ≠ "state" →
      lookup k (insert "state" (Value.str "delete") status) = lookup k status) := by
  refine ⟨?_, ?_, ?_, ?_⟩
  · intro k hk
    exact lookup_insert_other _ _ _ _ (Ne.symm hk)
  · exact lookup_insert_self _ _ _
  · exact lookup_insert_self _ _ _
  · intro k hk
    exact lookup_insert_other _ _ _ _ (Ne.symm hk)

theorem recorded_Get {σ : Type} (client : Client σ) (s : σ) (log : List Call)
    (key : NamespacedName) (obj : Unstructured) :
    client.recorded.Get (s, log) key obj =
      ((client.Get s key obj).1,
        ((client.Get s key obj).2, log ++ [Call.Get key obj (client.Get s key obj).1])) := rfl

theorem recorded_Create {σ : Type} (client : Client σ) (s : σ) (log : List Call)
    (obj : Unstructured) :
    client.recorded.Create (s, log) obj =
      ((client.Create s obj).1,
        ((client.Create s obj).2, log ++ [Call.Create obj (client.Create s obj).1])) := rfl

theorem recorded_Update {σ : Type} (client : Client σ) (s : σ) (log : List Call)
    (obj : Unstructured) :
    client.recorded.Update (s, log) obj =
      ((client.Update s obj).1,
        ((client.Update s obj).2, log ++ [Call.Update obj (client.Update s obj).1])) := rfl

theorem recorded_Delete {σ : Type} (client : Client σ) (s : σ) (log : List Call)
    (obj : Unstructured) :
    client.recorded.Delete (s, log) obj =
      ((client.Delete s obj).1,
        ((client.Delete s obj).2, log ++ [Call.Delete obj (client.Delete s obj).1])) := rfl

/-! ## Lemmas on sub-resource deletion -/

theorem getLast?_cons_or {α : Type} (e : α) (l : List α) (err : Option α) :
    ((e :: l).getLast?).or err = (l.getLast?).or (some e) := by
  rcases l with _ | ⟨b, l'⟩
  · simp
  · rw [List.getLast?_cons_cons]
    cases h : (b :: l').getLast? with
    | none => simp at h
    | some x => simp

theorem hardErrors_cons (x : Source) (r : Option Error) (a : List (Source × Option Error)) :
    hardErrors ((x, r) :: a) =
      (match attemptFailure r with
       | some e => e :: hardErrors a
       | none => hardErrors a) := by
  unfold hardErrors
  cases h : attemptFailure r <;> simp [List.filterMap_cons, h]

theorem keptSources_cons (x : Source) (r : Option Error) (a : List (Source × Option Error)) :
    keptSources ((x, r) :: a) =
      if attemptNotFound r then keptSources a else x :: keptSources a := by
  unfold keptSources
  cases h : attemptNotFound r <;> simp [List.filter_cons, h]

theorem DeleteSubResources_loop_eq {σ : Type} (client : Client σ) (l : List Source) :
    ∀ (s : σ) (rem : List Source) (err : Option Error),
      DeleteSubResources.loop client s l rem err =
        ((rem ++ keptSources (deleteAttempts client s l).1,
          ((hardErrors (deleteAttempts client s l).1).getLast?).or err),
         (deleteAttempts client s l).2) := by
  induction l with
  | nil => intro s rem err; simp [DeleteSubResources.loop, deleteAttempts, keptSources, hardErrors]
  | cons x rest ih =>
    intro s rem err
    simp only [DeleteSubResources.loop, deleteAttempts]
    rcases h : deleteSubResource client s (sourceToUnstructured x) with ⟨r, s1⟩
    cases r with
    | none =>
      simp only [ih, keptSources_cons, hardErrors_cons, attemptNotFound, attemptFailure]
      simp
    | some e =>
      by_cases hnf : e.IsNotFound = true
      · simp only [ih, keptSources_cons, hardErrors_cons, attemptNotFound, attemptFailure, hnf]
        simp
      · simp only [ih, keptSources_cons, hardErrors_cons, attemptNotFound, attemptFailure, hnf]
        have hf : e.IsNotFound = false := by simpa using hnf
        simp [getLast?_cons_or]

theorem DeleteSubResources_eq {σ : Type} (client : Client σ) (s : σ) (l : List Source) :
    DeleteSubResources client s l =
      ((keptSources (deleteAttempts client s l).1,
        (hardErrors (deleteAttempts client s l).1).getLast?),
       (deleteAttempts client s l).2) := by
  unfold DeleteSubResources
  rw [DeleteSubResources_loop_eq]
  simp

theorem deleteAttempts_sources {σ : Type} (client : Client σ) (l : List Source) :
    ∀ s : σ, (deleteAttempts client s l).1.map Prod.fst = l := by
  induction l with
  | nil => intro s; rfl
  | cons x rest ih => intro s; simp [deleteAttempts, ih]

theorem mem_keptSources (a : List (Source × Option Error)) (x : Source) :
    x ∈ keptSources a ↔ ∃ r, (x, r) ∈ a ∧ attemptNotFound r = false := by
  simp [keptSources]

theorem keptSources_append (a b : List (Source × Option Error)) :
    keptSources (a ++ b) = keptSources a ++ keptSources b := by
  simp [keptSources]

theorem hardErrors_append (a b : List (Source × Option Error)) :
    hardErrors (a ++ b) = hardErrors a ++ hardErrors b := by
  simp [hardErrors]

theorem hardErrors_eq_nil (a : List (Source × Option Error))
    (h : ∀ p ∈ a, attemptFailure p.2 = none) : hardErrors a = [] := by
  induction a with
  | nil => rfl
  | cons p rest ih =>
    obtain ⟨x, r⟩ := p
    rw [hardErrors_cons, h (x, r) (by simp)]
    exact ih (fun q hq => h q (by simp [hq]))

theorem mem_hardErrors (a : List (Source × Option Error)) (e : Error) :
    e ∈ hardErrors a ↔ ∃ x, (x, some e) ∈ a ∧ e.IsNotFound = false := by
  induction a with
  | nil => simp [hardErrors]
  | cons p rest ih =>
    obtain ⟨x, r⟩ := p
    rw [hardErrors_cons]
    cases r with
    | none =>
      simp only [attemptFailure, ih]
      constructor
      · rintro ⟨y, hy, hf⟩; exact ⟨y, by simp [hy], hf⟩
      · rintro ⟨y, hy, hf⟩
        simp at hy
        exact ⟨y, hy, hf⟩
    | some e' =>
      by_cases hnf : e'.IsNotFound = true
      · simp only [attemptFailure, hnf, if_true, ih]
        constructor
        · rintro ⟨y, hy, hf⟩; exact ⟨y, by simp [hy], hf⟩
        · rintro ⟨y, hy, hf⟩
          simp at hy
          rcases hy with ⟨-, rfl⟩ | hy
          · simp [hnf] at hf
          · exact ⟨y, hy, hf⟩
      · have hf' : e'.IsNotFound = false := by simpa using hnf
        simp only [attemptFailure, hf', Bool.false_eq_true, if_false, List.mem_cons, ih]
        constructor
        · rintro (rfl | ⟨y, hy, hf⟩)
          · exact ⟨x, by simp, hf'⟩
          · exact ⟨y, by simp [hy], hf⟩
        · rintro ⟨y, hy, hf⟩
          simp at hy
          rcases hy with ⟨-, rfl⟩ | hy
          · exact Or.inl rfl
          · exact Or.inr ⟨y, hy, hf⟩

theorem GetAPIVersion_sourceToUnstructured (src : Source) :
    (sourceToUnstructured src).GetAPIVersion = src.APIVersion := by
  have h := unstructuredToSource_sourceToUnstructured src
  simp only [unstructuredToSource] at h
  exact congrArg Source.APIVersion h

theorem deleteAttempts_recorded_default {σ : Type} (client : Client σ) (l : List Source) :
    ∀ (s : σ) (log : List Call), (∀ x ∈ l, x.APIVersion ∉ specialDelete) →
      ∃ calls, (deleteAttempts client.recorded (s, log) l).2.2 = log ++ calls ∧
        calls.map Call.obj = l.map sourceToUnstructured ∧
        ∀ c ∈ calls, c.isDelete = true := by
  induction l with
  | nil => intro s log _; exact ⟨[], by simp [deleteAttempts], rfl, by simp⟩
  | cons x rest ih =>
    intro s log h
    have hx : ¬ (sourceToUnstructured x).GetAPIVersion ∈ specialDelete := by
      rw [GetAPIVersion_sourceToUnstructured]
      exact h x (by simp)
    obtain ⟨calls, h1, h2, h3⟩ := ih (client.Delete s (sourceToUnstructured x)).2
      (log ++ [Call.Delete (sourceToUnstructured x) (client.Delete s (sourceToUnstructured x)).1])
      (fun y hy => h y (by simp [hy]))
    refine ⟨Call.Delete (sourceToUnstructured x) (client.Delete s (sourceToUnstructured x)).1
      :: calls, ?_, by simp [Call.obj, h2], ?_⟩
    · simpa [deleteAttempts, deleteSubResource, hx, recorded_Delete] using h1
    · intro c hc
      rcases List.mem_cons.1 hc with rfl | hc
      · rfl
      · exact h3 c hc

/-! ## Sub-resource deletion: the claims -/

/-- C1, as the code has it.  Take any input list and its deletion attempts.
If the attempt for `b` fails with an error `e` that is not not-found and the
attempt for `c` returns no error, the remaining list contains `b` and also `c`;
and when no attempt after that of `b` fails with an error other than
not-found, the returned error is `e`. -/
theorem deleteSubResources_partial_failure {σ : Type} (client : Client σ) (s : σ)
    (subResources : List Source) (A B : List (Source × Option Error)) (b c : Source) (e : Error)
    (hb : (deleteAttempts client s subResources).1 = A ++ (b, some e) :: B)
    (he : e.IsNotFound = false)
    (hc : (c, none) ∈ (deleteAttempts client s subResources).1) :
    b ∈ (DeleteSubResources client s subResources).1.1 ∧
    c ∈ (DeleteSubResources client s subResources).1.1 ∧
    ((∀ p ∈ B, attemptFailure p.2 = none) →
      (DeleteSubResources client s subResources).1.2 = some e) := by
  rw [DeleteSubResources_eq]
  refine ⟨?_, ?_, ?_⟩
  · exact (mem_keptSources _ b).2 ⟨some e, by simp [hb], by simp [attemptNotFound, he]⟩
  · exact (mem_keptSources _ c).2 ⟨none, hc, rfl⟩
  · intro hB
    simp only [hb, hardErrors_append, hardErrors_cons, attemptFailure, he, Bool.false_eq_true,
      if_false, hardErrors_eq_nil B hB]
    simp

/-- C1, witness: the list `[b, c]` on a client whose `Delete` fails for `b`. -/
theorem deleteSubResources_partial_failure_witness :
    (deleteAttempts (failDeleteOf "b") () [exampleB, exampleC]).1 =
        [] ++ (exampleB, some boom) :: [(exampleC, none)] ∧
      boom.IsNotFound = false ∧
      (exampleB ∈ (DeleteSubResources (failDeleteOf "b") () [exampleB, exampleC]).1.1 ∧
       exampleC ∈ (DeleteSubResources (failDeleteOf "b") () [exampleB, exampleC]).1.1 ∧
       ((∀ p ∈ [(exampleC, (none : Option Error))], attemptFailure p.2 = none) →
         (DeleteSubResources (failDeleteOf "b") () [exampleB, exampleC]).1.2 = some boom)) :=
  ⟨by decide, by decide,
    deleteSubResources_partial_failure (failDeleteOf "b") () [exampleB, exampleC] []
      [(exampleC, none)] exampleB exampleC boom (by decide) (by decide) (by decide)⟩

/-- C1 as stated fails: on the input `[b, c]`, where the delete of `b` fails
with `boom` (not a not-found error) and the delete of `c` succeeds, the
remaining list is `[b, c]`; it does contain `c`. -/
theorem deleteSubResources_keeps_succeeded_source :
    (deleteAttempts (failDeleteOf "b") () [exampleB, exampleC]).1 =
        [(exampleB, some boom), (exampleC, none)] ∧
      boom.IsNotFound = false ∧
      (DeleteSubResources (failDeleteOf "b") () [exampleB, exampleC]).1 =
        ([exampleB, exampleC], some boom) ∧
      ¬ (exampleB ∈ (DeleteSubResources (failDeleteOf "b") () [exampleB, exampleC]).1.1 ∧
         exampleC ∉ (DeleteSubResources (failDeleteOf "b") () [exampleB, exampleC]).1.1 ∧
         (DeleteSubResources (failDeleteOf "b") () [exampleB, exampleC]).1.2 = some boom) := by
  decide

/-- C2.  For a resource whose apiVersion is one of the two graceful-teardown
versions, when `Get` answers a body whose `status` is absent or a mapping,
`deleteSubResource` makes exactly two calls, the `Get` and one `Update` (no
`Delete`), and returns the answer of the `Update`.  The updated body agrees
with the fetched body on every top-level field but `status`; its `status` is a
mapping with `state = "delete"` that agrees with the fetched status (empty when
it was absent) on every other key. -/
theorem deleteSubResource_state_transition {σ : Type} (client : Client σ) (s s1 : σ)
    (resource fetched : Unstructured)
    (hv : resource.GetAPIVersion = "deployment.servicefabrik.io/v1alpha1" ∨
      resource.GetAPIVersion = "bind.servicefabrik.io/v1alpha1")
    (hget : client.Get s { Name := resource.GetName, Namespace := resource.GetNamespace }
      resource = (.ok fetched, s1))
    (hst : lookup "status" fetched.Object = none ∨
      ∃ st, lookup "status" fetched.Object = some (.map st)) :
    ∃ updated st',
      (deleteSubResource client.recorded (s, []) resource).2.2 =
        [Call.Get { Name := resource.GetName, Namespace := resource.GetNamespace } resource
            (.ok fetched),
          Call.Update updated (client.Update s1 updated).1] ∧
      (deleteSubResource client.recorded (s, []) resource).1 = (client.Update s1 updated).1 ∧
      (∀ k, k ≠ "status" → lookup k updated.Object = lookup k fetched.Object) ∧
      lookup "status" updated.Object = some (.map st') ∧
      lookup "state" st' = some (.str "delete") ∧
      (∀ k, k ≠ "state" → lookup k st' = lookup k (statusOf fetched.Object)) := by
  have hspecial : resource.GetAPIVersion ∈ specialDelete := by
    rcases hv with h | h <;> rw [h] <;> decide
  obtain ⟨h1, h2, h3, h4⟩ := markDeleted_spec fetched.Object (statusOf fetched.Object)
  refine ⟨{ Object := markDeleted fetched.Object (statusOf fetched.Object) },
    insert "state" (.str "delete") (statusOf fetched.Object), ?_, ?_, h1, h2, h3, h4⟩
  · rcases hst with h | ⟨st, h⟩ <;>
      simp [deleteSubResource, hspecial, Client.recorded, hget, h, statusOf]
  · rcases hst with h | ⟨st, h⟩ <;>
      simp [deleteSubResource, hspecial, Client.recorded, hget, h, statusOf]

/-- C2, witness: the Director object held by an in-memory cluster. -/
theorem deleteSubResource_state_transition_witness :
    (sourceToUnstructured exampleDirectorSource).GetAPIVersion =
        "deployment.servicefabrik.io/v1alpha1" ∧
      lookup "status" exampleDirector.Object =
        some (.map [("state", .str "succeeded"), ("lastOperation", .str "create")]) ∧
      ∃ updated st',
        (deleteSubResource memoryClient.recorded ([exampleDirector], [])
            (sourceToUnstructured exampleDirectorSource)).2.2 =
          [Call.Get { Name := "dddd", Namespace := "default" }
              (sourceToUnstructured exampleDirectorSource) (.ok exampleDirector),
            Call.Update updated (memoryClient.Update [exampleDirector] updated).1] ∧
        (deleteSubResource memoryClient.recorded ([exampleDirector], [])
            (sourceToUnstructured exampleDirectorSource)).1 =
          (memoryClient.Update [exampleDirector] updated).1 ∧
        (∀ k, k ≠ "status" → lookup k updated.Object = lookup k exampleDirector.Object) ∧
        lookup "status" updated.Object = some (.map st') ∧
        lookup "state" st' = some (.str "delete") ∧
        (∀ k, k ≠ "state" → lookup k st' = lookup k (statusOf exampleDirector.Object)) :=
  ⟨by decide, by decide,
    deleteSubResource_state_transition memoryClient [exampleDirector] [exampleDirector]
      (sourceToUnstructured exampleDirectorSource) exampleDirector (Or.inl (by decide))
      (by decide)
      (Or.inr ⟨[("state", .str "succeeded"), ("lastOperation", .str "create")], by decide⟩)⟩

/-- C9.  Take any input list and its deletion attempts.  An attempt that
returns a not-found error adds nothing to the result: the remaining list and
the returned error are those of the other attempts.  Every Source of the
remaining list has an attempt that did not return not-found.  If every attempt
returns not-found, the remaining list is empty and the error is `nil`. -/
theorem deleteSubResources_not_found_is_success {σ : Type} (client : Client σ) (s : σ)
    (subResources : List Source) :
    (∀ A B x e, (deleteAttempts client s subResources).1 = A ++ (x, some e) :: B →
      e.IsNotFound = true →
      (DeleteSubResources client s subResources).1.1 = keptSources (A ++ B) ∧
      (DeleteSubResources client s subResources).1.2 = (hardErrors (A ++ B)).getLast?) ∧
    (∀ x, x ∈ (DeleteSubResources client s subResources).1.1 →
      ∃ r, (x, r) ∈ (deleteAttempts client s subResources).1 ∧ attemptNotFound r = false) ∧
    ((∀ p ∈ (deleteAttempts client s subResources).1, attemptNotFound p.2 = true) →
      (DeleteSubResources client s subResources).1 = ([], none)) := by
  rw [DeleteSubResources_eq]
  refine ⟨?_, ?_, ?_⟩
  · intro A B x e ha he
    simp only [ha, keptSources_append, hardErrors_append, keptSources_cons, hardErrors_cons,
      attemptNotFound, attemptFailure, he, if_true]
    exact ⟨trivial, trivial⟩
  · intro x hx
    exact (mem_keptSources _ x).1 hx
  · intro h
    have h1 : keptSources (deleteAttempts client s subResources).1 = [] := by
      apply List.eq_nil_iff_forall_not_mem.2
      intro x hx
      obtain ⟨r, hr, hf⟩ := (mem_keptSources _ x).1 hx
      rw [h (x, r) hr] at hf
      simp at hf
    have h2 : hardErrors (deleteAttempts client s subResources).1 = [] := by
      apply hardErrors_eq_nil
      intro p hp
      have := h p hp
      revert this
      cases p.2 with
      | none => simp [attemptNotFound]
      | some e => simp only [attemptNotFound, attemptFailure]; intro h'; simp [h']
    simp [h1, h2]

/-- C10.  `DeleteSubResources` leaves the cluster in the state reached by
running one deletion attempt per Source, in input order, each attempt made
whatever the earlier ones returned.  Every Source whose attempt fails with an
error other than not-found is in the remaining list.  The returned error is the
error of the last such attempt, and it is `nil` exactly when there is none.
When no Source has a graceful-teardown apiVersion, the calls that reach the
client are `Delete` calls, one for the bare object of each Source, in input
order. -/
theorem deleteSubResources_attempts_every_source {σ : Type} (client : Client σ) (s : σ)
    (subResources : List Source) :
    (DeleteSubResources client s subResources).2 = (deleteAttempts client s subResources).2 ∧
    (deleteAttempts client s subResources).1.map Prod.fst = subResources ∧
    (∀ x e, (x, some e) ∈ (deleteAttempts client s subResources).1 → e.IsNotFound = false →
      x ∈ (DeleteSubResources client s subResources).1.1) ∧
    (DeleteSubResources client s subResources).1.2 =
      (hardErrors (deleteAttempts client s subResources).1).getLast? ∧
    ((DeleteSubResources client s subResources).1.2 = none ↔
      ∀ x e, (x, some e) ∈ (deleteAttempts client s subResources).1 → e.IsNotFound = true) ∧
    ((∀ x ∈ subResources, x.APIVersion ∉ specialDelete) →
      (DeleteSubResources client.recorded (s, []) subResources).2.2.map Call.obj =
        subResources.map sourceToUnstructured ∧
      ∀ c ∈ (DeleteSubResources client.recorded (s, []) subResources).2.2,
        c.isDelete = true) := by
  rw [DeleteSubResources_eq, DeleteSubResources_eq]
  refine ⟨rfl, deleteAttempts_sources client subResources s, ?_, rfl, ?_, ?_⟩
  · intro x e hx he
    exact (mem_keptSources _ x).2 ⟨some e, hx, by simp [attemptNotFound, he]⟩
  · simp only [List.getLast?_eq_none_iff]
    constructor
    · intro h x e hx
      by_contra hne
      have : e ∈ hardErrors (deleteAttempts client s subResources).1 :=
        (mem_hardErrors _ e).2 ⟨x, hx, by simpa using hne⟩
      rw [h] at this
      simp at this
    · intro h
      apply List.eq_nil_iff_forall_not_mem.2
      intro e he
      obtain ⟨x, hx, hf⟩ := (mem_hardErrors _ e).1 he
      rw [h x e hx] at hf
      simp at hf
  · intro hdefault
    obtain ⟨calls, h1, h2, h3⟩ :=
      deleteAttempts_recorded_default client subResources s [] hdefault
    simp only [List.nil_append] at h1
    simp only [h1]
    exact ⟨h2, h3⟩

/-! ## Lemmas on the structural merge -/

mutual
theorem Value.induct (P : Value → Prop) (hnull : P .null) (hbool : ∀ b, P (.bool b))
    (hnum : ∀ n, P (.num n)) (hstr : ∀ s, P (.str s))
    (harr : ∀ items, (∀ v ∈ items, P v) → P (.arr items))
    (hmap : ∀ fields, (∀ p ∈ fields, P p.2) → P (.map fields)) : ∀ v, P v
  | .null => hnull
  | .bool b => hbool b
  | .num n => hnum n
  | .str s => hstr s
  | .arr items => harr items (Value.induct_list P hnull hbool hnum hstr harr hmap items)
  | .map fields => hmap fields (Value.induct_fields P hnull hbool hnum hstr harr hmap fields)
theorem Value.induct_list (P : Value → Prop) (hnull : P .null) (hbool : ∀ b, P (.bool b))
    (hnum : ∀ n, P (.num n)) (hstr : ∀ s, P (.str s))
    (harr : ∀ items, (∀ v ∈ items, P v) → P (.arr items))
    (hmap : ∀ fields, (∀ p ∈ fields, P p.2) → P (.map fields)) :
    ∀ items : List Value, ∀ v ∈ items, P v
  | [], _, h => by cases h
  | x :: rest, v, h => by
    rcases List.mem_cons.1 h with rfl | h'
    · exact Value.induct P hnull hbool hnum hstr harr hmap v
    · exact Value.induct_list P hnull hbool hnum hstr harr hmap rest v h'
theorem Value.induct_fields (P : Value → Prop) (hnull : P .null) (hbool : ∀ b, P (.bool b))
    (hnum : ∀ n, P (.num n)) (hstr : ∀ s, P (.str s))
    (harr : ∀ items, (∀ v ∈ items, P v) → P (.arr items))
    (hmap : ∀ fields, (∀ p ∈ fields, P p.2) → P (.map fields)) :
    ∀ fields : List (String × Value), ∀ p ∈ fields, P p.2
  | [], _, h => by cases h
  | (k, x) :: rest, p, h => by
    rcases List.mem_cons.1 h with rfl | h'
    · exact Value.induct P hnull hbool hnum hstr harr hmap x
    · exact Value.induct_fields P hnull hbool hnum hstr harr hmap rest p h'
end

theorem WFFields_iff (fields : List (String × Value)) :
    Value.WFFields fields = true ↔ ∀ p ∈ fields, Value.WF p.2 = true := by
  induction fields with
  | nil => simp [Value.WFFields]
  | cons p rest ih =>
    obtain ⟨k, v⟩ := p
    simp [Value.WFFields, ih]

theorem WF_map_iff (fields : List (String × Value)) :
    Value.WF (.map fields) = true ↔
      (fields.map Prod.fst).Nodup ∧ ∀ p ∈ fields, Value.WF p.2 = true := by
  simp [Value.WF, WFFields_iff]

theorem lookup_eq_none_iff {α : Type} (k : String) (m : List (String × α)) :
    lookup k m = none ↔ k ∉ m.map Prod.fst := by
  induction m with
  | nil => simp [lookup]
  | cons p rest ih =>
    obtain ⟨k', v⟩ := p
    by_cases h : k' = k
    · simp [lookup, h]
    · simp [lookup, h, ih, Ne.symm h]

theorem lookup_of_mem {α : Type} (k : String) (v : α) (m : List (String × α))
    (hnodup : (m.map Prod.fst).Nodup) (h : (k, v) ∈ m) : lookup k m = some v := by
  induction m with
  | nil => cases h
  | cons p rest ih =>
    obtain ⟨k', v'⟩ := p
    simp only [List.map_cons, List.nodup_cons] at hnodup
    rcases List.mem_cons.1 h with h' | h'
    · cases h'
      simp [lookup]
    · have : k' ≠ k := by
        intro hk
        subst hk
        exact hnodup.1 (List.mem_map.2 ⟨(k', v), h', rfl⟩)
      simp [lookup, this, ih hnodup.2 h']

theorem mem_of_lookup {α : Type} (k : String) (v : α) (m : List (String × α))
    (h : lookup k m = some v) : (k, v) ∈ m := by
  induction m with
  | nil => simp [lookup] at h
  | cons p rest ih =>
    obtain ⟨k', v'⟩ := p
    by_cases hk : k' = k
    · simp [lookup, hk] at h
      simp [hk, h]
    · simp [lookup, hk] at h
      simp [ih h]

theorem insert_of_lookup {α : Type} (k : String) (v : α) (m : List (String × α))
    (h : lookup k m = some v) : insert k v m = m := by
  induction m with
  | nil => simp [lookup] at h
  | cons p rest ih =>
    obtain ⟨k', v'⟩ := p
    by_cases hk : k' = k
    · simp [lookup, hk] at h
      simp [insert, hk, h]
    · simp [lookup, hk] at h
      simp [insert, hk, ih h]

theorem merge_of_not_map (f e : Value) (h : ∀ m, e ≠ .map m) : merge f e = e := by
  cases e <;> cases f <;> simp_all [merge]

theorem merge_map_of_not_map (f : Value) (e : List (String × Value)) (h : ∀ m, f ≠ .map m) :
    merge f (.map e) = .map e := by
  cases f <;> simp_all [merge]

theorem lookup_mergeFields_absent (e : List (String × Value)) :
    ∀ (f : List (String × Value)) (k : String), lookup k e = none →
      lookup k (mergeFields f e) = lookup k f := by
  induction e with
  | nil => intro f k _; simp [mergeFields]
  | cons p rest ih =>
    obtain ⟨k0, v0⟩ := p
    intro f k hk
    have hne : k0 ≠ k := by
      intro h; simp [lookup, h] at hk
    have hrest : lookup k rest = none := by simpa [lookup, hne] using hk
    unfold mergeFields
    cases hf : lookup k0 f with
    | none => simp only [ih _ k hrest, lookup_insert_other _ _ _ _ hne]
    | some fv => simp only [ih _ k hrest, lookup_insert_other _ _ _ _ hne]

theorem lookup_mergeFields_present (e : List (String × Value)) :
    ∀ (f : List (String × Value)) (k : String) (v : Value), (e.map Prod.fst).Nodup →
      lookup k e = some v →
      lookup k (mergeFields f e) = some (mergedEntry (lookup k f) v) := by
  induction e with
  | nil => intro f k v _ h; simp [lookup] at h
  | cons p rest ih =>
    obtain ⟨k0, v0⟩ := p
    intro f k v hnodup hk
    simp only [List.map_cons, List.nodup_cons] at hnodup
    unfold mergeFields
    by_cases hne : k0 = k
    · subst hne
      have hv : v0 = v := by simpa [lookup] using hk
      subst hv
      have hrest : lookup k0 rest = none := (lookup_eq_none_iff _ _).2 hnodup.1
      cases hf : lookup k0 f with
      | none =>
        simp only [lookup_mergeFields_absent rest _ k0 hrest, lookup_insert_self, mergedEntry]
      | some fv =>
        simp only [lookup_mergeFields_absent rest _ k0 hrest, lookup_insert_self, mergedEntry]
    · have hrest : lookup k rest = some v := by simpa [lookup, hne] using hk
      cases hf : lookup k0 f with
      | none => simp only [ih _ k v hnodup.2 hrest, lookup_insert_other _ _ _ _ hne]
      | some fv => simp only [ih _ k v hnodup.2 hrest, lookup_insert_other _ _ _ _ hne]

theorem mergeFields_fix (e : List (String × Value)) :
    ∀ g : List (String × Value),
      (∀ k v, (k, v) ∈ e → ∃ x, lookup k g = some x ∧ merge x v = x) →
      mergeFields g e = g := by
  induction e with
  | nil => intro g _; simp [mergeFields]
  | cons p rest ih =>
    obtain ⟨k0, v0⟩ := p
    intro g h
    obtain ⟨x, hx, hm⟩ := h k0 v0 (by simp)
    unfold mergeFields
    simp only [hx, hm, insert_of_lookup _ _ _ hx]
    exact ih g (fun k v hkv => h k v (by simp [hkv]))

theorem merge_self : ∀ v : Value, v.WF = true → merge v v = v := by
  apply Value.induct
  · intro _; rfl
  · intro b _; rfl
  · intro n _; rfl
  · intro s _; rfl
  · intro items _ _; rfl
  · intro fields ih hwf
    obtain ⟨hnodup, hvals⟩ := (WF_map_iff fields).1 hwf
    simp only [merge]
    congr 1
    apply mergeFields_fix
    intro k v hkv
    exact ⟨v, lookup_of_mem k v fields hnodup hkv, ih (k, v) hkv (hvals (k, v) hkv)⟩

theorem merge_idem : ∀ e : Value, e.WF = true → ∀ f, merge (merge f e) e = merge f e := by
  apply Value.induct
  · intro _ f; simp [merge_of_not_map]
  · intro b _ f; simp [merge_of_not_map]
  · intro n _ f; simp [merge_of_not_map]
  · intro s _ f; simp [merge_of_not_map]
  · intro items _ _ f; simp [merge_of_not_map]
  · intro fields ih hwf f
    obtain ⟨hnodup, hvals⟩ := (WF_map_iff fields).1 hwf
    by_cases hf : ∃ fm, f = .map fm
    · obtain ⟨fm, rfl⟩ := hf
      simp only [merge]
      congr 1
      apply mergeFields_fix
      intro k v hkv
      have hl := lookup_of_mem k v fields hnodup hkv
      refine ⟨_, lookup_mergeFields_present fields fm k v hnodup hl, ?_⟩
      cases hfk : lookup k fm with
      | none => exact merge_self v (hvals (k, v) hkv)
      | some fv => exact ih (k, v) hkv (hvals (k, v) hkv) fv
    · have hf' : ∀ m, f ≠ .map m := fun m h => hf ⟨m, h⟩
      rw [merge_map_of_not_map f fields hf']
      exact merge_self _ hwf


/-! ## Lemmas on annotations -/

theorem toStringMap_ofStringMap (a : List (String × String)) :
    toStringMap (ofStringMap a) = some a := by
  induction a with
  | nil => rfl
  | cons p rest ih =>
    obtain ⟨k, v⟩ := p
    simp only [ofStringMap, List.map_cons, toStringMap] at ih ⊢
    rw [ih]
    rfl

theorem metadataOf_setMetadata (field : String) (v : Value) (m : List (String × Value))
    (h : metadataSettable m = true) :
    metadataOf (setMetadata field v m) = insert field v (metadataOf m) := by
  unfold setMetadata metadataOf
  unfold metadataSettable at h
  cases hl : lookup "metadata" m with
  | none => simp [lookup_insert_self]
  | some x =>
    cases x with
    | map md => simp [lookup_insert_self]
    | null => simp [hl] at h
    | bool b => simp [hl] at h
    | num n => simp [hl] at h
    | str t => simp [hl] at h
    | arr items => simp [hl] at h

theorem setMetadata_of_not_settable (field : String) (v : Value) (m : List (String × Value))
    (h : metadataSettable m = false) : setMetadata field v m = m := by
  unfold setMetadata
  unfold metadataSettable at h
  cases hl : lookup "metadata" m with
  | none => simp [hl] at h
  | some x => cases x <;> simp_all

theorem GetAnnotations_SetAnnotations (u : Unstructured) (a : List (String × String))
    (h : metadataSettable u.Object = true) :
    (u.SetAnnotations (some a)).GetAnnotations = some a := by
  simp only [Unstructured.GetAnnotations, Unstructured.SetAnnotations,
    metadataOf_setMetadata _ _ _ h, lookup_insert_self, toStringMap_ofStringMap]

/-! ## Ownership stamping and the owner mapping: the claims -/

theorem lookup_toStringMap (k : String) (v : String) (a : List (String × Value)) :
    ∀ m, toStringMap a = some m → (lookup k m = some v ↔ lookup k a = some (.str v)) := by
  induction a with
  | nil =>
    intro m h
    simp only [toStringMap, Option.some.injEq] at h
    subst h
    simp [lookup]
  | cons p rest ih =>
    intro m h
    obtain ⟨k1, x⟩ := p
    cases x with
    | str t =>
      simp only [toStringMap, Option.map_eq_some'] at h
      obtain ⟨r, hr, rfl⟩ := h
      by_cases hk : k1 = k
      · simp [lookup, hk]
      · simp [lookup, hk, ih r hr]
    | null => simp [toStringMap] at h
    | bool b => simp [toStringMap] at h
    | num n => simp [toStringMap] at h
    | arr items => simp [toStringMap] at h
    | map fields => simp [toStringMap] at h

theorem annotationsOf_of_rawAnnotations (obj : Unstructured) (m : List (String × String))
    (h : toStringMap (rawAnnotations obj) = some m) : annotationsOf obj = m := by
  unfold rawAnnotations at h
  unfold annotationsOf Unstructured.GetAnnotations
  cases hl : lookup "annotations" (metadataOf obj.Object) with
  | none =>
    simp only [hl, toStringMap, Option.some.injEq] at h
    simp [h]
  | some x =>
    cases x with
    | map a =>
      simp only [hl] at h
      simp [h]
    | null => simp only [hl, toStringMap, Option.some.injEq] at h; simp [h]
    | bool b => simp only [hl, toStringMap, Option.some.injEq] at h; simp [h]
    | num n => simp only [hl, toStringMap, Option.some.injEq] at h; simp [h]
    | str t => simp only [hl, toStringMap, Option.some.injEq] at h; simp [h]
    | arr items => simp only [hl, toStringMap, Option.some.injEq] at h; simp [h]

theorem setOwnerAnnotations_annotations (keys : OwnerKeys) (hkeys : keys.Distinct)
    (owner : ObjectMeta) (ownerGVK : GroupVersionKind) (obj : Unstructured)
    (hmeta : metadataSettable obj.Object = true) :
    ∃ annotations, (setOwnerAnnotations keys owner ownerGVK obj).GetAnnotations =
        some annotations ∧
      lookup keys.OwnerNameKey annotations = some owner.Name ∧
      lookup keys.OwnerNamespaceKey annotations = some owner.Namespace ∧
      lookup keys.OwnerKindKey annotations = some ownerGVK.Kind ∧
      lookup keys.OwnerAPIVersionKey annotations = some ownerGVK.GroupVersionString ∧
      ∀ k, k ≠ keys.OwnerNameKey → k ≠ keys.OwnerNamespaceKey → k ≠ keys.OwnerKindKey →
        k ≠ keys.OwnerAPIVersionKey → lookup k annotations = lookup k (annotationsOf obj) := by
  obtain ⟨h12, h13, h14, h23, h24, h34⟩ := hkeys
  refine ⟨_, GetAnnotations_SetAnnotations _ _ hmeta, ?_, ?_, ?_, ?_, ?_⟩
  · rw [lookup_insert_other _ _ _ _ (Ne.symm h14), lookup_insert_other _ _ _ _ (Ne.symm h13),
      lookup_insert_other _ _ _ _ (Ne.symm h12), lookup_insert_self]
  · rw [lookup_insert_other _ _ _ _ (Ne.symm h24), lookup_insert_other _ _ _ _ (Ne.symm h23),
      lookup_insert_self]
  · rw [lookup_insert_other _ _ _ _ (Ne.symm h34), lookup_insert_self]
  · rw [lookup_insert_self]
  · intro k k1 k2 k3 k4
    rw [lookup_insert_other _ _ _ _ (Ne.symm k4), lookup_insert_other _ _ _ _ (Ne.symm k3),
      lookup_insert_other _ _ _ _ (Ne.symm k2), lookup_insert_other _ _ _ _ (Ne.symm k1)]
    rfl

/-- C6, as the code has it.  With four different annotation keys,
`SetOwnerReference` returns no error and, for every resource of the list whose
`metadata` is absent or a mapping, the annotations of the stamped resource hold
the owner's name, the owner's namespace, the kind and the group-version string
of the owner's GroupVersionKind under the four keys, and under every other key
what `GetAnnotations` reported before (nothing, when the resource had no
annotations).  When every annotation stored in the resource is a string, that
is every annotation the resource had: the stamped annotations hold a value
under another key exactly when the stored annotations held it. -/
theorem setOwnerReference_stamps (keys : OwnerKeys) (hkeys : keys.Distinct) (owner : ObjectMeta)
    (ownerGVK : GroupVersionKind) (resources : List Unstructured) :
    (SetOwnerReference keys owner ownerGVK resources).2 = none ∧
    (SetOwnerReference keys owner ownerGVK resources).1.length = resources.length ∧
    ∀ (i : Nat) (obj : Unstructured), resources[i]? = some obj →
      metadataSettable obj.Object = true →
      ∃ (stamped : Unstructured) (annotations : List (String × String)),
        (SetOwnerReference keys owner ownerGVK resources).1[i]? = some stamped ∧
        stamped.GetAnnotations = some annotations ∧
        lookup keys.OwnerNameKey annotations = some owner.Name ∧
        lookup keys.OwnerNamespaceKey annotations = some owner.Namespace ∧
        lookup keys.OwnerKindKey annotations = some ownerGVK.Kind ∧
        lookup keys.OwnerAPIVersionKey annotations = some ownerGVK.GroupVersionString ∧
        (∀ k, k ≠ keys.OwnerNameKey → k ≠ keys.OwnerNamespaceKey → k ≠ keys.OwnerKindKey →
          k ≠ keys.OwnerAPIVersionKey →
          lookup k annotations = lookup k (annotationsOf obj)) ∧
        (∀ m, toStringMap (rawAnnotations obj) = some m →
          ∀ k v, k ≠ keys.OwnerNameKey → k ≠ keys.OwnerNamespaceKey →
            k ≠ keys.OwnerKindKey → k ≠ keys.OwnerAPIVersionKey →
            (lookup k annotations = some v ↔
              lookup k (rawAnnotations obj) = some (.str v))) := by
  refine ⟨rfl, by simp [SetOwnerReference], ?_⟩
  intro i obj hi hmeta
  obtain ⟨annotations, ha, h1, h2, h3, h4, h5⟩ :=
    setOwnerAnnotations_annotations keys hkeys owner ownerGVK obj hmeta
  refine ⟨setOwnerAnnotations keys owner ownerGVK obj, annotations, ?_, ha, h1, h2, h3, h4, h5,
    ?_⟩
  · simp [SetOwnerReference, hi]
  · intro m hm k v k1 k2 k3 k4
    rw [h5 k k1 k2 k3 k4, annotationsOf_of_rawAnnotations obj m hm]
    exact lookup_toStringMap k v _ m hm

/-- C6, witness: a ConfigMap with annotations, among them an old owner name,
stamped with the keys of the interoperator. -/
theorem setOwnerReference_stamps_witness :
    exampleKeys.Distinct ∧ metadataSettable exampleConfigMap.Object = true ∧
    ∃ (stamped : Unstructured) (annotations : List (String × String)),
      (SetOwnerReference exampleKeys exampleOwner exampleGVK
        [exampleConfigMap, sourceToUnstructured exampleC]).1[0]? = some stamped ∧
      stamped.GetAnnotations = some annotations ∧
      lookup exampleKeys.OwnerNameKey annotations = some exampleOwner.Name ∧
      lookup exampleKeys.OwnerNamespaceKey annotations = some exampleOwner.Namespace ∧
      lookup exampleKeys.OwnerKindKey annotations = some exampleGVK.Kind ∧
      lookup exampleKeys.OwnerAPIVersionKey annotations =
        some exampleGVK.GroupVersionString ∧
      (∀ k, k ≠ exampleKeys.OwnerNameKey → k ≠ exampleKeys.OwnerNamespaceKey →
        k ≠ exampleKeys.OwnerKindKey → k ≠ exampleKeys.OwnerAPIVersionKey →
        lookup k annotations = lookup k (annotationsOf exampleConfigMap)) ∧
      (∀ m, toStringMap (rawAnnotations exampleConfigMap) = some m →
        ∀ k v, k ≠ exampleKeys.OwnerNameKey → k ≠ exampleKeys.OwnerNamespaceKey →
          k ≠ exampleKeys.OwnerKindKey → k ≠ exampleKeys.OwnerAPIVersionKey →
          (lookup k annotations = some v ↔
            lookup k (rawAnnotations exampleConfigMap) = some (.str v))) :=
  ⟨by decide, by decide,
    (setOwnerReference_stamps exampleKeys (by decide) exampleOwner exampleGVK
      [exampleConfigMap, sourceToUnstructured exampleC]).2.2 0 exampleConfigMap rfl
      (by decide)⟩

/-- C6 at a concrete input, evaluated: the annotation `team` is kept, the old
owner name is overwritten. -/
theorem setOwnerReference_example :
    ((SetOwnerReference exampleKeys exampleOwner exampleGVK [exampleConfigMap]).1.map
        Unstructured.GetAnnotations) =
      [some [("team", "storage"),
             ("interoperator.servicefabrik.io/ownerName", "instance-1"),
             ("interoperator.servicefabrik.io/ownerNamespace", "default"),
             ("interoperator.servicefabrik.io/ownerKind", "SFServiceInstance"),
             ("interoperator.servicefabrik.io/ownerAPIVersion",
               "osb.servicefabrik.io/v1alpha1")]] ∧
    ((SetOwnerReference exampleKeys exampleOwner exampleGVK
        [sourceToUnstructured exampleC]).1.map Unstructured.GetAnnotations) =
      [some [("interoperator.servicefabrik.io/ownerName", "instance-1"),
             ("interoperator.servicefabrik.io/ownerNamespace", "default"),
             ("interoperator.servicefabrik.io/ownerKind", "SFServiceInstance"),
             ("interoperator.servicefabrik.io/ownerAPIVersion",
               "osb.servicefabrik.io/v1alpha1")]] := by
  decide

/-- C6 as stated fails in two ways.  A resource whose `metadata` is null is
left as it is, because the setter of the annotations does nothing on it: after
`SetOwnerReference` it has no annotations at all.  A resource one of whose
annotations is a number has, for `GetAnnotations`, no annotations: the stamped
resource holds the four ownership keys only, and the annotation `team` that
the resource had is gone. -/
theorem setOwnerReference_loses_annotations :
    (SetOwnerReference exampleKeys exampleOwner exampleGVK [exampleNullMetadata]).1 =
      [exampleNullMetadata] ∧
    exampleNullMetadata.GetAnnotations = none ∧
    lookup "team" (rawAnnotations exampleMixedAnnotations) = some (.str "db") ∧
    ((SetOwnerReference exampleKeys exampleOwner exampleGVK [exampleMixedAnnotations]).1.map
        Unstructured.GetAnnotations) =
      [some [("interoperator.servicefabrik.io/ownerName", "instance-1"),
             ("interoperator.servicefabrik.io/ownerNamespace", "default"),
             ("interoperator.servicefabrik.io/ownerKind", "SFServiceInstance"),
             ("interoperator.servicefabrik.io/ownerAPIVersion",
               "osb.servicefabrik.io/v1alpha1")]] ∧
    ((SetOwnerReference exampleKeys exampleOwner exampleGVK [exampleMixedAnnotations]).1.map
        (fun r => lookup "team" (rawAnnotations r))) = [none] := by
  decide

/-- C24, as the code has it.  With four different annotation keys and a
resource whose `metadata` is absent or a mapping: after
`SetOwnerReference(owner, G, [resource])` the one stamped resource is mapped by
`MapReconcileByAnnotations` with `G` to exactly one request, carrying the name
and the namespace of the owner, and with a group-version-kind whose kind or
group-version string differs from that of `G` to no request. -/
theorem mapReconcileByAnnotations_round_trip (keys : OwnerKeys) (hkeys : keys.Distinct)
    (owner : ObjectMeta) (ownerGVK other : GroupVersionKind) (resource : Unstructured)
    (hmeta : metadataSettable resource.Object = true) :
    ∃ stamped, (SetOwnerReference keys owner ownerGVK [resource]).1 = [stamped] ∧
      MapReconcileByAnnotations keys stamped ownerGVK =
        [{ Name := owner.Name, Namespace := owner.Namespace }] ∧
      ((other.Kind ≠ ownerGVK.Kind ∨
          other.GroupVersionString ≠ ownerGVK.GroupVersionString) →
        MapReconcileByAnnotations keys stamped other = []) := by
  obtain ⟨annotations, ha, h1, h2, h3, h4, -⟩ :=
    setOwnerAnnotations_annotations keys hkeys owner ownerGVK resource hmeta
  refine ⟨setOwnerAnnotations keys owner ownerGVK resource, rfl, ?_, ?_⟩
  · simp [MapReconcileByAnnotations, ha, h1, h2, h3, h4]
  · intro hne
    have hne2 : ¬ (ownerGVK.Kind = other.Kind ∧
        ownerGVK.GroupVersionString = other.GroupVersionString) := by
      rintro ⟨e1, e2⟩
      rcases hne with h | h
      · exact h e1.symm
      · exact h e2.symm
    simp only [MapReconcileByAnnotations, ha, h3, h4, ne_eq, ← not_and_or, hne2,
      not_false_eq_true, if_true]

/-- C24, witness: a ConfigMap stamped with the owner `instance-1` of the
examples maps back to that owner and to nothing for another kind. -/
theorem mapReconcileByAnnotations_round_trip_witness :
    exampleKeys.Distinct ∧ metadataSettable exampleConfigMap.Object = true ∧
    ∃ stamped, (SetOwnerReference exampleKeys exampleOwner exampleGVK [exampleConfigMap]).1 =
        [stamped] ∧
      MapReconcileByAnnotations exampleKeys stamped exampleGVK =
        [{ Name := exampleOwner.Name, Namespace := exampleOwner.Namespace }] ∧
      (({ exampleGVK with Kind := "SFServiceBinding" } : GroupVersionKind).Kind ≠ exampleGVK.Kind ∨
          ({ exampleGVK with Kind := "SFServiceBinding" } :
            GroupVersionKind).GroupVersionString ≠ exampleGVK.GroupVersionString →
        MapReconcileByAnnotations exampleKeys stamped
          { exampleGVK with Kind := "SFServiceBinding" } = []) :=
  ⟨by decide, by decide, mapReconcileByAnnotations_round_trip exampleKeys (by decide)
    exampleOwner exampleGVK { exampleGVK with Kind := "SFServiceBinding" } exampleConfigMap
    (by decide)⟩

/-- C24 at the same input, evaluated. -/
theorem mapReconcileByAnnotations_example :
    MapReconcileByAnnotations exampleKeys
        (setOwnerAnnotations exampleKeys exampleOwner exampleGVK exampleConfigMap) exampleGVK =
      [{ Name := "instance-1", Namespace := "default" }] ∧
    MapReconcileByAnnotations exampleKeys
        (setOwnerAnnotations exampleKeys exampleOwner exampleGVK exampleConfigMap)
        { exampleGVK with Kind := "SFServiceBinding" } = [] ∧
    MapReconcileByAnnotations exampleKeys exampleConfigMap exampleGVK = [] := by
  decide

/-- C24 as stated fails: a resource whose `metadata` is null is left without
annotations by `SetOwnerReference`, and `MapReconcileByAnnotations` maps it to
no request for the group-version-kind of the owner. -/
theorem mapReconcileByAnnotations_no_request_for_null_metadata :
    (SetOwnerReference exampleKeys exampleOwner exampleGVK [exampleNullMetadata]).1 =
      [exampleNullMetadata] ∧
    MapReconcileByAnnotations exampleKeys exampleNullMetadata exampleGVK = [] ∧
    ∀ stamped ∈ (SetOwnerReference exampleKeys exampleOwner exampleGVK
        [exampleNullMetadata]).1,
      MapReconcileByAnnotations exampleKeys stamped exampleGVK ≠
        [{ Name := exampleOwner.Name, Namespace := exampleOwner.Namespace }] := by
  decide

/-! ## Lemmas on the reconcile loops -/

theorem DeepUpdate_map (f e : List (String × Value)) :
    DeepUpdate (.map f) (.map e) = (.map (mergeFields f e), decide (mergeFields f e ≠ f)) := by
  simp [DeepUpdate, merge]

theorem reconcileExpected_cons {σ : Type} (client : Client σ) (s : σ) (e : Unstructured)
    (rest acc : List Unstructured) :
    reconcileExpected client s (e :: rest) acc =
      match client.Get s (namespacedNameOf e) (bareOf e) with
      | (.error err, s1) =>
        if err.IsNotFound then
          match client.Create s1 e with
          | (some err, s2) => (.error err, s2)
          | (none, s2) => reconcileExpected client s2 rest (acc ++ [bareOf e])
        else (.error err, s1)
      | (.ok found, s1) =>
        if mergeFields found.Object e.Object ≠ found.Object then
          match client.Update s1 { Object := mergeFields found.Object e.Object } with
          | (some err, s2) => (.error err, s2)
          | (none, s2) =>
            reconcileExpected client s2 rest (acc ++ [{ Object := mergeFields found.Object e.Object }])
        else reconcileExpected client s1 rest (acc ++ [found]) := by
  rw [reconcileExpected]
  simp only [DeepUpdate_map]
  show (match client.Get s (namespacedNameOf e) (bareOf e) with
    | (.error err, s1) => _
    | (.ok found, s1) => _) = _
  rcases client.Get s (namespacedNameOf e) (bareOf e) with ⟨r, s1⟩
  cases r with
  | error err => rfl
  | ok found =>
    by_cases h : mergeFields found.Object e.Object = found.Object
    · simp [h]
    · simp only [h, ne_eq, not_false_eq_true, decide_True, if_true]

theorem deleteOutdated_cons {σ : Type} (client : Client σ) (s : σ) (src : Source)
    (rest : List Source) (found : List Unstructured) :
    deleteOutdated client s (src :: rest) found =
      if findUnstructuredObject found (sourceToUnstructured src) then
        deleteOutdated client s rest found
      else
        match client.Delete s (sourceToUnstructured src) with
        | (some _, s1) => deleteOutdated client s1 rest (found ++ [sourceToUnstructured src])
        | (none, s1) => deleteOutdated client s1 rest found := by
  rw [deleteOutdated]

/-- The calls of the first loop: none is a `Delete`, and every `Update` passes
the merge of an expected resource into an object that `Get` answered for it. -/
theorem reconcileExpected_log {σ : Type} (client : Client σ) (expected : List Unstructured) :
    ∀ (s : σ) (log : List Call) (acc : List Unstructured),
      ∃ calls,
        (reconcileExpected client.recorded (s, log) expected acc).2.2 = log ++ calls ∧
        (∀ c ∈ calls, c.isDelete = false) ∧
        (∀ u ans, Call.Update u ans ∈ calls →
          ∃ e ∈ expected, ∃ found,
            Call.Get (namespacedNameOf e) (bareOf e) (.ok found) ∈ calls ∧
            u.Object = mergeFields found.Object e.Object) := by
  induction expected with
  | nil =>
    intro s log acc
    exact ⟨[], by simp [reconcileExpected], by simp, by simp⟩
  | cons e rest ih =>
    intro s log acc
    rw [reconcileExpected_cons]
    simp only [recorded_Get, recorded_Create, recorded_Update]
    rcases hG : client.Get s (namespacedNameOf e) (bareOf e) with ⟨r, s1⟩
    cases r with
    | error err =>
      by_cases hnf : err.IsNotFound = true
      · rcases hC : client.Create s1 e with ⟨rc, s2⟩
        simp only [hnf, if_true, recorded_Create, hC]
        cases rc with
        | some err2 =>
          refine ⟨[Call.Get (namespacedNameOf e) (bareOf e) (.error err),
            Call.Create e (some err2)], by simp, ?_, ?_⟩
          · intro c hc
            simp at hc
            rcases hc with rfl | rfl <;> rfl
          · intro u ans hu
            simp at hu
        | none =>
          obtain ⟨calls, h1, h2, h3⟩ := ih s2
            (log ++ [Call.Get (namespacedNameOf e) (bareOf e) (.error err)] ++
              [Call.Create e none]) (acc ++ [bareOf e])
          refine ⟨[Call.Get (namespacedNameOf e) (bareOf e) (.error err),
            Call.Create e none] ++ calls, by simpa using h1, ?_, ?_⟩
          · intro c hc
            simp at hc
            rcases hc with rfl | rfl | hc
            · rfl
            · rfl
            · exact h2 c hc
          · intro u ans hu
            simp at hu
            obtain ⟨e', he', found, hg, hm⟩ := h3 u ans hu
            exact ⟨e', by simp [he'], found, by simp [hg], hm⟩
      · simp only [hnf, Bool.false_eq_true, if_false]
        refine ⟨[Call.Get (namespacedNameOf e) (bareOf e) (.error err)], by simp, ?_, ?_⟩
        · intro c hc
          simp at hc
          subst hc
          rfl
        · intro u ans hu
          simp at hu
    | ok found =>
      by_cases hm : mergeFields found.Object e.Object = found.Object
      · simp only [hm, ne_eq, not_true_eq_false, if_false]
        obtain ⟨calls, h1, h2, h3⟩ := ih s1
          (log ++ [Call.Get (namespacedNameOf e) (bareOf e) (.ok found)]) (acc ++ [found])
        refine ⟨[Call.Get (namespacedNameOf e) (bareOf e) (.ok found)] ++ calls,
          by simpa using h1, ?_, ?_⟩
        · intro c hc
          simp at hc
          rcases hc with rfl | hc
          · rfl
          · exact h2 c hc
        · intro u ans hu
          simp at hu
          obtain ⟨e', he', found', hg, hm'⟩ := h3 u ans hu
          exact ⟨e', by simp [he'], found', by simp [hg], hm'⟩
      · rcases hU : client.Update s1 { Object := mergeFields found.Object e.Object } with ⟨ru, s2⟩
        simp only [hm, ne_eq, not_false_eq_true, if_true, recorded_Update, hU]
        cases ru with
        | some err2 =>
          refine ⟨[Call.Get (namespacedNameOf e) (bareOf e) (.ok found),
            Call.Update { Object := mergeFields found.Object e.Object } (some err2)],
            by simp, ?_, ?_⟩
          · intro c hc
            simp at hc
            rcases hc with rfl | rfl <;> rfl
          · intro u ans hu
            simp at hu
            obtain ⟨rfl, rfl⟩ := hu
            exact ⟨e, by simp, found, by simp, rfl⟩
        | none =>
          obtain ⟨calls, h1, h2, h3⟩ := ih s2
            (log ++ [Call.Get (namespacedNameOf e) (bareOf e) (.ok found)] ++
              [Call.Update { Object := mergeFields found.Object e.Object } none])
            (acc ++ [{ Object := mergeFields found.Object e.Object }])
          refine ⟨[Call.Get (namespacedNameOf e) (bareOf e) (.ok found),
            Call.Update { Object := mergeFields found.Object e.Object } none] ++ calls,
            by simpa using h1, ?_, ?_⟩
          · intro c hc
            simp at hc
            rcases hc with rfl | rfl | hc
            · rfl
            · rfl
            · exact h2 c hc
          · intro u ans hu
            simp at hu
            rcases hu with ⟨rfl, rfl⟩ | hu
            · exact ⟨e, by simp, found, by simp, rfl⟩
            · obtain ⟨e', he', found', hg, hm'⟩ := h3 u ans hu
              exact ⟨e', by simp [he'], found', by simp [hg], hm'⟩

theorem findUnstructuredObject_iff (list : List Unstructured) (item : Unstructured) :
    findUnstructuredObject list item = true ↔
      ∃ o ∈ list, unstructuredToSource o = unstructuredToSource item := by
  induction list with
  | nil => simp [findUnstructuredObject]
  | cons o rest ih =>
    unfold findUnstructuredObject
    by_cases h : o.GetKind = item.GetKind ∧ o.GetAPIVersion = item.GetAPIVersion ∧
        o.GetName = item.GetName ∧ o.GetNamespace = item.GetNamespace
    · simp only [h, and_self, if_true, List.mem_cons, exists_eq_or_imp, true_iff]
      left
      simp [unstructuredToSource, h]
    · have hne : unstructuredToSource o ≠ unstructuredToSource item := by
        intro heq
        apply h
        simp only [unstructuredToSource, Source.mk.injEq] at heq
        exact ⟨heq.2.1, heq.1, heq.2.2.1, heq.2.2.2⟩
      simp only [h, if_false, ih, List.mem_cons, exists_eq_or_imp, hne, false_or]

/-- The calls of the second loop are `Delete` calls. -/
theorem deleteOutdated_log {σ : Type} (client : Client σ) (last : List Source) :
    ∀ (s : σ) (log : List Call) (found : List Unstructured),
      ∃ calls,
        (deleteOutdated client.recorded (s, log) last found).2.2 = log ++ calls ∧
        ∀ c ∈ calls, c.isDelete = true := by
  induction last with
  | nil =>
    intro s log found
    exact ⟨[], by simp [deleteOutdated], by simp⟩
  | cons src rest ih =>
    intro s log found
    rw [deleteOutdated_cons]
    by_cases hf : findUnstructuredObject found (sourceToUnstructured src) = true
    · simp only [hf, if_true]
      exact ih s log found
    · rcases hD : client.Delete s (sourceToUnstructured src) with ⟨rd, s1⟩
      simp only [hf, Bool.false_eq_true, if_false, recorded_Delete, hD]
      cases rd with
      | some err =>
        obtain ⟨calls, h1, h2⟩ := ih s1
          (log ++ [Call.Delete (sourceToUnstructured src) (some err)])
          (found ++ [sourceToUnstructured src])
        refine ⟨[Call.Delete (sourceToUnstructured src) (some err)] ++ calls,
          by simpa using h1, ?_⟩
        intro c hc
        simp at hc
        rcases hc with rfl | hc
        · rfl
        · exact h2 c hc
      | none =>
        obtain ⟨calls, h1, h2⟩ := ih s1
          (log ++ [Call.Delete (sourceToUnstructured src) none]) found
        refine ⟨[Call.Delete (sourceToUnstructured src) none] ++ calls,
          by simpa using h1, ?_⟩
        intro c hc
        simp at hc
        rcases hc with rfl | hc
        · rfl
        · exact h2 c hc

/-! ## Reconciliation: the claims -/

/-- C3, as the code has it.  Previous sources `[A, B]` with `A ≠ B`, and an
expected list whose first loop succeeds with found resources that all resolve
to `A` (at least one).  Then `ReconcileResources` issues exactly one `Delete`,
for the bare object of `B`, and none for `A`; and when that `Delete` returns no
error, the returned Source list is the list of the found resources, which holds
`A` and not `B`. -/
theorem reconcileResources_orphan_cleanup {σ : Type} (client : Client σ) (s s1 : σ)
    (expectedResources found : List Unstructured) (log1 : List Call) (A B : Source)
    (hAB : A ≠ B)
    (hexp : reconcileExpected client.recorded (s, []) expectedResources [] =
      (.ok found, (s1, log1)))
    (hne : found ≠ [])
    (hres : ∀ f ∈ found, unstructuredToSource f = A) :
    (ReconcileResources client.recorded (s, []) expectedResources [A, B]).2.2.filter
        Call.isDelete =
      [Call.Delete (sourceToUnstructured B) (client.Delete s1 (sourceToUnstructured B)).1] ∧
    ((client.Delete s1 (sourceToUnstructured B)).1 = none →
      (ReconcileResources client.recorded (s, []) expectedResources [A, B]).1 =
        .ok (found.map unstructuredToSource) ∧
      B ∉ found.map unstructuredToSource ∧ A ∈ found.map unstructuredToSource) := by
  obtain ⟨calls, h1, h2, -⟩ := reconcileExpected_log client expectedResources s [] []
  rw [hexp] at h1
  simp only [List.nil_append] at h1
  subst h1
  have hlog : log1.filter Call.isDelete = [] := by
    apply List.filter_eq_nil_iff.2
    intro c hc
    simp [h2 c hc]
  have hA : findUnstructuredObject found (sourceToUnstructured A) = true := by
    rw [findUnstructuredObject_iff]
    obtain ⟨f, hf⟩ := List.exists_mem_of_ne_nil found hne
    exact ⟨f, hf, by rw [hres f hf, unstructuredToSource_sourceToUnstructured]⟩
  have hB : findUnstructuredObject found (sourceToUnstructured B) = false := by
    rw [Bool.eq_false_iff]
    intro h
    obtain ⟨f, hf, heq⟩ := (findUnstructuredObject_iff _ _).1 h
    rw [hres f hf, unstructuredToSource_sourceToUnstructured] at heq
    exact hAB heq
  unfold ReconcileResources
  rw [hexp]
  simp only [deleteOutdated_cons, hA, hB, if_true, Bool.false_eq_true, if_false, recorded_Delete]
  rcases hD : client.Delete s1 (sourceToUnstructured B) with ⟨rd, s2⟩
  cases rd with
  | some err =>
    simp [deleteOutdated, hlog, Call.isDelete]
  | none =>
    simp only [deleteOutdated, List.filter_append, hlog, List.nil_append]
    refine ⟨by simp [Call.isDelete], fun _ => ⟨trivial, ?_, ?_⟩⟩
    · intro hmem
      obtain ⟨f, hf, heq⟩ := List.mem_map.1 hmem
      rw [hres f hf] at heq
      exact hAB heq
    · obtain ⟨f, hf⟩ := List.exists_mem_of_ne_nil found hne
      exact List.mem_map.2 ⟨f, hf, hres f hf⟩

/-- C3, witness: a cluster holding ConfigMaps `a` and `b`, of which only `a` is
expected. -/
theorem reconcileResources_orphan_cleanup_witness :
    exampleA ≠ exampleB ∧
    reconcileExpected memoryClient.recorded ([configMap "a" 1, configMap "b" 1], [])
        [configMap "a" 1] [] =
      (.ok [configMap "a" 1], ([configMap "a" 1, configMap "b" 1],
        [Call.Get (namespacedNameOf (configMap "a" 1)) (bareOf (configMap "a" 1))
          (.ok (configMap "a" 1))])) ∧
    ((ReconcileResources memoryClient.recorded ([configMap "a" 1, configMap "b" 1], [])
        [configMap "a" 1] [exampleA, exampleB]).2.2.filter Call.isDelete =
      [Call.Delete (sourceToUnstructured exampleB)
        (memoryClient.Delete [configMap "a" 1, configMap "b" 1]
          (sourceToUnstructured exampleB)).1] ∧
     ((memoryClient.Delete [configMap "a" 1, configMap "b" 1]
          (sourceToUnstructured exampleB)).1 = none →
      (ReconcileResources memoryClient.recorded ([configMap "a" 1, configMap "b" 1], [])
          [configMap "a" 1] [exampleA, exampleB]).1 =
        .ok ([configMap "a" 1].map unstructuredToSource) ∧
      exampleB ∉ [configMap "a" 1].map unstructuredToSource ∧
      exampleA ∈ [configMap "a" 1].map unstructuredToSource)) :=
  ⟨by decide, by decide,
    reconcileResources_orphan_cleanup memoryClient [configMap "a" 1, configMap "b" 1]
      [configMap "a" 1, configMap "b" 1] [configMap "a" 1] [configMap "a" 1]
      [Call.Get (namespacedNameOf (configMap "a" 1)) (bareOf (configMap "a" 1))
        (.ok (configMap "a" 1))] exampleA exampleB
      (by decide) (by decide) (by decide) (by decide)⟩

/-- C3 as stated fails: with previous sources `[a, b]` and only `a` expected,
on a cluster where the `Delete` of `b` fails, the returned Source list is
`[a, b]`; it does not exclude `b`. -/
theorem reconcileResources_keeps_orphan_when_delete_fails :
    ReconcileResources (memoryClientFailingDelete "b").recorded
        ([configMap "a" 1, configMap "b" 1], []) [configMap "a" 1] [exampleA, exampleB] =
      (.ok [exampleA, exampleB],
        ([configMap "a" 1, configMap "b" 1],
          [Call.Get (namespacedNameOf (configMap "a" 1)) (bareOf (configMap "a" 1))
            (.ok (configMap "a" 1)),
           Call.Delete (sourceToUnstructured exampleB) (some boom)])) ∧
    exampleB ∈ [exampleA, exampleB] := by
  decide


/-- C5 on the same input, evaluated: the size is the expected one, the colour,
the uid and the status of the live object are still there. -/
theorem reconcileResources_update_example :
    (ReconcileResources memoryClient.recorded ([exampleLiveConfigMap], [])
        [configMap "a" 2] []).2.1 =
      [{ Object :=
          [("apiVersion", .str "v1"), ("kind", .str "ConfigMap"),
           ("metadata", .map [("name", .str "a"), ("namespace", .str "default"),
              ("uid", .str "1234")]),
           ("data", .map [("size", .num 2), ("color", .str "red")]),
           ("status", .map [("phase", .str "Active")])] }] := by
  decide

theorem lookupPath_of_absentPath : ∀ (path : List String) (v : Value),
    absentPath path v = true → lookupPath path v = none := by
  intro path
  induction path with
  | nil => intro v h; simp [absentPath] at h
  | cons k rest ih =>
    intro v h
    cases v with
    | map fields =>
      simp only [absentPath] at h
      simp only [lookupPath]
      cases hl : lookup k fields with
      | none => rfl
      | some x =>
        simp only [hl] at h
        exact ih x h
    | null => simp [absentPath] at h
    | bool b => simp [absentPath] at h
    | num n => simp [absentPath] at h
    | str t => simp [absentPath] at h
    | arr items => simp [absentPath] at h

theorem lookupPath_merge : ∀ (path : List String) (e f : Value), e.WF = true →
    absentPath path e = true → lookupPath path (merge f e) = lookupPath path f := by
  intro path
  induction path with
  | nil => intro e f _ h; simp [absentPath] at h
  | cons k rest ih =>
    intro e f hwf h
    cases e with
    | map fields =>
      obtain ⟨hnodup, hvals⟩ := (WF_map_iff fields).1 hwf
      cases f with
      | map ff =>
        simp only [merge, lookupPath]
        simp only [absentPath] at h
        cases hl : lookup k fields with
        | none => rw [lookup_mergeFields_absent fields ff k hl]
        | some v =>
          simp only [hl] at h
          rw [lookup_mergeFields_present fields ff k v hnodup hl]
          have hv : v.WF = true := hvals (k, v) (mem_of_lookup k v fields hl)
          cases hf : lookup k ff with
          | none =>
            simp only [mergedEntry]
            exact lookupPath_of_absentPath rest v h
          | some x =>
            simp only [mergedEntry]
            exact ih v x hv h
      | null =>
        rw [merge_map_of_not_map _ _ (by intro m hm; cases hm)]
        rw [lookupPath_of_absentPath _ _ h]; rfl
      | bool b =>
        rw [merge_map_of_not_map _ _ (by intro m hm; cases hm)]
        rw [lookupPath_of_absentPath _ _ h]; rfl
      | num n =>
        rw [merge_map_of_not_map _ _ (by intro m hm; cases hm)]
        rw [lookupPath_of_absentPath _ _ h]; rfl
      | str t =>
        rw [merge_map_of_not_map _ _ (by intro m hm; cases hm)]
        rw [lookupPath_of_absentPath _ _ h]; rfl
      | arr items =>
        rw [merge_map_of_not_map _ _ (by intro m hm; cases hm)]
        rw [lookupPath_of_absentPath _ _ h]; rfl
    | null => simp [absentPath] at h
    | bool b => simp [absentPath] at h
    | num n => simp [absentPath] at h
    | str t => simp [absentPath] at h
    | arr items => simp [absentPath] at h

/-- C5.  Let the expected resources be Go maps (no key twice in a mapping).
Every `Update` that `ReconcileResources` issues passes the merge of an expected
resource `e` into an object `found` that `Get` answered for `e`.  This body
holds, under every top-level key that `e` does not have, exactly what `found`
holds there; and at every depth: along every path of keys that leaves `e` at a
key one of its mappings does not have, the body holds exactly what `found`
holds along that path, so every key present in `found` and absent from `e` is
in the body with its value unchanged. -/
theorem reconcileResources_update_keeps_unmanaged_keys {σ : Type} (client : Client σ) (s : σ)
    (expectedResources : List Unstructured) (lastResources : List Source)
    (hwf : ∀ e ∈ expectedResources, Value.WF (.map e.Object) = true)
    (u : Unstructured) (ans : Option Error)
    (hu : Call.Update u ans ∈
      (ReconcileResources client.recorded (s, []) expectedResources lastResources).2.2) :
    ∃ e ∈ expectedResources, ∃ found,
      Call.Get (namespacedNameOf e) (bareOf e) (.ok found) ∈
        (ReconcileResources client.recorded (s, []) expectedResources lastResources).2.2 ∧
      (DeepUpdate (.map found.Object) (.map e.Object)).1 = .map u.Object ∧
      (∀ k, lookup k e.Object = none → lookup k u.Object = lookup k found.Object) ∧
      (∀ path, absentPath path (.map e.Object) = true →
        lookupPath path (.map u.Object) = lookupPath path (.map found.Object)) ∧
      (∀ path v, absentPath path (.map e.Object) = true →
        lookupPath path (.map found.Object) = some v →
        lookupPath path (.map u.Object) = some v) := by
  obtain ⟨calls, h1, -, h3⟩ := reconcileExpected_log client expectedResources s [] []
  simp only [List.nil_append] at h1
  have key : ∀ log, Call.Update u ans ∈ log →
      (∃ dels, log = calls ++ dels ∧ ∀ c ∈ dels, c.isDelete = true) →
      ∃ e ∈ expectedResources, ∃ found,
        Call.Get (namespacedNameOf e) (bareOf e) (.ok found) ∈ log ∧
        (DeepUpdate (.map found.Object) (.map e.Object)).1 = .map u.Object ∧
        (∀ k, lookup k e.Object = none → lookup k u.Object = lookup k found.Object) ∧
        (∀ path, absentPath path (.map e.Object) = true →
          lookupPath path (.map u.Object) = lookupPath path (.map found.Object)) ∧
        (∀ path v, absentPath path (.map e.Object) = true →
          lookupPath path (.map found.Object) = some v →
          lookupPath path (.map u.Object) = some v) := by
    rintro log hlog ⟨dels, rfl, hd⟩
    have hc : Call.Update u ans ∈ calls := by
      rcases List.mem_append.1 hlog with h | h
      · exact h
      · have := hd _ h
        simp [Call.isDelete] at this
    obtain ⟨e, he, found, hg, hm⟩ := h3 u ans hc
    have hpath : ∀ path, absentPath path (.map e.Object) = true →
        lookupPath path (.map u.Object) = lookupPath path (.map found.Object) := by
      intro path hp
      have := lookupPath_merge path (.map e.Object) (.map found.Object) (hwf e he) hp
      rw [hm]
      simpa [merge] using this
    refine ⟨e, he, found, List.mem_append_left _ hg, ?_, ?_, hpath, ?_⟩
    · rw [DeepUpdate_map, hm]
    · intro k hk
      rw [hm]
      exact lookup_mergeFields_absent _ _ _ hk
    · intro path v hp hv
      rw [hpath path hp, hv]
  apply key _ hu
  unfold ReconcileResources
  rcases hE : reconcileExpected client.recorded (s, []) expectedResources [] with ⟨r, s1, log1⟩
  rw [hE] at h1
  simp only at h1
  subst h1
  cases r with
  | error err => exact ⟨[], by simp, by simp⟩
  | ok found =>
    obtain ⟨dels, hd1, hd2⟩ := deleteOutdated_log client lastResources s1 log1 found
    exact ⟨dels, hd1, hd2⟩

/-- C5, witness: a live ConfigMap with a uid, a colour and a status, and an
expected ConfigMap of another size. -/
theorem reconcileResources_update_keeps_unmanaged_keys_witness :
    (∀ e ∈ [configMap "a" 2], Value.WF (.map e.Object) = true) ∧
    Call.Update { Object := mergeFields exampleLiveConfigMap.Object (configMap "a" 2).Object } none ∈
        (ReconcileResources memoryClient.recorded ([exampleLiveConfigMap], [])
          [configMap "a" 2] []).2.2 ∧
    ∃ e ∈ [configMap "a" 2], ∃ found,
      Call.Get (namespacedNameOf e) (bareOf e) (.ok found) ∈
        (ReconcileResources memoryClient.recorded ([exampleLiveConfigMap], [])
          [configMap "a" 2] []).2.2 ∧
      (DeepUpdate (.map found.Object) (.map e.Object)).1 =
        .map (mergeFields exampleLiveConfigMap.Object (configMap "a" 2).Object) ∧
      (∀ k, lookup k e.Object = none →
        lookup k (mergeFields exampleLiveConfigMap.Object (configMap "a" 2).Object) =
          lookup k found.Object) ∧
      (∀ path, absentPath path (.map e.Object) = true →
        lookupPath path
            (.map (mergeFields exampleLiveConfigMap.Object (configMap "a" 2).Object)) =
          lookupPath path (.map found.Object)) ∧
      (∀ path v, absentPath path (.map e.Object) = true →
        lookupPath path (.map found.Object) = some v →
        lookupPath path
            (.map (mergeFields exampleLiveConfigMap.Object (configMap "a" 2).Object)) =
          some v) :=
  ⟨by decide, by decide,
    reconcileResources_update_keeps_unmanaged_keys memoryClient [exampleLiveConfigMap]
      [configMap "a" 2] [] (by decide)
      { Object := mergeFields exampleLiveConfigMap.Object (configMap "a" 2).Object } none
      (by decide)⟩

/-- C5 on the same input, at depth two: the uid under `metadata` and the colour
under `data` are absent from the expected ConfigMap and are in the body of the
update unchanged, next to the expected size. -/
theorem reconcileResources_update_nested_example :
    absentPath ["metadata", "uid"] (.map (configMap "a" 2).Object) = true ∧
    absentPath ["data", "color"] (.map (configMap "a" 2).Object) = true ∧
    lookupPath ["metadata", "uid"]
        (.map (mergeFields exampleLiveConfigMap.Object (configMap "a" 2).Object)) =
      some (.str "1234") ∧
    lookupPath ["data", "color"]
        (.map (mergeFields exampleLiveConfigMap.Object (configMap "a" 2).Object)) =
      some (.str "red") ∧
    lookupPath ["data", "size"]
        (.map (mergeFields exampleLiveConfigMap.Object (configMap "a" 2).Object)) =
      some (.num 2) := by
  decide

/-- C8, what the code does.  For a previous Source that matches no found
resource, whatever its apiVersion, `ReconcileResources` makes exactly one call:
a direct `Delete` of the bare object of the Source.  It makes no `Get` and no
`Update`, so the state transition of `deleteSubResource` is not performed. -/
theorem reconcileResources_orphan_direct_delete {σ : Type} (client : Client σ) (s : σ)
    (lastResource : Source) :
    (ReconcileResources client.recorded (s, []) [] [lastResource]).2.2 =
      [Call.Delete (sourceToUnstructured lastResource)
        (client.Delete s (sourceToUnstructured lastResource)).1] := by
  simp only [ReconcileResources, reconcileExpected, deleteOutdated, findUnstructuredObject]
  simp only [Client.recorded]
  rcases h : client.Delete s (sourceToUnstructured lastResource) with ⟨r, s1⟩
  cases r <;> simp [h]

/-- C8 at a concrete input: a Director object of a graceful-teardown version,
orphaned.  `ReconcileResources` issues one `Delete` and the object is gone from
the cluster; `DeleteSubResources` on the same Source issues no `Delete` and
leaves the object with `status.state = "delete"`. -/
theorem reconcileResources_orphan_director_example :
    ReconcileResources memoryClient.recorded ([exampleDirector], []) [] [exampleDirectorSource] =
        (.ok [], ([], [Call.Delete (sourceToUnstructured exampleDirectorSource) none])) ∧
      (DeleteSubResources memoryClient.recorded ([exampleDirector], [])
          [exampleDirectorSource]).2.2.map Call.isDelete = [false, false] ∧
      (DeleteSubResources memoryClient.recorded ([exampleDirector], [])
          [exampleDirectorSource]).2.1.map
            (fun o => lookup "state" (statusOf o.Object)) = [some (.str "delete")] := by
  decide

/-! ## Lemmas on the merge and the keys of a resource -/

theorem fieldString_mergeFields (k : String) (f e : List (String × Value))
    (hnodup : (e.map Prod.fst).Nodup) (h : fieldString k f = fieldString k e) :
    fieldString k (mergeFields f e) = fieldString k e := by
  unfold fieldString at h ⊢
  cases he : lookup k e with
  | none =>
    rw [lookup_mergeFields_absent e f k he]
    rw [he] at h
    exact h
  | some v =>
    rw [lookup_mergeFields_present e f k v hnodup he]
    rw [he] at h
    cases hf : lookup k f with
    | none => simp only [mergedEntry]
    | some fv =>
      simp only [mergedEntry]
      cases v with
      | map em => cases fv <;> simp [merge]
      | null => simp [merge_of_not_map]
      | bool b => simp [merge_of_not_map]
      | num n => simp [merge_of_not_map]
      | str x => simp [merge_of_not_map]
      | arr items => simp [merge_of_not_map]

theorem metadataOf_mergeFields (fld : String) (f e : List (String × Value))
    (hwf : Value.WF (.map e) = true)
    (h : fieldString fld (metadataOf f) = fieldString fld (metadataOf e)) :
    fieldString fld (metadataOf (mergeFields f e)) = fieldString fld (metadataOf e) := by
  obtain ⟨hnodup, hvals⟩ := (WF_map_iff e).1 hwf
  unfold metadataOf at h ⊢
  cases he : lookup "metadata" e with
  | none =>
    rw [lookup_mergeFields_absent e f _ he]
    rw [he] at h
    exact h
  | some v =>
    rw [lookup_mergeFields_present e f _ v hnodup he]
    rw [he] at h
    have hv : Value.WF v = true := hvals ("metadata", v) (mem_of_lookup _ _ _ he)
    cases v with
    | map em =>
      have hem : (em.map Prod.fst).Nodup := ((WF_map_iff em).1 hv).1
      cases hf : lookup "metadata" f with
      | none => simp only [mergedEntry]
      | some fv =>
        rw [hf] at h
        cases fv with
        | map fm =>
          simp only [mergedEntry, merge]
          exact fieldString_mergeFields fld fm em hem h
        | null => simp [mergedEntry, merge]
        | bool b => simp [mergedEntry, merge]
        | num n => simp [mergedEntry, merge]
        | str x => simp [mergedEntry, merge]
        | arr items => simp [mergedEntry, merge]
    | null => cases hf : lookup "metadata" f <;> simp [mergedEntry, merge_of_not_map]
    | bool b => cases hf : lookup "metadata" f <;> simp [mergedEntry, merge_of_not_map]
    | num n => cases hf : lookup "metadata" f <;> simp [mergedEntry, merge_of_not_map]
    | str x => cases hf : lookup "metadata" f <;> simp [mergedEntry, merge_of_not_map]
    | arr items => cases hf : lookup "metadata" f <;> simp [mergedEntry, merge_of_not_map]

theorem unstructuredToSource_merge (found e : Unstructured)
    (hwf : Value.WF (.map e.Object) = true)
    (h : unstructuredToSource found = unstructuredToSource e) :
    unstructuredToSource { Object := mergeFields found.Object e.Object } =
      unstructuredToSource e := by
  obtain ⟨hnodup, -⟩ := (WF_map_iff e.Object).1 hwf
  simp only [unstructuredToSource, Source.mk.injEq, Unstructured.GetKind,
    Unstructured.GetAPIVersion, Unstructured.GetName, Unstructured.GetNamespace] at h ⊢
  exact ⟨fieldString_mergeFields _ _ _ hnodup h.1, fieldString_mergeFields _ _ _ hnodup h.2.1,
    metadataOf_mergeFields _ _ _ hwf h.2.2.1, metadataOf_mergeFields _ _ _ hwf h.2.2.2⟩

/-! ## Lemmas on the in-memory cluster -/

theorem Cluster.find_key (s : Cluster) (k : Source) (o : Unstructured)
    (h : Cluster.find s k = some o) : unstructuredToSource o = k := by
  induction s with
  | nil => simp [Cluster.find] at h
  | cons x rest ih =>
    by_cases hx : unstructuredToSource x = k
    · simp only [Cluster.find, hx, if_true, Option.some.injEq] at h
      rw [← h]; exact hx
    · simp only [Cluster.find, hx, if_false] at h
      exact ih h

theorem Cluster.find_append (s t : Cluster) (k : Source) :
    Cluster.find (s ++ t) k = (Cluster.find s k).or (Cluster.find t k) := by
  induction s with
  | nil => simp [Cluster.find]
  | cons x rest ih =>
    by_cases hx : unstructuredToSource x = k
    · simp [Cluster.find, hx]
    · simp [Cluster.find, hx, ih]

theorem Cluster.find_replace (s : Cluster) (obj : Unstructured) (k : Source) :
    Cluster.find (Cluster.replace s obj) k =
      if k = unstructuredToSource obj then (Cluster.find s k).map (fun _ => obj)
      else Cluster.find s k := by
  induction s with
  | nil => simp [Cluster.find, Cluster.replace]
  | cons o rest ih =>
    by_cases hk : k = unstructuredToSource obj
    · subst hk
      simp only [if_true] at ih ⊢
      by_cases ho : unstructuredToSource o = unstructuredToSource obj
      · simp [Cluster.find, Cluster.replace, ho]
      · simp [Cluster.find, Cluster.replace, ho, ih]
    · simp only [hk, if_false] at ih ⊢
      by_cases ho : unstructuredToSource o = unstructuredToSource obj
      · have h1 : unstructuredToSource obj ≠ k := fun h => hk h.symm
        have h2 : unstructuredToSource o ≠ k := by rw [ho]; exact h1
        simp [Cluster.find, Cluster.replace, ho, h1, h2]
      · by_cases hok : unstructuredToSource o = k
        · subst hok
          simp [Cluster.find, Cluster.replace, ho]
        · simp [Cluster.find, Cluster.replace, ho, hok, ih]

theorem Cluster.find_remove (s : Cluster) (key k : Source) :
    Cluster.find (Cluster.remove s key) k = if k = key then none else Cluster.find s k := by
  induction s with
  | nil => simp [Cluster.find, Cluster.remove]
  | cons o rest ih =>
    by_cases ho : unstructuredToSource o = key
    · by_cases hk : k = key
      · simp only [hk, if_true] at ih ⊢
        simp [Cluster.remove, ho, ih]
      · simp only [hk, if_false] at ih ⊢
        subst ho
        have h2 : unstructuredToSource o ≠ k := fun h => hk h.symm
        simp [Cluster.remove, Cluster.find, ih, h2]
    · by_cases hk : k = key
      · simp only [hk, if_true] at ih ⊢
        simp [Cluster.remove, Cluster.find, ho, ih]
      · simp only [hk, if_false] at ih ⊢
        by_cases hok : unstructuredToSource o = k
        · subst hok
          simp [Cluster.remove, Cluster.find, ho]
        · simp [Cluster.remove, Cluster.find, ho, hok, ih]

theorem unstructuredToSource_bareOf (e : Unstructured) :
    unstructuredToSource (bareOf e) = unstructuredToSource e :=
  unstructuredToSource_sourceToUnstructured _

theorem memoryClient_Get (s : Cluster) (e : Unstructured) :
    memoryClient.Get s (namespacedNameOf e) (bareOf e) =
      match Cluster.find s (unstructuredToSource e) with
      | some o => (.ok o, s)
      | none => (.error { IsNotFound := true, message := "not found" }, s) := by
  have h := unstructuredToSource_bareOf e
  simp only [unstructuredToSource, Source.mk.injEq] at h
  simp only [memoryClient, namespacedNameOf, h.1, h.2.1]
  rfl

theorem memoryClient_Create (s : Cluster) (obj : Unstructured) :
    memoryClient.Create s obj =
      match Cluster.find s (unstructuredToSource obj) with
      | some _ => (some { IsNotFound := false, message := "already exists" }, s)
      | none => (none, s ++ [obj]) := rfl

theorem memoryClient_Update (s : Cluster) (obj : Unstructured) :
    memoryClient.Update s obj =
      match Cluster.find s (unstructuredToSource obj) with
      | some _ => (none, Cluster.replace s obj)
      | none => (some { IsNotFound := true, message := "not found" }, s) := rfl

theorem memoryClient_Delete (s : Cluster) (obj : Unstructured) :
    memoryClient.Delete s obj =
      match Cluster.find s (unstructuredToSource obj) with
      | some _ => (none, Cluster.remove s (unstructuredToSource obj))
      | none => (some { IsNotFound := true, message := "not found" }, s) := rfl

theorem reconcileExpected_fresh (expected : List Unstructured) :
    ∀ (s : Cluster) (log : List Call) (acc : List Unstructured),
      (expected.map unstructuredToSource).Nodup →
      (∀ e ∈ expected, Cluster.find s (unstructuredToSource e) = none) →
      reconcileExpected memoryClient.recorded (s, log) expected acc =
        (.ok (acc ++ expected.map bareOf), (s ++ expected, log ++ createCalls expected)) := by
  induction expected with
  | nil => intro s log acc _ _; simp [reconcileExpected, createCalls]
  | cons e rest ih =>
    intro s log acc hnodup hfree
    simp only [List.map_cons, List.nodup_cons] at hnodup
    have he : Cluster.find s (unstructuredToSource e) = none := hfree e (by simp)
    rw [reconcileExpected_cons]
    simp only [recorded_Get, recorded_Create, memoryClient_Get, memoryClient_Create, he, if_true]
    rw [ih (s ++ [e]) _ _ hnodup.2]
    · simp [createCalls]
    · intro e' he'
      rw [Cluster.find_append, hfree e' (by simp [he'])]
      have hne : unstructuredToSource e ≠ unstructuredToSource e' := by
        intro h
        exact hnodup.1 (h ▸ List.mem_map_of_mem _ he')
      simp [Cluster.find, hne]

theorem reconcileExpected_settled (expected : List Unstructured) :
    ∀ (s : Cluster) (log : List Call) (acc : List Unstructured),
      (∀ e ∈ expected, ∃ b, Cluster.find s (unstructuredToSource e) = some b ∧
        mergeFields b.Object e.Object = b.Object) →
      ∃ found gets,
        reconcileExpected memoryClient.recorded (s, log) expected acc =
          (.ok (acc ++ found), (s, log ++ gets)) ∧
        found.map unstructuredToSource = expected.map unstructuredToSource ∧
        ∀ c ∈ gets, c.isCreate = false ∧ c.isUpdate = false ∧ c.isDelete = false := by
  induction expected with
  | nil =>
    intro s log acc _
    exact ⟨[], [], by simp [reconcileExpected], rfl, by simp⟩
  | cons e rest ih =>
    intro s log acc h
    obtain ⟨b, hb, hm⟩ := h e (by simp)
    obtain ⟨found, gets, h1, h2, h3⟩ := ih s
      (log ++ [Call.Get (namespacedNameOf e) (bareOf e) (.ok b)]) (acc ++ [b])
      (fun e' he' => h e' (by simp [he']))
    refine ⟨b :: found, Call.Get (namespacedNameOf e) (bareOf e) (.ok b) :: gets, ?_, ?_, ?_⟩
    · rw [reconcileExpected_cons]
      simp only [recorded_Get, memoryClient_Get, hb, hm, ne_eq, not_true_eq_false, if_false]
      rw [h1]
      simp
    · simp [h2, Cluster.find_key s _ b hb]
    · intro c hc
      rcases List.mem_cons.1 hc with rfl | hc
      · exact ⟨rfl, rfl, rfl⟩
      · exact h3 c hc

theorem deleteOutdated_skip {σ : Type} (client : Client σ) (l : List Source) :
    ∀ (s : σ) (found : List Unstructured),
      (∀ k ∈ l, k ∈ found.map unstructuredToSource) →
      deleteOutdated client s l found = (found, s) := by
  induction l with
  | nil => intro s found _; simp [deleteOutdated]
  | cons k rest ih =>
    intro s found h
    have hk : findUnstructuredObject found (sourceToUnstructured k) = true := by
      rw [findUnstructuredObject_iff]
      obtain ⟨o, ho, hok⟩ := List.mem_map.1 (h k (by simp))
      exact ⟨o, ho, by rw [hok, unstructuredToSource_sourceToUnstructured]⟩
    rw [deleteOutdated_cons]
    simp only [hk, if_true]
    exact ih s found (fun k' hk' => h k' (by simp [hk']))

theorem deleteOutdated_append {σ : Type} (client : Client σ) (l1 l2 : List Source) :
    ∀ (s : σ) (found : List Unstructured),
      deleteOutdated client s (l1 ++ l2) found =
        deleteOutdated client (deleteOutdated client s l1 found).2 l2
          (deleteOutdated client s l1 found).1 := by
  induction l1 with
  | nil => intro s found; simp [deleteOutdated]
  | cons k rest ih =>
    intro s found
    simp only [List.cons_append, deleteOutdated_cons]
    by_cases hk : findUnstructuredObject found (sourceToUnstructured k) = true
    · simp only [hk, if_true]
      exact ih s found
    · simp only [hk, Bool.false_eq_true, if_false]
      rcases client.Delete s (sourceToUnstructured k) with ⟨_ | _, s1⟩
      · exact ih s1 found
      · exact ih s1 _

theorem Cluster.find_of_mem (l : Cluster) (e : Unstructured)
    (hnodup : (l.map unstructuredToSource).Nodup) (he : e ∈ l) :
    Cluster.find l (unstructuredToSource e) = some e := by
  induction l with
  | nil => cases he
  | cons x rest ih =>
    simp only [List.map_cons, List.nodup_cons] at hnodup
    rcases List.mem_cons.1 he with rfl | he'
    · simp [Cluster.find]
    · have hne : unstructuredToSource x ≠ unstructuredToSource e := by
        intro h
        exact hnodup.1 (h ▸ List.mem_map_of_mem _ he')
      simp [Cluster.find, hne, ih hnodup.2 he']

theorem mergeFields_self (m : List (String × Value)) (hwf : Value.WF (.map m) = true) :
    mergeFields m m = m := by
  have := merge_self (.map m) hwf
  simpa [merge] using this

theorem createCalls_filter (expected : List Unstructured) :
    (createCalls expected).filter Call.isCreate = expected.map (fun e => Call.Create e none) ∧
    (createCalls expected).filter Call.isUpdate = [] ∧
    (createCalls expected).filter Call.isDelete = [] := by
  induction expected with
  | nil => simp [createCalls]
  | cons e rest ih =>
    obtain ⟨h1, h2, h3⟩ := ih
    simp [createCalls, Call.isCreate, Call.isUpdate, Call.isDelete, h1, h2, h3]

/-! ## Reconciliation against the in-memory cluster: the claims -/

/-- C7.  Expected resources with pairwise different (kind, apiVersion, name,
namespace) keys, none of them in the cluster, no previous sources.
`ReconcileResources` succeeds, makes for every expected resource, in order, a
`Get` answered not-found and one `Create` (no `Update`, no `Delete`), stores
the resources, and returns one Source per expected resource, holding the
resource's four fields.  A following call with one manifest `x` removed and the
first result as previous sources returns the Sources of the other manifests,
one fewer, and issues exactly one `Delete`, that of `x`. -/
theorem reconcileResources_empty_target (s : Cluster) (expectedResources : List Unstructured)
    (hnodup : (expectedResources.map unstructuredToSource).Nodup)
    (hfree : ∀ e ∈ expectedResources, Cluster.find s (unstructuredToSource e) = none)
    (hwf : ∀ e ∈ expectedResources, Value.WF (.map e.Object) = true) :
    ReconcileResources memoryClient.recorded (s, []) expectedResources [] =
      (.ok (expectedResources.map unstructuredToSource),
        (s ++ expectedResources, createCalls expectedResources)) ∧
    (createCalls expectedResources).filter Call.isCreate =
      expectedResources.map (fun e => Call.Create e none) ∧
    (createCalls expectedResources).filter Call.isUpdate = [] ∧
    (createCalls expectedResources).filter Call.isDelete = [] ∧
    ∀ pre x post, expectedResources = pre ++ x :: post →
      (ReconcileResources memoryClient.recorded (s ++ expectedResources, []) (pre ++ post)
          (expectedResources.map unstructuredToSource)).1 =
        .ok ((pre ++ post).map unstructuredToSource) ∧
      (ReconcileResources memoryClient.recorded (s ++ expectedResources, []) (pre ++ post)
          (expectedResources.map unstructuredToSource)).2.2.filter Call.isDelete =
        [Call.Delete (sourceToUnstructured (unstructuredToSource x)) none] := by
  obtain ⟨hc1, hc2, hc3⟩ := createCalls_filter expectedResources
  refine ⟨?_, hc1, hc2, hc3, ?_⟩
  · unfold ReconcileResources
    rw [reconcileExpected_fresh expectedResources s [] [] hnodup hfree]
    simp [deleteOutdated, unstructuredToSource_bareOf]
  · intro pre x post hsplit
    subst hsplit
    have hfind : ∀ e ∈ pre ++ x :: post,
        Cluster.find (s ++ (pre ++ x :: post)) (unstructuredToSource e) = some e := by
      intro e he
      rw [Cluster.find_append, hfree e he]
      simpa using Cluster.find_of_mem _ e hnodup he
    obtain ⟨found, gets, h1, h2, h3⟩ := reconcileExpected_settled (pre ++ post)
      (s ++ (pre ++ x :: post)) [] []
      (fun e he => ⟨e, hfind e (by
          rcases List.mem_append.1 he with h | h
          · simp [h]
          · simp [h]),
        mergeFields_self _ (hwf e (by
          rcases List.mem_append.1 he with h | h
          · simp [h]
          · simp [h]))⟩)
    simp only [List.nil_append] at h1
    have hx : unstructuredToSource x ∉ found.map unstructuredToSource := by
      rw [h2]
      simp only [List.map_append, List.map_cons] at hnodup ⊢
      have := List.nodup_middle.1 hnodup
      exact (List.nodup_cons.1 this).1
    have hxf : findUnstructuredObject found
        (sourceToUnstructured (unstructuredToSource x)) = false := by
      rw [Bool.eq_false_iff]
      intro h
      obtain ⟨o, ho, hok⟩ := (findUnstructuredObject_iff _ _).1 h
      rw [unstructuredToSource_sourceToUnstructured] at hok
      exact hx (List.mem_map.2 ⟨o, ho, hok⟩)
    have hpre : ∀ k ∈ pre.map unstructuredToSource, k ∈ found.map unstructuredToSource := by
      intro k hk
      rw [h2]
      simp only [List.map_append, List.mem_append]
      exact Or.inl hk
    have hpost : ∀ k ∈ post.map unstructuredToSource, k ∈ found.map unstructuredToSource := by
      intro k hk
      rw [h2]
      simp only [List.map_append, List.mem_append]
      exact Or.inr hk
    have hgets : gets.filter Call.isDelete = [] := by
      apply List.filter_eq_nil_iff.2
      intro c hc
      simp [(h3 c hc).2.2]
    unfold ReconcileResources
    rw [h1]
    simp only [List.map_append, List.map_cons, deleteOutdated_append,
      deleteOutdated_skip _ _ _ _ hpre, deleteOutdated_cons, hxf, Bool.false_eq_true, if_false,
      recorded_Delete, memoryClient_Delete, unstructuredToSource_sourceToUnstructured,
      hfind x (by simp), deleteOutdated_skip _ _ _ _ hpost]
    simp [h2, hgets, Call.isDelete]

/-- C7, witness: two manifests `svc-a` and `svc-b` against a cluster that holds
neither; the second call drops `svc-b`. -/
theorem reconcileResources_empty_target_witness :
    ([configMap "svc-a" 1, configMap "svc-b" 2].map unstructuredToSource).Nodup ∧
    (∀ e ∈ [configMap "svc-a" 1, configMap "svc-b" 2],
      Cluster.find [exampleDirector] (unstructuredToSource e) = none) ∧
    (∀ e ∈ [configMap "svc-a" 1, configMap "svc-b" 2], Value.WF (.map e.Object) = true) ∧
    ReconcileResources memoryClient.recorded ([exampleDirector], [])
        [configMap "svc-a" 1, configMap "svc-b" 2] [] =
      (.ok ([configMap "svc-a" 1, configMap "svc-b" 2].map unstructuredToSource),
        ([exampleDirector] ++ [configMap "svc-a" 1, configMap "svc-b" 2],
          createCalls [configMap "svc-a" 1, configMap "svc-b" 2])) ∧
    (ReconcileResources memoryClient.recorded
        ([exampleDirector] ++ [configMap "svc-a" 1, configMap "svc-b" 2], [])
        ([configMap "svc-a" 1] ++ [])
        ([configMap "svc-a" 1, configMap "svc-b" 2].map unstructuredToSource)).1 =
      .ok (([configMap "svc-a" 1] ++ []).map unstructuredToSource) :=
  ⟨by decide, by decide, by decide,
    (reconcileResources_empty_target [exampleDirector]
      [configMap "svc-a" 1, configMap "svc-b" 2] (by decide) (by decide) (by decide)).1,
    ((reconcileResources_empty_target [exampleDirector]
      [configMap "svc-a" 1, configMap "svc-b" 2] (by decide) (by decide) (by decide)).2.2.2.2
        [configMap "svc-a" 1] (configMap "svc-b" 2) [] rfl).1⟩

theorem reconcileExpected_memory (expected : List Unstructured) :
    ∀ (s : Cluster) (acc : List Unstructured),
      (expected.map unstructuredToSource).Nodup →
      (∀ e ∈ expected, Value.WF (.map e.Object) = true) →
      ∃ found s',
        reconcileExpected memoryClient s expected acc = (.ok (acc ++ found), s') ∧
        found.map unstructuredToSource = expected.map unstructuredToSource ∧
        (∀ e ∈ expected, ∃ b, Cluster.find s' (unstructuredToSource e) = some b ∧
          mergeFields b.Object e.Object = b.Object) ∧
        (∀ k, k ∉ expected.map unstructuredToSource → Cluster.find s' k = Cluster.find s k) := by
  induction expected with
  | nil =>
    intro s acc _ _
    exact ⟨[], s, by simp [reconcileExpected], rfl, by simp, by simp⟩
  | cons e rest ih =>
    intro s acc hnodup hwf
    simp only [List.map_cons, List.nodup_cons] at hnodup
    have hwe : Value.WF (.map e.Object) = true := hwf e (by simp)
    have hwr : ∀ e' ∈ rest, Value.WF (.map e'.Object) = true :=
      fun e' he' => hwf e' (by simp [he'])
    -- the state and the recorded object after the step for `e`
    have step : ∃ (b : Unstructured) (s1 : Cluster),
        reconcileExpected memoryClient s (e :: rest) acc =
          reconcileExpected memoryClient s1 rest (acc ++ [b]) ∧
        unstructuredToSource b = unstructuredToSource e ∧
        (∃ b', Cluster.find s1 (unstructuredToSource e) = some b' ∧
          mergeFields b'.Object e.Object = b'.Object) ∧
        (∀ k, k ≠ unstructuredToSource e → Cluster.find s1 k = Cluster.find s k) := by
      rw [reconcileExpected_cons]
      simp only [memoryClient_Get, memoryClient_Create, memoryClient_Update]
      cases hf : Cluster.find s (unstructuredToSource e) with
      | none =>
        refine ⟨bareOf e, s ++ [e], by simp [hf], unstructuredToSource_bareOf e,
          ⟨e, ?_, mergeFields_self _ hwe⟩, ?_⟩
        · rw [Cluster.find_append, hf]
          simp [Cluster.find]
        · intro k hk
          rw [Cluster.find_append]
          simp [Cluster.find, Ne.symm hk]
      | some b =>
        have hkey : unstructuredToSource b = unstructuredToSource e := Cluster.find_key s _ b hf
        by_cases hm : mergeFields b.Object e.Object = b.Object
        · exact ⟨b, s, by simp [hm], hkey, ⟨b, hf, hm⟩, fun _ _ => rfl⟩
        · have hkm := unstructuredToSource_merge b e hwe hkey
          refine ⟨{ Object := mergeFields b.Object e.Object },
            Cluster.replace s { Object := mergeFields b.Object e.Object }, ?_, hkm,
            ⟨{ Object := mergeFields b.Object e.Object }, ?_, ?_⟩, ?_⟩
          · simp [hm, hkm, hf]
          · rw [Cluster.find_replace, hkm]
            simp [hf]
          · have := merge_idem (.map e.Object) hwe (.map b.Object)
            simpa [merge] using this
          · intro k hk
            rw [Cluster.find_replace, hkm]
            simp [hk]
    obtain ⟨b, s1, hstep, hb, hsettled, hframe⟩ := step
    obtain ⟨found, s', h1, h2, h3, h4⟩ := ih s1 (acc ++ [b]) hnodup.2 hwr
    refine ⟨b :: found, s', ?_, ?_, ?_, ?_⟩
    · rw [hstep, h1]
      simp
    · simp [hb, h2]
    · intro e' he'
      rcases List.mem_cons.1 he' with rfl | he'
      · obtain ⟨b', hb', hm'⟩ := hsettled
        exact ⟨b', by rw [h4 _ hnodup.1, hb'], hm'⟩
      · exact h3 e' he'
    · intro k hk
      simp only [List.map_cons, List.mem_cons, not_or] at hk
      rw [h4 k hk.2, hframe k hk.1]

theorem deleteOutdated_memory (last : List Source) :
    ∀ (s : Cluster) (found : List Unstructured) (k : Source),
      k ∈ found.map unstructuredToSource →
      Cluster.find (deleteOutdated memoryClient s last found).2 k = Cluster.find s k := by
  induction last with
  | nil => intro s found k _; simp [deleteOutdated]
  | cons src rest ih =>
    intro s found k hk
    rw [deleteOutdated_cons]
    by_cases hf : findUnstructuredObject found (sourceToUnstructured src) = true
    · simp only [hf, if_true]
      exact ih s found k hk
    · simp only [hf, Bool.false_eq_true, if_false, memoryClient_Delete,
        unstructuredToSource_sourceToUnstructured]
      cases hs : Cluster.find s src with
      | none =>
        simp only []
        exact ih s _ k (by simp only [List.map_append, List.mem_append]; exact Or.inl hk)
      | some o =>
        simp only []
        rw [ih _ found k hk, Cluster.find_remove]
        have hne : k ≠ src := by
          rintro rfl
          apply hf
          rw [findUnstructuredObject_iff]
          obtain ⟨o', ho', hk'⟩ := List.mem_map.1 hk
          exact ⟨o', ho', by rw [hk', unstructuredToSource_sourceToUnstructured]⟩
        simp [hne]

/-- C4, as the code has it.  Expected resources with pairwise different keys,
on any state of the in-memory cluster and with any previous sources: if a call
of `ReconcileResources` succeeds, the call that follows it with the same
expected list and the returned sources issues no `Update` and no `Create`. -/
theorem reconcileResources_idempotent (s s1 : Cluster) (expectedResources : List Unstructured)
    (lastResources sources : List Source)
    (hnodup : (expectedResources.map unstructuredToSource).Nodup)
    (hwf : ∀ e ∈ expectedResources, Value.WF (.map e.Object) = true)
    (hfirst : ReconcileResources memoryClient s expectedResources lastResources =
      (.ok sources, s1)) :
    ∀ c ∈ (ReconcileResources memoryClient.recorded (s1, []) expectedResources sources).2.2,
      c.isUpdate = false ∧ c.isCreate = false := by
  obtain ⟨found, s', hA, hA2, hA3, -⟩ := reconcileExpected_memory expectedResources s [] hnodup hwf
  unfold ReconcileResources at hfirst
  rw [hA] at hfirst
  simp only [List.nil_append, Prod.mk.injEq, Except.ok.injEq] at hfirst
  obtain ⟨-, hs1⟩ := hfirst
  have hsettled : ∀ e ∈ expectedResources, ∃ b,
      Cluster.find s1 (unstructuredToSource e) = some b ∧
      mergeFields b.Object e.Object = b.Object := by
    intro e he
    obtain ⟨b, hb, hm⟩ := hA3 e he
    refine ⟨b, ?_, hm⟩
    rw [← hs1, deleteOutdated_memory lastResources s' found _ (by
      rw [hA2]; exact List.mem_map_of_mem _ he)]
    exact hb
  obtain ⟨found2, gets, hC, -, hC3⟩ := reconcileExpected_settled expectedResources s1 [] [] hsettled
  obtain ⟨dels, hD1, hD2⟩ := deleteOutdated_log memoryClient sources s1 ([] ++ gets) ([] ++ found2)
  unfold ReconcileResources
  rw [hC]
  simp only [hD1]
  intro c hc
  simp only [List.nil_append, List.mem_append] at hc
  rcases hc with hc | hc
  · exact ⟨(hC3 c hc).2.1, (hC3 c hc).1⟩
  · have := hD2 c hc
    cases c <;> simp_all [Call.isDelete, Call.isUpdate, Call.isCreate]

/-- C4 as stated fails: an expected list that renders the key of ConfigMap `a`
twice, with sizes 1 and 2.  The first call against the empty cluster succeeds
and leaves size 2; the second call, with the same list and the returned
sources, issues an `Update` back to size 1. -/
theorem reconcileResources_not_idempotent_on_repeated_key :
    ReconcileResources memoryClient [] [configMap "a" 1, configMap "a" 2] [] =
      (.ok [exampleA, exampleA], [configMap "a" 2]) ∧
    Call.Update (configMap "a" 1) none ∈
      (ReconcileResources memoryClient.recorded ([configMap "a" 2], [])
        [configMap "a" 1, configMap "a" 2] [exampleA, exampleA]).2.2 := by
  decide

/-- C4, witness: one expected resource is created and one is updated by the
first call, and a previous source is deleted. -/
theorem reconcileResources_idempotent_witness :
    ([exampleConfigMap, configMap "a" 2].map unstructuredToSource).Nodup ∧
    (∀ e ∈ [exampleConfigMap, configMap "a" 2], Value.WF (.map e.Object) = true) ∧
    ReconcileResources memoryClient [exampleLiveConfigMap, configMap "c" 3]
        [exampleConfigMap, configMap "a" 2] [exampleA, exampleC] =
      (.ok [exampleB, exampleA],
        [{ Object := mergeFields exampleLiveConfigMap.Object (configMap "a" 2).Object },
          exampleConfigMap]) ∧
    ∀ c ∈ (ReconcileResources memoryClient.recorded
        ([{ Object := mergeFields exampleLiveConfigMap.Object (configMap "a" 2).Object },
          exampleConfigMap], []) [exampleConfigMap, configMap "a" 2] [exampleB, exampleA]).2.2,
      c.isUpdate = false ∧ c.isCreate = false :=
  ⟨by decide, by decide, by decide,
    reconcileResources_idempotent [exampleLiveConfigMap, configMap "c" 3] _
      [exampleConfigMap, configMap "a" 2] [exampleA, exampleC] [exampleB, exampleA]
      (by decide) (by decide) (by decide)⟩

/-! ## Error handling of deletion and reconciliation: the claims -/

theorem deleteAttempts_append {σ : Type} (client : Client σ) (l1 l2 : List Source) :
    ∀ s : σ,
      deleteAttempts client s (l1 ++ l2) =
        ((deleteAttempts client s l1).1 ++
            (deleteAttempts client (deleteAttempts client s l1).2 l2).1,
          (deleteAttempts client (deleteAttempts client s l1).2 l2).2) := by
  induction l1 with
  | nil => intro s; simp [deleteAttempts]
  | cons x rest ih =>
    intro s
    simp [deleteAttempts, ih]

theorem GetName_sourceToUnstructured (src : Source) :
    (sourceToUnstructured src).GetName = src.Name := by
  have h := unstructuredToSource_sourceToUnstructured src
  simp only [unstructuredToSource] at h
  exact congrArg Source.Name h

theorem GetNamespace_sourceToUnstructured (src : Source) :
    (sourceToUnstructured src).GetNamespace = src.Namespace := by
  have h := unstructuredToSource_sourceToUnstructured src
  simp only [unstructuredToSource] at h
  exact congrArg Source.Namespace h

/-- C11.  A Source with a graceful-teardown apiVersion whose `Get` answers a
body with a `status` that is present and not a mapping: `deleteSubResource`
makes the `Get` and no other call (no `Update`, no `Delete`), leaves the state
the `Get` left, and returns an error that is not a not-found error; and
`DeleteSubResources`, reaching this Source anywhere in its input, keeps it in
the remaining list. -/
theorem deleteSubResource_status_not_map {σ : Type} (client : Client σ) (s0 s s1 : σ)
    (pre post : List Source) (src : Source) (fetched : Unstructured) (v : Value)
    (hv : src.APIVersion = "deployment.servicefabrik.io/v1alpha1" ∨
      src.APIVersion = "bind.servicefabrik.io/v1alpha1")
    (hpre : (deleteAttempts client s0 pre).2 = s)
    (hget : client.Get s { Name := src.Name, Namespace := src.Namespace }
      (sourceToUnstructured src) = (.ok fetched, s1))
    (hst : lookup "status" fetched.Object = some v)
    (hnm : ∀ m, v ≠ .map m) :
    (∃ err, err.IsNotFound = false ∧
      deleteSubResource client.recorded (s, []) (sourceToUnstructured src) =
        (some err, (s1, [Call.Get { Name := src.Name, Namespace := src.Namespace }
          (sourceToUnstructured src) (.ok fetched)]))) ∧
    src ∈ (DeleteSubResources client s0 (pre ++ src :: post)).1.1 := by
  have hspecial : (sourceToUnstructured src).GetAPIVersion ∈ specialDelete := by
    rw [GetAPIVersion_sourceToUnstructured]
    rcases hv with h | h <;> rw [h] <;> decide
  have hone : ∀ {τ : Type} (c : Client τ) (t t1 : τ),
      c.Get t { Name := src.Name, Namespace := src.Namespace } (sourceToUnstructured src) =
        (.ok fetched, t1) →
      deleteSubResource c t (sourceToUnstructured src) =
        (some { IsNotFound := false, message := "status field not map for resource" }, t1) := by
    intro τ c t t1 hg
    cases v with
    | map m => exact absurd rfl (hnm m)
    | _ => simp [deleteSubResource, hspecial, GetName_sourceToUnstructured,
        GetNamespace_sourceToUnstructured, hg, hst]
  refine ⟨⟨_, rfl, hone client.recorded (s, []) _ ?_⟩, ?_⟩
  · rw [recorded_Get, hget]
    simp
  · rw [DeleteSubResources_eq, deleteAttempts_append, keptSources_append, hpre]
    apply List.mem_append_right
    simp only [deleteAttempts, hone client s s1 hget, keptSources_cons, attemptNotFound]
    simp

theorem reconcileExpected_append {σ : Type} (client : Client σ) (l1 l2 : List Unstructured) :
    ∀ (s : σ) (acc : List Unstructured),
      reconcileExpected client s (l1 ++ l2) acc =
        match reconcileExpected client s l1 acc with
        | (.error err, s1) => (.error err, s1)
        | (.ok found, s1) => reconcileExpected client s1 l2 found := by
  induction l1 with
  | nil => intro s acc; simp [reconcileExpected]
  | cons e rest ih =>
    intro s acc
    simp only [List.cons_append, reconcileExpected_cons]
    rcases client.Get s (namespacedNameOf e) (bareOf e) with ⟨r, s1⟩
    cases r with
    | error err =>
      by_cases hnf : err.IsNotFound = true
      · simp only [hnf, if_true]
        rcases client.Create s1 e with ⟨rc, s2⟩
        cases rc with
        | some err2 => rfl
        | none => exact ih s2 _
      · simp only [hnf, Bool.false_eq_true, if_false]
    | ok found =>
      by_cases hm : mergeFields found.Object e.Object = found.Object
      · simp only [hm, ne_eq, not_true_eq_false, if_false]
        exact ih s1 _
      · simp only [hm, ne_eq, not_false_eq_true, if_true]
        rcases client.Update s1 { Object := mergeFields found.Object e.Object } with ⟨ru, s2⟩
        cases ru with
        | some err2 => rfl
        | none => exact ih s2 _

theorem deleteOutdated_found_mono {σ : Type} (client : Client σ) (last : List Source) :
    ∀ (s : σ) (found : List Unstructured), ∀ o ∈ found,
      o ∈ (deleteOutdated client s last found).1 := by
  induction last with
  | nil => intro s found o ho; simpa [deleteOutdated] using ho
  | cons x rest ih =>
    intro s found o ho
    rw [deleteOutdated_cons]
    by_cases hf : findUnstructuredObject found (sourceToUnstructured x) = true
    · simp only [hf, if_true]
      exact ih s found o ho
    · simp only [hf, Bool.false_eq_true, if_false]
      rcases client.Delete s (sourceToUnstructured x) with ⟨rd, s1⟩
      cases rd with
      | some err => exact ih s1 _ o (List.mem_append_left _ ho)
      | none => exact ih s1 _ o ho

/-- C12.  When the first loop succeeds, `ReconcileResources` returns a Source
list and no error, whatever the `Delete` calls answer.  For every previous
Source that matches no found resource when the loop reaches it (failures
before it included), a `Delete` of its bare object is issued; and when that
`Delete` answers an error, whichever, the Source is in the returned list. -/
theorem reconcileResources_delete_failure_not_fatal {σ : Type} (client : Client σ) (s s1 : σ)
    (expectedResources found : List Unstructured) (log1 : List Call)
    (lastResources : List Source)
    (hexp : reconcileExpected client.recorded (s, []) expectedResources [] =
      (.ok found, (s1, log1))) :
    ∃ sources,
      (ReconcileResources client.recorded (s, []) expectedResources lastResources).1 =
        .ok sources ∧
      ∀ pre x post, lastResources = pre ++ x :: post →
        findUnstructuredObject (deleteOutdated client.recorded (s1, log1) pre found).1
          (sourceToUnstructured x) = false →
        Call.Delete (sourceToUnstructured x)
            (client.Delete (deleteOutdated client.recorded (s1, log1) pre found).2.1
              (sourceToUnstructured x)).1 ∈
          (ReconcileResources client.recorded (s, []) expectedResources lastResources).2.2 ∧
        ((client.Delete (deleteOutdated client.recorded (s1, log1) pre found).2.1
              (sourceToUnstructured x)).1 ≠ none →
          x ∈ sources) := by
  unfold ReconcileResources
  rw [hexp]
  refine ⟨_, rfl, ?_⟩
  intro pre x post hsplit hf
  subst hsplit
  simp only [deleteOutdated_append]
  rcases hr : deleteOutdated client.recorded (s1, log1) pre found with ⟨f1, t1, l1⟩
  rw [hr] at hf
  simp only [] at hf ⊢
  rw [deleteOutdated_cons]
  simp only [hf, Bool.false_eq_true, if_false, recorded_Delete]
  rcases hD : client.Delete t1 (sourceToUnstructured x) with ⟨rd, t2⟩
  cases rd with
  | some err =>
    simp only []
    obtain ⟨calls, h1, -⟩ := deleteOutdated_log client post t2
      (l1 ++ [Call.Delete (sourceToUnstructured x) (some err)]) (f1 ++ [sourceToUnstructured x])
    refine ⟨?_, fun _ => ?_⟩
    · rw [h1]
      simp
    · have := deleteOutdated_found_mono client.recorded post
        (t2, l1 ++ [Call.Delete (sourceToUnstructured x) (some err)])
        (f1 ++ [sourceToUnstructured x]) (sourceToUnstructured x) (by simp)
      exact List.mem_map.2 ⟨_, this, unstructuredToSource_sourceToUnstructured x⟩
  | none =>
    simp only []
    obtain ⟨calls, h1, -⟩ := deleteOutdated_log client post t2
      (l1 ++ [Call.Delete (sourceToUnstructured x) none]) f1
    refine ⟨?_, fun h => absurd rfl h⟩
    rw [h1]
    simp

/-- C13.  Let the first loop succeed on the resources before `e`.  If the
`Get` for `e` fails with an error other than not-found, or the `Create` of `e`
fails, or the `Update` of `e` fails, `ReconcileResources` returns that error
and no Source list; the failing call is the last call made (none for a later
expected resource, no `Delete`), after the calls made for the earlier
resources, and the state is the one the failing call left. -/
theorem reconcileResources_aborts_on_error {σ : Type} (client : Client σ) (s s' : σ)
    (pre post found : List Unstructured) (e : Unstructured) (log' : List Call)
    (lastResources : List Source)
    (hpre : reconcileExpected client.recorded (s, []) pre [] = (.ok found, (s', log'))) :
    (∀ err sG, client.Get s' (namespacedNameOf e) (bareOf e) = (.error err, sG) →
      err.IsNotFound = false →
      ReconcileResources client.recorded (s, []) (pre ++ e :: post) lastResources =
        (.error err, (sG, log' ++ [Call.Get (namespacedNameOf e) (bareOf e) (.error err)]))) ∧
    (∀ err sG errC sC, client.Get s' (namespacedNameOf e) (bareOf e) = (.error err, sG) →
      err.IsNotFound = true → client.Create sG e = (some errC, sC) →
      ReconcileResources client.recorded (s, []) (pre ++ e :: post) lastResources =
        (.error errC, (sC, log' ++ [Call.Get (namespacedNameOf e) (bareOf e) (.error err),
          Call.Create e (some errC)]))) ∧
    (∀ fetched sG updated errU sU,
      client.Get s' (namespacedNameOf e) (bareOf e) = (.ok fetched, sG) →
      DeepUpdate (.map fetched.Object) (.map e.Object) = (.map updated, true) →
      client.Update sG { Object := updated } = (some errU, sU) →
      ReconcileResources client.recorded (s, []) (pre ++ e :: post) lastResources =
        (.error errU, (sU, log' ++ [Call.Get (namespacedNameOf e) (bareOf e) (.ok fetched),
          Call.Update { Object := updated } (some errU)]))) := by
  refine ⟨?_, ?_, ?_⟩
  · intro err sG hG hnf
    unfold ReconcileResources
    rw [reconcileExpected_append, hpre]
    simp only [reconcileExpected_cons, recorded_Get, hG, hnf, Bool.false_eq_true, if_false]
  · intro err sG errC sC hG hnf hC
    unfold ReconcileResources
    rw [reconcileExpected_append, hpre]
    simp only [reconcileExpected_cons, recorded_Get, hG, hnf, if_true, recorded_Create, hC]
    simp
  · intro fetched sG updated errU sU hG hD hU
    rw [DeepUpdate_map] at hD
    simp only [Prod.mk.injEq, Value.map.injEq, decide_eq_true_eq] at hD
    obtain ⟨hm, hne⟩ := hD
    subst hm
    unfold ReconcileResources
    rw [reconcileExpected_append, hpre]
    simp only [reconcileExpected_cons, recorded_Get, hG, hne, ne_eq, not_false_eq_true, if_true,
      recorded_Update, hU]
    simp


/-- C11, witness: a Director object whose status is a string, between two
ConfigMap sources. -/
theorem deleteSubResource_status_not_map_witness :
    (deleteAttempts memoryClient [exampleDirectorBadStatus] [exampleB]).2 =
        [exampleDirectorBadStatus] ∧
    memoryClient.Get [exampleDirectorBadStatus]
        { Name := exampleDirectorSource.Name, Namespace := exampleDirectorSource.Namespace }
        (sourceToUnstructured exampleDirectorSource) =
      (.ok exampleDirectorBadStatus, [exampleDirectorBadStatus]) ∧
    lookup "status" exampleDirectorBadStatus.Object = some (.str "succeeded") ∧
    ((∃ err, err.IsNotFound = false ∧
      deleteSubResource memoryClient.recorded ([exampleDirectorBadStatus], [])
          (sourceToUnstructured exampleDirectorSource) =
        (some err, ([exampleDirectorBadStatus],
          [Call.Get { Name := exampleDirectorSource.Name,
                      Namespace := exampleDirectorSource.Namespace }
            (sourceToUnstructured exampleDirectorSource) (.ok exampleDirectorBadStatus)]))) ∧
     exampleDirectorSource ∈
      (DeleteSubResources memoryClient [exampleDirectorBadStatus]
        ([exampleB] ++ exampleDirectorSource :: [exampleC])).1.1) :=
  ⟨by decide, by decide, by decide,
    deleteSubResource_status_not_map memoryClient [exampleDirectorBadStatus]
      [exampleDirectorBadStatus] [exampleDirectorBadStatus] [exampleB] [exampleC]
      exampleDirectorSource exampleDirectorBadStatus (.str "succeeded") (Or.inl (by decide))
      (by decide) (by decide) (by decide) (fun m h => Value.noConfusion h)⟩

/-- C12, witness: previous sources `[b, c]`, both orphaned, on a cluster whose
`Delete` fails for `b`. -/
theorem reconcileResources_delete_failure_not_fatal_witness :
    reconcileExpected (memoryClientFailingDelete "b").recorded
        ([configMap "a" 1, configMap "b" 1, configMap "c" 1], []) [configMap "a" 1] [] =
      (.ok [configMap "a" 1], ([configMap "a" 1, configMap "b" 1, configMap "c" 1],
        [Call.Get (namespacedNameOf (configMap "a" 1)) (bareOf (configMap "a" 1))
          (.ok (configMap "a" 1))])) ∧
    ∃ sources,
      (ReconcileResources (memoryClientFailingDelete "b").recorded
          ([configMap "a" 1, configMap "b" 1, configMap "c" 1], []) [configMap "a" 1]
          [exampleB, exampleC]).1 = .ok sources ∧
      ∀ pre x post, [exampleB, exampleC] = pre ++ x :: post →
        findUnstructuredObject (deleteOutdated (memoryClientFailingDelete "b").recorded
            ([configMap "a" 1, configMap "b" 1, configMap "c" 1],
              [Call.Get (namespacedNameOf (configMap "a" 1)) (bareOf (configMap "a" 1))
                (.ok (configMap "a" 1))]) pre [configMap "a" 1]).1
          (sourceToUnstructured x) = false →
        Call.Delete (sourceToUnstructured x)
            ((memoryClientFailingDelete "b").Delete
              (deleteOutdated (memoryClientFailingDelete "b").recorded
                ([configMap "a" 1, configMap "b" 1, configMap "c" 1],
                  [Call.Get (namespacedNameOf (configMap "a" 1)) (bareOf (configMap "a" 1))
                    (.ok (configMap "a" 1))]) pre [configMap "a" 1]).2.1
              (sourceToUnstructured x)).1 ∈
          (ReconcileResources (memoryClientFailingDelete "b").recorded
            ([configMap "a" 1, configMap "b" 1, configMap "c" 1], []) [configMap "a" 1]
            [exampleB, exampleC]).2.2 ∧
        (((memoryClientFailingDelete "b").Delete
              (deleteOutdated (memoryClientFailingDelete "b").recorded
                ([configMap "a" 1, configMap "b" 1, configMap "c" 1],
                  [Call.Get (namespacedNameOf (configMap "a" 1)) (bareOf (configMap "a" 1))
                    (.ok (configMap "a" 1))]) pre [configMap "a" 1]).2.1
              (sourceToUnstructured x)).1 ≠ none →
          x ∈ sources) :=
  ⟨by decide,
    reconcileResources_delete_failure_not_fatal (memoryClientFailingDelete "b")
      [configMap "a" 1, configMap "b" 1, configMap "c" 1]
      [configMap "a" 1, configMap "b" 1, configMap "c" 1] [configMap "a" 1] [configMap "a" 1]
      [Call.Get (namespacedNameOf (configMap "a" 1)) (bareOf (configMap "a" 1))
        (.ok (configMap "a" 1))] [exampleB, exampleC] (by decide)⟩

/-- C12 on the same input, evaluated: the `Delete` of `b` fails, the `Delete`
of `c` is still issued and succeeds, the call returns `[a, b]` and no error. -/
theorem reconcileResources_delete_failure_example :
    ReconcileResources (memoryClientFailingDelete "b").recorded
        ([configMap "a" 1, configMap "b" 1, configMap "c" 1], []) [configMap "a" 1]
        [exampleB, exampleC] =
      (.ok [exampleA, exampleB],
        ([configMap "a" 1, configMap "b" 1],
          [Call.Get (namespacedNameOf (configMap "a" 1)) (bareOf (configMap "a" 1))
            (.ok (configMap "a" 1)),
           Call.Delete (sourceToUnstructured exampleB) (some boom),
           Call.Delete (sourceToUnstructured exampleC) none])) := by
  decide

/-- C13, witness: `a`, `b`, `c` expected on an empty cluster whose `Create`
fails for `b`; `a` stays created, nothing is done for `c`. -/
theorem reconcileResources_aborts_on_error_witness :
    reconcileExpected (memoryClientFailingCreate "b").recorded ([], []) [configMap "a" 1] [] =
      (.ok [bareOf (configMap "a" 1)], ([configMap "a" 1], createCalls [configMap "a" 1])) ∧
    ReconcileResources (memoryClientFailingCreate "b").recorded ([], [])
        ([configMap "a" 1] ++ configMap "b" 1 :: [configMap "c" 1]) [exampleDirectorSource] =
      (.error boom, ([configMap "a" 1], createCalls [configMap "a" 1] ++
        [Call.Get (namespacedNameOf (configMap "b" 1)) (bareOf (configMap "b" 1))
            (.error { IsNotFound := true, message := "not found" }),
          Call.Create (configMap "b" 1) (some boom)])) :=
  ⟨by decide,
    (reconcileResources_aborts_on_error (memoryClientFailingCreate "b") [] [configMap "a" 1]
      [configMap "a" 1] [configMap "c" 1] [bareOf (configMap "a" 1)] (configMap "b" 1)
      (createCalls [configMap "a" 1]) [exampleDirectorSource] (by decide)).2.1
      { IsNotFound := true, message := "not found" } [configMap "a" 1] boom [configMap "a" 1]
      (by decide) (by decide) (by decide)⟩

/-! ## The renderer factory and template lookup: the claims -/

theorem newInput_helm (template : TemplateSpec) (name : NamespacedName)
    (values : List (String × Value))
    (h : template.Type' = "helm" ∨ template.Type' = "Helm" ∨ template.Type' = "HELM") :
    newInput template name values =
      .ok (Input.helm template.URL name.Name name.Namespace values) := by
  simp [newInput, h]

theorem newInput_gotemplate (template : TemplateSpec) (name : NamespacedName)
    (values : List (String × Value))
    (h : template.Type' = "gotemplate" ∨ template.Type' = "Gotemplate" ∨
      template.Type' = "GoTemplate" ∨ template.Type' = "GOTEMPLATE") :
    newInput template name values =
      .ok (Input.gotemplate template.Content name.Name values) := by
  have hn : ¬ (template.Type' = "helm" ∨ template.Type' = "Helm" ∨ template.Type' = "HELM") := by
    rcases h with h | h | h | h <;> rw [h] <;> decide
  simp [newInput, hn, h]

/-- C14, as the code has it.  The factory compares the declared type with a
fixed table of spellings, each of which equals a variant name when letter case
is ignored.  For a type among `helm`, `Helm`, `HELM` the factory `GetRenderer`
answers what the constructor of the chart renderer answers, and both input
builders answer a chart input (the first one unless the values cannot be
built); for a type among `gotemplate`, `Gotemplate`, `GoTemplate`,
`GOTEMPLATE` the same holds with the inline-template renderer and its input.
For every other type string `GetRenderer` and `GetPropertiesRendererInput`
answer the not-implemented error and `GetRendererInput` answers an error. -/
theorem getRenderer_listed_spellings (ext : Externals) (template : TemplateSpec)
    (service : Option SFService) (plan : Option SFPlan) (instance' : Option SFServiceInstance)
    (binding : Option SFServiceBinding) (name : NamespacedName)
    (sources : List (String × Unstructured)) :
    ((template.Type' = "helm" ∨ template.Type' = "Helm" ∨ template.Type' = "HELM") →
      GetRenderer ext.helmNew ext.gotemplateNew template.Type' = ext.helmNew ∧
      GetPropertiesRendererInput template name sources =
        .ok (Input.helm template.URL name.Name name.Namespace (sourceValues sources [])) ∧
      GetRendererInput ext template service plan instance' binding name =
        (match rendererValues ext service plan instance' binding with
         | .error err => .error err
         | .ok values => .ok (Input.helm template.URL name.Name name.Namespace values)) ∧
      equalFold template.Type' "helm" = true) ∧
    ((template.Type' = "gotemplate" ∨ template.Type' = "Gotemplate" ∨
        template.Type' = "GoTemplate" ∨ template.Type' = "GOTEMPLATE") →
      GetRenderer ext.helmNew ext.gotemplateNew template.Type' = ext.gotemplateNew ∧
      GetPropertiesRendererInput template name sources =
        .ok (Input.gotemplate template.Content name.Name (sourceValues sources [])) ∧
      GetRendererInput ext template service plan instance' binding name =
        (match rendererValues ext service plan instance' binding with
         | .error err => .error err
         | .ok values => .ok (Input.gotemplate template.Content name.Name values)) ∧
      equalFold template.Type' "gotemplate" = true) ∧
    (¬ (template.Type' = "helm" ∨ template.Type' = "Helm" ∨ template.Type' = "HELM") →
      ¬ (template.Type' = "gotemplate" ∨ template.Type' = "Gotemplate" ∨
        template.Type' = "GoTemplate" ∨ template.Type' = "GOTEMPLATE") →
      GetRenderer ext.helmNew ext.gotemplateNew template.Type' =
        .error (notImplemented template.Type') ∧
      GetPropertiesRendererInput template name sources =
        .error (notImplemented template.Type') ∧
      ∃ err, GetRendererInput ext template service plan instance' binding name =
        .error err) := by
  refine ⟨?_, ?_, ?_⟩
  · intro hh
    refine ⟨by simp [GetRenderer, hh], newInput_helm _ _ _ hh, ?_, ?_⟩
    · unfold GetRendererInput
      cases rendererValues ext service plan instance' binding with
      | error err => rfl
      | ok values => exact newInput_helm _ _ _ hh
    · rcases hh with h | h | h <;> rw [h] <;> decide
  · intro hg
    have hn : ¬ (template.Type' = "helm" ∨ template.Type' = "Helm" ∨
        template.Type' = "HELM") := by
      rcases hg with h | h | h | h <;> rw [h] <;> decide
    refine ⟨by simp [GetRenderer, hn, hg], newInput_gotemplate _ _ _ hg, ?_, ?_⟩
    · unfold GetRendererInput
      cases rendererValues ext service plan instance' binding with
      | error err => rfl
      | ok values => exact newInput_gotemplate _ _ _ hg
    · rcases hg with h | h | h | h <;> rw [h] <;> decide
  · intro h1 h2
    have hnew : ∀ values, newInput template name values =
        .error (notImplemented template.Type') := by
      intro values
      simp [newInput, h1, h2]
    refine ⟨by simp [GetRenderer, h1, h2], hnew _, ?_⟩
    unfold GetRendererInput
    cases rendererValues ext service plan instance' binding with
    | error err => exact ⟨err, rfl⟩
    | ok values => exact ⟨_, hnew values⟩

/-- C14, witness: the spelling `GoTemplate` selects the inline-template
renderer, and the spelling `hELM`, which is not in the table, is rejected. -/
theorem getRenderer_listed_spellings_witness :
    GetRenderer exampleExternals.helmNew exampleExternals.gotemplateNew "GoTemplate" =
      exampleExternals.gotemplateNew ∧
    GetRenderer exampleExternals.helmNew exampleExternals.gotemplateNew "hELM" =
      .error (notImplemented "hELM") :=
  ⟨((getRenderer_listed_spellings exampleExternals
      { Action := "status", Type' := "GoTemplate", URL := "", Content := "status" }
      none none none none { Name := "instance-1", Namespace := "default" } []).2.1
      (by decide)).1,
   ((getRenderer_listed_spellings exampleExternals
      { Action := "status", Type' := "hELM", URL := "", Content := "status" }
      none none none none { Name := "instance-1", Namespace := "default" } []).2.2
      (by decide) (by decide)).1⟩

theorem not_listed_of_not_equalFold (t : String)
    (h : equalFold t "helm" = false ∧ equalFold t "gotemplate" = false) :
    ¬ (t = "helm" ∨ t = "Helm" ∨ t = "HELM") ∧
    ¬ (t = "gotemplate" ∨ t = "Gotemplate" ∨ t = "GoTemplate" ∨ t = "GOTEMPLATE") := by
  constructor
  · rintro (rfl | rfl | rfl) <;> exact absurd h.1 (by decide)
  · rintro (rfl | rfl | rfl | rfl) <;> exact absurd h.2 (by decide)

/-- C15.  For a type string that equals neither `helm` nor `gotemplate` when
letter case is ignored, `GetRenderer` answers no renderer but the error
`unable to create renderer for type <type>. not implemented`, whose message
holds the type string, and `GetPropertiesRendererInput` and `GetRendererInput`
answer an error and no input: no variant is chosen as a fallback. -/
theorem getRenderer_unrecognized (ext : Externals) (template : TemplateSpec)
    (service : Option SFService) (plan : Option SFPlan) (instance' : Option SFServiceInstance)
    (binding : Option SFServiceBinding) (name : NamespacedName)
    (sources : List (String × Unstructured))
    (h : equalFold template.Type' "helm" = false ∧
      equalFold template.Type' "gotemplate" = false) :
    GetRenderer ext.helmNew ext.gotemplateNew template.Type' =
      .error (notImplemented template.Type') ∧
    (notImplemented template.Type').message =
      "unable to create renderer for type " ++ template.Type' ++ ". not implemented" ∧
    GetPropertiesRendererInput template name sources = .error (notImplemented template.Type') ∧
    ∃ err, GetRendererInput ext template service plan instance' binding name = .error err := by
  obtain ⟨h1, h2⟩ := not_listed_of_not_equalFold _ h
  have hnew : ∀ values, newInput template name values =
      .error (notImplemented template.Type') := by
    intro values
    simp [newInput, h1, h2]
  refine ⟨by simp [GetRenderer, h1, h2], rfl, hnew _, ?_⟩
  unfold GetRendererInput
  cases rendererValues ext service plan instance' binding with
  | error err => exact ⟨err, rfl⟩
  | ok values => exact ⟨_, hnew values⟩

theorem GetTemplate_loop_spec (action : String) (templates : List TemplateSpec) :
    ((∃ err, SFPlan.GetTemplate.loop action templates = .error err) ↔
      ∀ t ∈ templates, t.Action ≠ action) ∧
    (∀ t, SFPlan.GetTemplate.loop action templates = .ok t →
      ∃ pre post, templates = pre ++ t :: post ∧ t.Action = action ∧
        ∀ p ∈ pre, p.Action ≠ action) := by
  induction templates with
  | nil =>
    simp [SFPlan.GetTemplate.loop]
  | cons x rest ih =>
    by_cases hx : x.Action = action
    · simp only [SFPlan.GetTemplate.loop, hx, if_true]
      constructor
      · constructor
        · rintro ⟨err, h⟩
          cases h
        · intro h
          exact absurd hx (h x (by simp))
      · intro t ht
        cases ht
        exact ⟨[], rest, rfl, hx, by simp⟩
    · simp only [SFPlan.GetTemplate.loop, hx, if_false]
      obtain ⟨ih1, ih2⟩ := ih
      constructor
      · rw [ih1]
        constructor
        · intro h t ht
          rcases List.mem_cons.1 ht with rfl | ht
          · exact hx
          · exact h t ht
        · intro h t ht
          exact h t (by simp [ht])
      · intro t ht
        obtain ⟨pre, post, h1, h2, h3⟩ := ih2 t ht
        refine ⟨x :: pre, post, by simp [h1], h2, ?_⟩
        intro p hp
        rcases List.mem_cons.1 hp with rfl | hp
        · exact hx
        · exact h3 p hp

/-- C16.  For every plan and action, `GetTemplate` answers an error exactly
when no template of `Spec.Templates` has the action; when it answers a
template, that template is the first element of the list, in list order, whose
`Action` is the one asked for; and it always answers one or the other.  The
method only reads the plan, which is therefore the same after the call. -/
theorem getTemplate_first_match (sfPlan : SFPlan) (action : String) :
    ((∃ err, sfPlan.GetTemplate action = .error err) ↔
      ∀ t ∈ sfPlan.Spec.Templates, t.Action ≠ action) ∧
    (∀ t, sfPlan.GetTemplate action = .ok t →
      ∃ pre post, sfPlan.Spec.Templates = pre ++ t :: post ∧ t.Action = action ∧
        ∀ p ∈ pre, p.Action ≠ action) ∧
    ((∃ t, sfPlan.GetTemplate action = .ok t) ∨ ∃ err, sfPlan.GetTemplate action = .error err) := by
  refine ⟨(GetTemplate_loop_spec action _).1, (GetTemplate_loop_spec action _).2, ?_⟩
  cases h : sfPlan.GetTemplate action with
  | error err => exact Or.inr ⟨err, rfl⟩
  | ok t => exact Or.inl ⟨t, rfl⟩

theorem lookup_filter_key {α : Type} (p : String → Bool) (m : List (String × α)) (k : String) :
    lookup k (m.filter (fun entry => p entry.1)) = if p k then lookup k m else none := by
  induction m with
  | nil => simp [lookup]
  | cons x rest ih =>
    obtain ⟨k', v⟩ := x
    by_cases hk : k' = k
    · subst hk
      by_cases hp : p k' = true
      · simp [List.filter, hp, lookup]
      · simp only [Bool.not_eq_true] at hp
        simp [List.filter, hp, lookup] at ih ⊢
        exact ih
    · by_cases hp : p k' = true
      · simp [List.filter, hp, lookup, hk, ih]
      · simp only [Bool.not_eq_true] at hp
        simp [List.filter, hp, lookup, hk, ih]

/-- C17.  For every file set that the template engine produced,
`renderResources` answers an output named after the chart whose `Files` hold
under a name `k` nothing when `k` is ignored and otherwise the content produced
for `k`; `k` is ignored exactly when its base name (last path element) starts
with `_` or `k` ends with `NOTES.txt`.  Hence a name is among the kept files iff
it was produced and is neither of the two, with its content unchanged. -/
theorem renderResources_filters (files : List (String × String)) (chartName : String) :
    ∃ out, renderResources (.ok files) chartName = .ok out ∧ out.Name = chartName ∧
      (∀ k, lookup k out.Files = if ignoredFile k then none else lookup k files) ∧
      (∀ k, ignoredFile k = true ↔
        (HasPrefix (pathBase k) "_" = true ∨ HasSuffix k "NOTES.txt" = true)) ∧
      (∀ k, (lookup k out.Files).isSome = true ↔
        ((lookup k files).isSome = true ∧ HasPrefix (pathBase k) "_" = false ∧
          HasSuffix k "NOTES.txt" = false)) := by
  have hign : ∀ k, ignoredFile k = true ↔
      (HasPrefix (pathBase k) "_" = true ∨ HasSuffix k "NOTES.txt" = true) := by
    intro k
    simp [ignoredFile, ignoreFileSuffix]
  have hl : ∀ k, lookup k (files.filter (fun entry => !ignoredFile entry.1)) =
      if ignoredFile k then none else lookup k files := by
    intro k
    rw [lookup_filter_key (fun k => !ignoredFile k) files k]
    cases ignoredFile k <;> simp
  refine ⟨_, rfl, rfl, hl, hign, ?_⟩
  intro k
  show (lookup k (files.filter (fun entry => !ignoredFile entry.1))).isSome = true ↔ _
  rw [hl k]
  cases hi : ignoredFile k with
  | true =>
    have := (hign k).1 hi
    rcases this with h | h <;> simp [h]
  | false =>
    have h1 : HasPrefix (pathBase k) "_" = false := by
      by_contra hc
      have := (hign k).2 (Or.inl (by simpa using hc))
      simp [hi] at this
    have h2 : HasSuffix k "NOTES.txt" = false := by
      by_contra hc
      have := (hign k).2 (Or.inr (by simpa using hc))
      simp [hi] at this
    simp [h1, h2]

/-- C15, witness: the empty type string. -/
theorem getRenderer_unrecognized_witness :
    GetRenderer exampleExternals.helmNew exampleExternals.gotemplateNew "" =
      .error (notImplemented "") ∧
    (notImplemented "").message = "unable to create renderer for type . not implemented" :=
  ⟨(getRenderer_unrecognized exampleExternals
      { Action := "provision", Type' := "", URL := "", Content := "" }
      none none none none { Name := "instance-1", Namespace := "default" } []
      ⟨by decide, by decide⟩).1,
   (getRenderer_unrecognized exampleExternals
      { Action := "provision", Type' := "", URL := "", Content := "" }
      none none none none { Name := "instance-1", Namespace := "default" } []
      ⟨by decide, by decide⟩).2.1⟩

/-! ## The composition of resources: the claims -/

theorem parseFiles_spec (ext : Externals) (output : Output) (ns : String) (files : List String) :
    ∀ (acc result : List Unstructured), parseFiles ext output ns files acc = .ok result →
      ∃ parsed, List.Forall₂ (parsesTo ext output) files parsed ∧
        result = acc ++ stampAll ns parsed := by
  induction files with
  | nil =>
    intro acc result h
    simp only [parseFiles, Except.ok.injEq] at h
    exact ⟨[], List.Forall₂.nil, by simp [stampAll, h]⟩
  | cons file rest ih =>
    intro acc result h
    unfold parseFiles at h
    cases hc : output.FileContent file with
    | error err => simp [hc] at h
    | ok content =>
      cases hp : ext.StringToUnstructured content with
      | error err => simp [hc, hp] at h
      | ok docs =>
        simp only [hc, hp] at h
        obtain ⟨parsed, h1, h2⟩ := ih _ _ h
        exact ⟨docs :: parsed, List.Forall₂.cons ⟨content, hc, hp⟩ h1, by
          simp [stampAll, h2]⟩

theorem stampAll_length (ns : String) (parsed : List (List Unstructured)) :
    (stampAll ns parsed).length = countAll parsed := by
  induction parsed with
  | nil => rfl
  | cons docs rest ih => simp [stampAll, countAll, ih]

theorem lookup_remove_self {α : Type} (k : String) (m : List (String × α)) :
    lookup k (remove k m) = none := by
  rw [lookup_eq_none_iff]
  simp [remove, List.mem_filter]

theorem GetNamespace_SetNamespace (u : Unstructured) (ns : String)
    (h : metadataSettable u.Object = true) : (u.SetNamespace ns).GetNamespace = ns := by
  by_cases hns : ns = ""
  · subst hns
    simp only [Unstructured.GetNamespace, Unstructured.SetNamespace, if_true, removeMetadata]
    cases hl : lookup "metadata" u.Object with
    | none => simp [metadataOf, hl, fieldString, lookup]
    | some x =>
      cases x with
      | map md => simp [metadataOf, lookup_insert_self, fieldString, lookup_remove_self]
      | null => simp [metadataOf, hl, fieldString, lookup]
      | bool b => simp [metadataOf, hl, fieldString, lookup]
      | num n => simp [metadataOf, hl, fieldString, lookup]
      | str t => simp [metadataOf, hl, fieldString, lookup]
      | arr items => simp [metadataOf, hl, fieldString, lookup]
  · simp only [Unstructured.GetNamespace, Unstructured.SetNamespace, hns, if_false,
      metadataOf_setMetadata _ _ _ h, fieldString, lookup_insert_self]

theorem mem_stampAll (ns : String) (parsed : List (List Unstructured)) (r : Unstructured) :
    r ∈ stampAll ns parsed ↔ ∃ docs ∈ parsed, ∃ doc ∈ docs, r = doc.SetNamespace ns := by
  induction parsed with
  | nil => simp [stampAll]
  | cons docs rest ih =>
    simp only [stampAll, List.mem_append, List.mem_map, ih, List.mem_cons]
    constructor
    · rintro (⟨doc, hd, rfl⟩ | ⟨docs', hm, doc, hd, rfl⟩)
      · exact ⟨docs, Or.inl rfl, doc, hd, rfl⟩
      · exact ⟨docs', Or.inr hm, doc, hd, rfl⟩
    · rintro ⟨docs', hm | hm, doc, hd, rfl⟩
      · subst hm
        exact Or.inl ⟨doc, hd, rfl⟩
      · exact Or.inr ⟨docs', hm, doc, hd, rfl⟩

theorem expectedResourcesOf_ok (ext : Externals) (instance' : Option SFServiceInstance)
    (binding : Option SFServiceBinding) (service : SFService) (plan : SFPlan)
    (action ns : String) (resources : List Unstructured)
    (h : expectedResourcesOf ext instance' binding service plan action ns = .ok resources) :
    ∃ name template output files parsed,
      targetName action ns instance' binding = .ok name ∧
      plan.GetTemplate action = .ok template ∧
      renderTemplate ext template
        (GetRendererInput ext template (some service) (some plan) instance' binding name) =
          .ok output ∧
      output.ListFiles = .ok files ∧
      List.Forall₂ (parsesTo ext output) files parsed ∧ resources = stampAll ns parsed := by
  unfold expectedResourcesOf at h
  split at h
  · cases h
  · cases h
  · rename_i name hname
    split at h
    · cases h
    · rename_i template htemplate
      split at h
      · cases h
      · rename_i output houtput
        split at h
        · cases h
        · rename_i files hfiles
          cases hp : parseFiles ext output ns files [] with
          | error err => simp [hp, Outcome.ofExcept] at h
          | ok result =>
            simp only [hp, Outcome.ofExcept, Outcome.ok.injEq] at h
            obtain ⟨parsed, h1, h2⟩ := parseFiles_spec ext output ns files [] result hp
            exact ⟨name, template, output, files, parsed, hname, htemplate, houtput, hfiles, h1,
              by simpa [h] using h2⟩

/-- C18, as the code has it.  Whenever `ComputeExpectedResources` succeeds, the
entities were fetched with a plan and a service, the template of the action was
rendered by the renderer of its type, and the returned list is the documents
parsed from the files that this output lists, in file order then document
order, each passed through `SetNamespace` with the namespace argument; its
length is the number of documents parsed.  Every returned resource comes from
one of these documents, and has the namespace argument as its
`metadata.namespace` when the `metadata` of the document is absent or a
mapping. -/
theorem computeExpectedResources_stamps_namespace {σ : Type} (client : SourceClient σ)
    (ext : Externals) (s s1 : σ)
    (instanceID bindingID serviceID planID action ns : String) (resources : List Unstructured)
    (h : ComputeExpectedResources client ext s instanceID bindingID serviceID planID action ns =
      (.ok resources, s1)) :
    ∃ fetched plan service name template output files parsed,
      fetchResources client ext.podNamespace s instanceID bindingID serviceID planID ns =
        (.ok fetched, s1) ∧
      fetched.plan = some plan ∧ fetched.service = some service ∧
      targetName action ns fetched.instance' fetched.binding = .ok name ∧
      plan.GetTemplate action = .ok template ∧
      renderTemplate ext template
        (GetRendererInput ext template (some service) (some plan) fetched.instance'
          fetched.binding name) = .ok output ∧
      output.ListFiles = .ok files ∧
      List.Forall₂ (parsesTo ext output) files parsed ∧
      resources = stampAll ns parsed ∧
      resources.length = countAll parsed ∧
      (∀ r ∈ resources, ∃ docs ∈ parsed, ∃ doc ∈ docs, r = doc.SetNamespace ns ∧
        (metadataSettable doc.Object = true → r.GetNamespace = ns)) := by
  unfold ComputeExpectedResources at h
  split at h
  · cases h
  · rename_i fetched s2 hfetch
    split at h
    · cases h
    · rename_i plan hplan
      split at h
      · cases h
      · rename_i service hservice
        simp only [Prod.mk.injEq] at h
        obtain ⟨hres, hs⟩ := h
        subst hs
        obtain ⟨name, template, output, files, parsed, h1, h2, h3, h4, h5, h6⟩ :=
          expectedResourcesOf_ok _ _ _ _ _ _ _ _ hres
        refine ⟨fetched, plan, service, name, template, output, files, parsed, hfetch, hplan,
          hservice, h1, h2, h3, h4, h5, h6, ?_, ?_⟩
        · rw [h6]; exact stampAll_length ns parsed
        · intro r hr
          rw [h6] at hr
          obtain ⟨docs, hd, doc, hdoc, rfl⟩ := (mem_stampAll ns parsed r).1 hr
          exact ⟨docs, hd, doc, hdoc, rfl, GetNamespace_SetNamespace doc ns⟩

/-- C18, witness: the rendered output lists `a.yaml` with one document and
`b.yaml` with two, all declaring the namespace `default`; the three resources
come back in that order in the namespace `tenant`. -/
theorem computeExpectedResources_stamps_namespace_witness :
    ∃ fetched plan service name template output files parsed,
      fetchResources exampleSourceClient exampleExternals.podNamespace () "instance-1" ""
        "service-1" "plan-1" "tenant" = (.ok fetched, ()) ∧
      fetched.plan = some plan ∧ fetched.service = some service ∧
      targetName "provision" "tenant" fetched.instance' fetched.binding = .ok name ∧
      plan.GetTemplate "provision" = .ok template ∧
      renderTemplate exampleExternals template
        (GetRendererInput exampleExternals template (some service) (some plan)
          fetched.instance' fetched.binding name) = .ok output ∧
      output.ListFiles = .ok files ∧
      List.Forall₂ (parsesTo exampleExternals output) files parsed ∧
      [(configMap "svc-a" 1).SetNamespace "tenant", (configMap "svc-b" 2).SetNamespace "tenant",
        exampleDirector.SetNamespace "tenant"] = stampAll "tenant" parsed ∧
      [(configMap "svc-a" 1).SetNamespace "tenant", (configMap "svc-b" 2).SetNamespace "tenant",
        exampleDirector.SetNamespace "tenant"].length = countAll parsed ∧
      (∀ r ∈ [(configMap "svc-a" 1).SetNamespace "tenant",
              (configMap "svc-b" 2).SetNamespace "tenant",
              exampleDirector.SetNamespace "tenant"],
        ∃ docs ∈ parsed, ∃ doc ∈ docs, r = doc.SetNamespace "tenant" ∧
          (metadataSettable doc.Object = true → r.GetNamespace = "tenant")) :=
  computeExpectedResources_stamps_namespace exampleSourceClient exampleExternals () ()
    "instance-1" "" "service-1" "plan-1" "provision" "tenant" _ (by decide)

/-- C18 as stated fails: when the rendered documents have a null `metadata`,
`ComputeExpectedResources` succeeds and returns them as parsed, without the
namespace `tenant` it was given. -/
theorem computeExpectedResources_null_metadata_not_stamped :
    ComputeExpectedResources exampleSourceClient nullMetadataExternals () "instance-1" ""
        "service-1" "plan-1" "provision" "tenant" =
      (.ok [exampleNullMetadata, exampleNullMetadata], ()) ∧
    exampleNullMetadata.GetNamespace = "" ∧
    ¬ ∀ r ∈ [exampleNullMetadata, exampleNullMetadata], r.GetNamespace = "tenant" := by
  decide

/-- C18 at a concrete input, evaluated: three documents out of two files. -/
theorem computeExpectedResources_example :
    ComputeExpectedResources exampleSourceClient exampleExternals () "instance-1" "" "service-1"
        "plan-1" "provision" "tenant" =
      (.ok [(configMap "svc-a" 1).SetNamespace "tenant", (configMap "svc-b" 2).SetNamespace "tenant",
            exampleDirector.SetNamespace "tenant"], ()) := by
  decide

theorem fetchResources_no_instance {σ : Type} (client : SourceClient σ) (podNamespace : String)
    (s s1 : σ) (bindingID serviceID planID ns : String) (fetched : Fetched)
    (h : fetchResources client podNamespace s "" bindingID serviceID planID ns =
      (.ok fetched, s1)) :
    fetched.instance' = none := by
  unfold fetchResources at h
  simp only [fetchInstance, ne_eq, not_true_eq_false, if_false] at h
  split at h
  · cases h
  · split at h
    · cases h
    · simp only [Prod.mk.injEq, Except.ok.injEq] at h
      rw [← h.1]

/-- C19, what the code does.  The name handed to the renderer input is the
binding's name for the action `bind` and the instance's name for every other
action, in the namespace given, when the instance (and for `bind` the binding)
was fetched.  The instance's name is read first whatever the action: with an
empty `instanceID` no instance is fetched, and once a plan and a service are
resolved both `ComputeExpectedResources` and `ComputeStatus` end in a run-time
panic, also for `bind` with a fetched binding, as on the concrete input of the
last three parts. -/
theorem targetName_reads_unfetched_instance {σ τ : Type} (sourceClient : SourceClient σ)
    (targetClient : Client τ) (ext : Externals) (s : σ) (t : τ)
    (bindingID serviceID planID action ns : String) :
    (∀ binding, targetName action ns none binding = .panic) ∧
    (∀ fetched s1 plan service,
      fetchResources sourceClient ext.podNamespace s "" bindingID serviceID planID ns =
        (.ok fetched, s1) →
      fetched.plan = some plan → fetched.service = some service →
      fetched.instance' = none ∧
      ComputeExpectedResources sourceClient ext s "" bindingID serviceID planID action ns =
        (.panic, s1) ∧
      ComputeStatus sourceClient targetClient ext s t "" bindingID serviceID planID action ns =
        (.panic, s1, t)) ∧
    (∀ inst b, targetName BindAction ns (some inst) (some b) =
      .ok { Name := b.ObjectMeta.Name, Namespace := ns }) ∧
    (∀ inst binding, action ≠ BindAction →
      targetName action ns (some inst) binding =
        .ok { Name := inst.ObjectMeta.Name, Namespace := ns }) ∧
    (fetchResources exampleSourceClient "" () "" "binding-1" "service-1" "plan-1" "default").1 =
      .ok { instance' := none,
            binding := some { ObjectMeta := { Name := "binding-1", Namespace := "default" },
                              Spec := exampleBindingSpec,
                              Status := { State := "", Error := "", Response := { SecretRef := "" },
                                          AppliedSpec := exampleBindingSpec, Resources := [] } },
            service := some exampleService, plan := some examplePlan } ∧
    ComputeExpectedResources exampleSourceClient exampleExternals () "" "binding-1" "service-1"
      "plan-1" "bind" "default" = (.panic, ()) ∧
    ComputeStatus exampleSourceClient memoryClient exampleExternals () [] "" "binding-1"
      "service-1" "plan-1" "bind" "default" = (.panic, (), []) := by
  refine ⟨fun _ => rfl, ?_, ?_, ?_, by decide, by decide, by decide⟩
  · intro fetched s1 plan service hf hp hs
    have hi := fetchResources_no_instance _ _ _ _ _ _ _ _ _ hf
    refine ⟨hi, ?_, ?_⟩
    · simp [ComputeExpectedResources, hf, hp, hs, hi, expectedResourcesOf, targetName]
    · simp [ComputeStatus, hf, hp, hs, hi, observedStatusOf, targetName]
  · intro inst b
    simp [targetName]
  · intro inst binding ha
    simp [targetName, ha]

/-- C20.  (1) With `instanceID` set and the `Get` of the
instance answering not-found, `fetchResources`, `ComputeExpectedResources` and
`ComputeStatus` answer the instance-not-found error for `instanceID`.  (2) With
the instance and the service stages passed, `bindingID` set and the `Get` of
the binding answering not-found, they answer the binding-not-found error for
`bindingID`.  (3) When `fetchResources` succeeds without a plan, the two
computations answer plan-not-found for `planID`; (4) when it succeeds with a
plan but without a service, they answer service-not-found for `serviceID`.  In
each case the answer is the same for all externals (no renderer is consulted)
and the target cluster is in its initial state. -/
theorem fetchResources_typed_not_found {σ τ : Type} (sourceClient : SourceClient σ)
    (targetClient : Client τ) (ext : Externals) (s : σ) (t : τ)
    (instanceID bindingID serviceID planID action ns : String) :
    (∀ err s1, instanceID ≠ "" →
      sourceClient.GetInstance s { Name := instanceID, Namespace := ns } = (.error err, s1) →
      err.IsNotFound = true →
      fetchResources sourceClient ext.podNamespace s instanceID bindingID serviceID planID ns =
        (.error (.notFound .SFServiceInstanceNotFound instanceID (some err)), s1) ∧
      ComputeExpectedResources sourceClient ext s instanceID bindingID serviceID planID action ns =
        (.error (.notFound .SFServiceInstanceNotFound instanceID (some err)), s1) ∧
      ComputeStatus sourceClient targetClient ext s t instanceID bindingID serviceID planID action
          ns =
        (.error (.notFound .SFServiceInstanceNotFound instanceID (some err)), s1, t)) ∧
    (∀ inst s1 found s2 err s3,
      fetchInstance sourceClient s instanceID ns = (.ok inst, s1) →
      fetchServiceInfo sourceClient ext.podNamespace s1 serviceID planID = (.ok found, s2) →
      bindingID ≠ "" →
      sourceClient.GetBinding s2 { Name := bindingID, Namespace := ns } = (.error err, s3) →
      err.IsNotFound = true →
      fetchResources sourceClient ext.podNamespace s instanceID bindingID serviceID planID ns =
        (.error (.notFound .SFServiceBindingNotFound bindingID (some err)), s3) ∧
      ComputeExpectedResources sourceClient ext s instanceID bindingID serviceID planID action ns =
        (.error (.notFound .SFServiceBindingNotFound bindingID (some err)), s3) ∧
      ComputeStatus sourceClient targetClient ext s t instanceID bindingID serviceID planID action
          ns =
        (.error (.notFound .SFServiceBindingNotFound bindingID (some err)), s3, t)) ∧
    (∀ fetched s1,
      fetchResources sourceClient ext.podNamespace s instanceID bindingID serviceID planID ns =
        (.ok fetched, s1) →
      fetched.plan = none →
      ComputeExpectedResources sourceClient ext s instanceID bindingID serviceID planID action ns =
        (.error (.notFound .SFPlanNotFound planID none), s1) ∧
      ComputeStatus sourceClient targetClient ext s t instanceID bindingID serviceID planID action
          ns =
        (.error (.notFound .SFPlanNotFound planID none), s1, t)) ∧
    (∀ fetched s1 plan,
      fetchResources sourceClient ext.podNamespace s instanceID bindingID serviceID planID ns =
        (.ok fetched, s1) →
      fetched.plan = some plan → fetched.service = none →
      ComputeExpectedResources sourceClient ext s instanceID bindingID serviceID planID action ns =
        (.error (.notFound .SFServiceNotFound serviceID none), s1) ∧
      ComputeStatus sourceClient targetClient ext s t instanceID bindingID serviceID planID action
          ns =
        (.error (.notFound .SFServiceNotFound serviceID none), s1, t)) := by
  refine ⟨?_, ?_, ?_, ?_⟩
  · intro err s1 hid hget hnf
    have hf : fetchResources sourceClient ext.podNamespace s instanceID bindingID serviceID
        planID ns = (.error (.notFound .SFServiceInstanceNotFound instanceID (some err)), s1) := by
      simp [fetchResources, fetchInstance, hid, hget, hnf]
    exact ⟨hf, by simp [ComputeExpectedResources, hf], by simp [ComputeStatus, hf]⟩
  · intro inst s1 found s2 err s3 hi hs hid hget hnf
    have hf : fetchResources sourceClient ext.podNamespace s instanceID bindingID serviceID
        planID ns = (.error (.notFound .SFServiceBindingNotFound bindingID (some err)), s3) := by
      obtain ⟨service, plan⟩ := found
      simp [fetchResources, hi, hs, fetchBinding, hid, hget, hnf]
    exact ⟨hf, by simp [ComputeExpectedResources, hf], by simp [ComputeStatus, hf]⟩
  · intro fetched s1 hf hp
    exact ⟨by simp [ComputeExpectedResources, hf, hp], by simp [ComputeStatus, hf, hp]⟩
  · intro fetched s1 plan hf hp hs
    exact ⟨by simp [ComputeExpectedResources, hf, hp, hs], by simp [ComputeStatus, hf, hp, hs]⟩

/-- C20, witness: a source cluster holding neither instances nor bindings,
asked for `instance-1`, and asked for `binding-1` with no instance. -/
theorem fetchResources_typed_not_found_witness :
    ComputeExpectedResources emptySourceClient exampleExternals () "instance-1" "binding-1"
        "service-1" "plan-1" "provision" "default" =
      (.error (.notFound .SFServiceInstanceNotFound "instance-1"
        (some { IsNotFound := true, message := "not found" })), ()) ∧
    ComputeStatus emptySourceClient memoryClient exampleExternals () [] "" "binding-1"
        "service-1" "plan-1" "bind" "default" =
      (.error (.notFound .SFServiceBindingNotFound "binding-1"
        (some { IsNotFound := true, message := "not found" })), (), []) :=
  ⟨((fetchResources_typed_not_found emptySourceClient memoryClient exampleExternals () []
      "instance-1" "binding-1" "service-1" "plan-1" "provision" "default").1
      _ _ (by decide) rfl rfl).2.1,
   ((fetchResources_typed_not_found emptySourceClient memoryClient exampleExternals () []
      "" "binding-1" "service-1" "plan-1" "bind" "default").2.1
      none () (some exampleService, some examplePlan) () _ () rfl rfl (by decide) rfl rfl).2.2⟩

/-- C14 as stated fails: `hElm` and `goTemplate` equal `helm` and `gotemplate`
when letter case is ignored, yet for every pair of constructors `GetRenderer`
answers the not-implemented error for them, and so does
`GetPropertiesRendererInput` for a template of type `goTemplate`. -/
theorem getRenderer_rejects_other_spellings :
    equalFold "hElm" "helm" = true ∧ equalFold "goTemplate" "gotemplate" = true ∧
    (∀ helmNew gotemplateNew : Except Error Renderer,
      GetRenderer helmNew gotemplateNew "hElm" = .error (notImplemented "hElm") ∧
      GetRenderer helmNew gotemplateNew "goTemplate" = .error (notImplemented "goTemplate")) ∧
    (∀ (name : NamespacedName) (sources : List (String × Unstructured)),
      GetPropertiesRendererInput
        { Action := "provision", Type' := "goTemplate", URL := "", Content := "" } name sources =
          .error (notImplemented "goTemplate")) := by
  refine ⟨by decide, by decide, fun h g => ⟨by simp [GetRenderer], by simp [GetRenderer]⟩, ?_⟩
  intro name sources
  simp [GetPropertiesRendererInput, newInput]

/-! ## The status pipeline: the claims -/

theorem preferredFile_spec (preferred first : String) (files : List String) :
    preferredFile preferred first files = if preferred ∈ files then preferred else first := by
  induction files with
  | nil => simp [preferredFile]
  | cons f rest ih =>
    by_cases h : f = preferred
    · simp [preferredFile, h]
    · have h2 : ¬ preferred = f := fun e => h e.symm
      simp [preferredFile, h, h2, ih]

/-- C21.  For every rendered output whose file list is not empty, the file
that `ComputeStatus` reads the sources from is `sources.yaml` when that name
is in the list and the first file otherwise, and the file it reads the status
from is `status.yaml` when that name is in the list and the first file
otherwise: the two readers answer what the content of that file parses to. -/
theorem computeStatus_preferred_file (ext : Externals) (output : Output) (first : String)
    (rest : List String) (h : output.ListFiles = .ok (first :: rest)) :
    preferredFile "sources.yaml" first (first :: rest) =
      (if "sources.yaml" ∈ first :: rest then "sources.yaml" else first) ∧
    preferredFile "status.yaml" first (first :: rest) =
      (if "status.yaml" ∈ first :: rest then "status.yaml" else first) ∧
    readSources ext output =
      (match output.FileContent
          (if "sources.yaml" ∈ first :: rest then "sources.yaml" else first) with
       | .error err => .error (.plain err)
       | .ok sourcesString =>
         match ext.ParseSources sourcesString with
         | .error err => .error (.plain err)
         | .ok sources => .ok (some sources)) ∧
    readStatus ext output =
      (match output.FileContent
          (if "status.yaml" ∈ first :: rest then "status.yaml" else first) with
       | .error err => .error (.plain err)
       | .ok statusString =>
         match ext.ParseStatus statusString with
         | .error err => .error (.plain err)
         | .ok status => .ok (some status)) := by
  refine ⟨preferredFile_spec _ _ _, preferredFile_spec _ _ _, ?_, ?_⟩
  · simp only [readSources, h, preferredFile_spec]
  · simp only [readStatus, h, preferredFile_spec]

/-- C21, witness: of the files `a.yaml`, `sources.yaml`, `status.yaml` the two
named ones are read; of `a.yaml`, `b.yaml` the first one is. -/
theorem computeStatus_preferred_file_witness :
    readSources echoExternals exampleStatusOutput =
      .ok (some exampleSources) ∧
    readStatus echoExternals exampleStatusOutput = .ok (some (.str "the status")) ∧
    readStatus echoExternals exampleOutput = .ok (some (.str "svc-a")) :=
  ⟨(computeStatus_preferred_file echoExternals exampleStatusOutput "a.yaml"
      ["sources.yaml", "status.yaml"] rfl).2.2.1,
   (computeStatus_preferred_file echoExternals exampleStatusOutput "a.yaml"
      ["sources.yaml", "status.yaml"] rfl).2.2.2,
   (computeStatus_preferred_file echoExternals exampleOutput "a.yaml" ["b.yaml"] rfl).2.2.2⟩

theorem fetchSources_eq {τ : Type} (targetClient : Client τ) (ns : String)
    (l : List (String × Source)) :
    ∀ (t : τ) (acc : List (String × Unstructured)),
      fetchSources targetClient ns t l acc =
        ((fetchedObjects (fetchAttempts targetClient ns t l).1).foldl
            (fun m p => insert p.1 p.2 m) acc,
          (fetchAttempts targetClient ns t l).2) := by
  induction l with
  | nil => intro t acc; rfl
  | cons p rest ih =>
    intro t acc
    obtain ⟨key, val⟩ := p
    by_cases hn : val.Name = ""
    · simp [fetchSources, fetchAttempts, hn, ih, fetchedObjects]
    · simp only [fetchSources, fetchAttempts, ne_eq, hn, not_false_eq_true, if_true]
      rcases hg : targetClient.Get t { Name := val.Name, Namespace := ns }
        (((Unstructured.mk []).SetKind val.Kind).SetAPIVersion val.APIVersion) with ⟨r, t1⟩
      cases r with
      | error err => simp [ih, fetchedObjects]
      | ok obj => simp [ih, fetchedObjects]

theorem keysOf_fetchAttempts {τ : Type} (targetClient : Client τ) (ns : String)
    (l : List (String × Source)) :
    ∀ t : τ, keysOf (fetchAttempts targetClient ns t l).1 = keysOf l := by
  induction l with
  | nil => intro t; rfl
  | cons p rest ih =>
    intro t
    obtain ⟨key, val⟩ := p
    by_cases hn : val.Name = ""
    · simp [fetchAttempts, hn, keysOf] at ih ⊢
      exact ih t
    · simp [fetchAttempts, hn, keysOf] at ih ⊢
      exact ih _

theorem mem_fetchedObjects (a : List (String × Option (Except Error Unstructured)))
    (k : String) (obj : Unstructured) :
    (k, obj) ∈ fetchedObjects a ↔ (k, some (.ok obj)) ∈ a := by
  induction a with
  | nil => simp [fetchedObjects]
  | cons p rest ih =>
    obtain ⟨key, r⟩ := p
    rcases r with _ | (err | o)
    · simp [fetchedObjects, ih]
    · simp [fetchedObjects, ih]
    · simp [fetchedObjects, ih]

theorem keysOf_fetchedObjects_sublist (a : List (String × Option (Except Error Unstructured))) :
    List.Sublist (keysOf (fetchedObjects a)) (keysOf a) := by
  induction a with
  | nil => exact List.Sublist.slnil
  | cons p rest ih =>
    obtain ⟨key, r⟩ := p
    rcases r with _ | (err | o)
    · exact List.Sublist.cons _ ih
    · exact List.Sublist.cons _ ih
    · exact List.Sublist.cons₂ _ ih

theorem lookup_foldl_insert {α : Type} (k : String) (l : List (String × α)) :
    ∀ acc : List (String × α), (keysOf l).Nodup →
      lookup k (l.foldl (fun m p => insert p.1 p.2 m) acc) =
        match lookup k l with
        | some v => some v
        | none => lookup k acc := by
  induction l with
  | nil => intro acc _; rfl
  | cons p rest ih =>
    intro acc hnd
    obtain ⟨k1, v1⟩ := p
    simp only [keysOf, List.map_cons, List.nodup_cons] at hnd
    rw [List.foldl_cons, ih _ hnd.2]
    by_cases hk : k1 = k
    · subst hk
      have hnone : lookup k1 rest = none := (lookup_eq_none_iff k1 rest).2 hnd.1
      simp [lookup, hnone, lookup_insert_self]
    · simp only [lookup, hk, if_false]
      cases lookup k rest with
      | some v => rfl
      | none => exact lookup_insert_other _ _ _ _ hk

theorem lookup_fetchSources {τ : Type} (targetClient : Client τ) (ns : String) (t : τ)
    (sources : List (String × Source)) (hkeys : (keysOf sources).Nodup) (k : String)
    (obj : Unstructured) :
    lookup k (fetchSources targetClient ns t sources []).1 = some obj ↔
      (k, some (.ok obj)) ∈ (fetchAttempts targetClient ns t sources).1 := by
  have hnd : (keysOf (fetchedObjects (fetchAttempts targetClient ns t sources).1)).Nodup :=
    List.Nodup.sublist (keysOf_fetchedObjects_sublist _)
      (by rw [keysOf_fetchAttempts]; exact hkeys)
  rw [fetchSources_eq, ← mem_fetchedObjects]
  simp only
  rw [lookup_foldl_insert k _ [] hnd]
  constructor
  · intro h
    cases hl : lookup k (fetchedObjects (fetchAttempts targetClient ns t sources).1) with
    | none => simp [hl, lookup] at h
    | some v =>
      simp only [hl, Option.some.injEq] at h
      subst h
      exact mem_of_lookup _ _ _ hl
  · intro h
    rw [lookup_of_mem k obj _ hnd h]

theorem fetchAttempts_memory (ns : String) (c : Cluster) (l : List (String × Source)) :
    fetchAttempts memoryClient ns c l =
      (l.map (fun p => (p.1,
        if p.2.Name ≠ "" then
          some (match Cluster.find c { Kind := p.2.Kind, APIVersion := p.2.APIVersion,
                                        Name := p.2.Name, Namespace := ns } with
                | some o => Except.ok o
                | none => Except.error { IsNotFound := true, message := "not found" })
        else none)), c) := by
  induction l with
  | nil => rfl
  | cons p rest ih =>
    obtain ⟨key, val⟩ := p
    have hk : (((Unstructured.mk []).SetKind val.Kind).SetAPIVersion val.APIVersion).GetKind =
        val.Kind := by
      simp [Unstructured.GetKind, Unstructured.SetKind, Unstructured.SetAPIVersion, fieldString,
        insert, lookup]
    have ha : (((Unstructured.mk []).SetKind val.Kind).SetAPIVersion
        val.APIVersion).GetAPIVersion = val.APIVersion := by
      simp [Unstructured.GetAPIVersion, Unstructured.SetKind, Unstructured.SetAPIVersion,
        fieldString, insert, lookup]
    by_cases hn : val.Name = ""
    · simp [fetchAttempts, hn, ih]
    · simp only [fetchAttempts, ne_eq, hn, not_false_eq_true, if_true, List.map_cons]
      have hg : memoryClient.Get c { Name := val.Name, Namespace := ns }
          (((Unstructured.mk []).SetKind val.Kind).SetAPIVersion val.APIVersion) =
          ((match Cluster.find c { Kind := val.Kind, APIVersion := val.APIVersion,
                                    Name := val.Name, Namespace := ns } with
            | some o => Except.ok o
            | none => Except.error { IsNotFound := true, message := "not found" }), c) := by
        simp only [memoryClient, hk, ha]
        cases Cluster.find c { Kind := val.Kind, APIVersion := val.APIVersion,
                               Name := val.Name, Namespace := ns } <;> rfl
      rw [hg]
      simp [ih]

theorem keysOf_insert {α : Type} (k : String) (v : α) (m : List (String × α)) :
    keysOf (insert k v m) = if k ∈ keysOf m then keysOf m else keysOf m ++ [k] := by
  induction m with
  | nil => simp [insert, keysOf]
  | cons p rest ih =>
    obtain ⟨k1, v1⟩ := p
    by_cases hk : k1 = k
    · subst hk
      simp [insert, keysOf]
    · have hk2 : ¬ k = k1 := fun e => hk e.symm
      simp only [keysOf] at ih
      simp only [insert, hk, if_false, keysOf, List.map_cons, List.mem_cons, hk2, false_or, ih]
      split <;> simp

theorem nodup_keysOf_insert {α : Type} (k : String) (v : α) (m : List (String × α))
    (h : (keysOf m).Nodup) : (keysOf (insert k v m)).Nodup := by
  rw [keysOf_insert]
  split
  · exact h
  · rename_i hk
    rw [List.nodup_append]
    refine ⟨h, by simp, ?_⟩
    intro a ha hb
    simp only [List.mem_singleton] at hb
    subst hb
    exact hk ha

theorem nodup_keysOf_foldl_insert {α : Type} (l : List (String × α)) :
    ∀ acc : List (String × α), (keysOf acc).Nodup →
      (keysOf (l.foldl (fun m p => insert p.1 p.2 m) acc)).Nodup := by
  induction l with
  | nil => intro acc h; exact h
  | cons p rest ih =>
    intro acc h
    exact ih _ (nodup_keysOf_insert _ _ _ h)

theorem nodup_keysOf_fetchSources {τ : Type} (targetClient : Client τ) (ns : String) (t : τ)
    (sources : List (String × Source)) :
    (keysOf (fetchSources targetClient ns t sources []).1).Nodup := by
  rw [fetchSources_eq]
  exact nodup_keysOf_foldl_insert _ [] (by simp [keysOf])

theorem sourceValues_eq (l : List (String × Unstructured)) :
    ∀ values : List (String × Value),
      sourceValues l values =
        (l.map (fun p => (p.1, Value.map p.2.Object))).foldl
          (fun m p => insert p.1 p.2 m) values := by
  induction l with
  | nil => intro values; rfl
  | cons p rest ih =>
    intro values
    obtain ⟨key, val⟩ := p
    simp [sourceValues, ih]

theorem lookup_map_value {α β : Type} (g : α → β) (k : String) (l : List (String × α)) :
    lookup k (l.map (fun p => (p.1, g p.2))) = (lookup k l).map g := by
  induction l with
  | nil => rfl
  | cons p rest ih =>
    obtain ⟨k1, v1⟩ := p
    by_cases hk : k1 = k
    · simp [lookup, hk]
    · simp [lookup, hk, ih]

theorem lookup_sourceValues (l : List (String × Unstructured)) (h : (keysOf l).Nodup)
    (k : String) :
    lookup k (sourceValues l []) = (lookup k l).map (fun obj => Value.map obj.Object) := by
  rw [sourceValues_eq, lookup_foldl_insert k _ []
    (by simpa [keysOf, Function.comp_def] using h),
    lookup_map_value (fun obj : Unstructured => Value.map obj.Object)]
  cases lookup k l <;> simp [lookup]

theorem values_of_GetPropertiesRendererInput (template : TemplateSpec) (name : NamespacedName)
    (sources : List (String × Unstructured)) (input : Input)
    (h : GetPropertiesRendererInput template name sources = .ok input) :
    input.values = sourceValues sources [] := by
  unfold GetPropertiesRendererInput newInput at h
  simp only at h
  split at h
  · cases h; rfl
  · split at h
    · cases h; rfl
    · cases h

/-- C22.  Let the parsed sources have pairwise different logical names.  The
loop over them cannot fail: it ends in the state left by the fetches, one per
entry, and the objects collected hold under a logical name exactly the object
that the fetch of that entry answered, so nothing for an entry without a name
or whose fetch failed with any error.  Against an in-memory cluster the object
is the one stored under the kind, apiVersion and name of the entry in the
target namespace.  `ComputeStatus` goes on to the status template with the
objects collected, and every input that `GetPropertiesRendererInput` builds
from them has as values, under a logical name, exactly the content of the
object fetched for that name. -/
theorem computeStatus_tolerates_missing_sources {τ : Type} (targetClient : Client τ)
    (ext : Externals) (ns : String) (t : τ) (sources : List (String × Source))
    (hkeys : (keysOf sources).Nodup) :
    (fetchSources targetClient ns t sources []).2 = (fetchAttempts targetClient ns t sources).2 ∧
    keysOf (fetchAttempts targetClient ns t sources).1 = keysOf sources ∧
    (∀ k obj, lookup k (fetchSources targetClient ns t sources []).1 = some obj ↔
      (k, some (.ok obj)) ∈ (fetchAttempts targetClient ns t sources).1) ∧
    (∀ (c : Cluster) k obj, lookup k (fetchSources memoryClient ns c sources []).1 = some obj ↔
      ∃ val, (k, val) ∈ sources ∧ val.Name ≠ "" ∧
        Cluster.find c { Kind := val.Kind, APIVersion := val.APIVersion, Name := val.Name,
                         Namespace := ns } = some obj) ∧
    (∀ instance' binding service plan action name template output,
      targetName action ns instance' binding = .ok name →
      plan.GetTemplate SourcesAction = .ok template →
      renderTemplate ext template
        (GetRendererInput ext template (some service) (some plan) instance' binding name) =
          .ok output →
      readSources ext output = .ok (some sources) →
      observedStatusOf targetClient ext t instance' binding service plan action ns =
        (match plan.GetTemplate StatusAction with
         | .error err => (.error (.plain err), (fetchSources targetClient ns t sources []).2)
         | .ok template =>
           match renderTemplate ext template (GetPropertiesRendererInput template name
               (fetchSources targetClient ns t sources []).1) with
           | .error err => (.error (.plain err), (fetchSources targetClient ns t sources []).2)
           | .ok output =>
             (readStatus ext output, (fetchSources targetClient ns t sources []).2))) ∧
    (∀ template name input,
      GetPropertiesRendererInput template name (fetchSources targetClient ns t sources []).1 =
        .ok input →
      ∀ k v, lookup k input.values = some v ↔
        ∃ obj, (k, some (.ok obj)) ∈ (fetchAttempts targetClient ns t sources).1 ∧
          v = .map obj.Object) ∧
    (∀ template name,
      (template.Type' = "gotemplate" ∨ template.Type' = "Gotemplate" ∨
        template.Type' = "GoTemplate" ∨ template.Type' = "GOTEMPLATE") →
      ∃ input, GetPropertiesRendererInput template name
        (fetchSources targetClient ns t sources []).1 = .ok input ∧
        input = Input.gotemplate template.Content name.Name input.values) := by
  refine ⟨by rw [fetchSources_eq], keysOf_fetchAttempts _ _ _ _,
    fun k obj => lookup_fetchSources _ _ _ _ hkeys k obj, ?_, ?_, ?_, ?_⟩
  · intro c k obj
    rw [lookup_fetchSources _ _ _ _ hkeys, fetchAttempts_memory]
    simp only [List.mem_map, Prod.mk.injEq, Prod.exists]
    constructor
    · rintro ⟨k', val, hmem, rfl, hr⟩
      by_cases hn : val.Name = ""
      · simp [hn] at hr
      · simp only [ne_eq, hn, not_false_eq_true, if_true, Option.some.injEq] at hr
        refine ⟨val, hmem, hn, ?_⟩
        cases hf : Cluster.find c { Kind := val.Kind, APIVersion := val.APIVersion,
                                    Name := val.Name, Namespace := ns } with
        | none => simp [hf] at hr
        | some o => simp [hf] at hr; rw [hr]
    · rintro ⟨val, hmem, hn, hf⟩
      exact ⟨k, val, hmem, rfl, by simp [hn, hf]⟩
  · intro instance' binding service plan action name template output hname htemplate hrender
      hsources
    have hns : name.Namespace = ns := by
      unfold targetName at hname
      split at hname
      · cases hname
      · split at hname
        · split at hname
          · cases hname
          · cases hname; rfl
        · cases hname; rfl
    unfold observedStatusOf
    simp only [hname, htemplate, hrender, hsources, hns]
  · intro template name input hinput k v
    rw [values_of_GetPropertiesRendererInput _ _ _ _ hinput,
      lookup_sourceValues _ (nodup_keysOf_fetchSources targetClient ns t sources) k]
    constructor
    · intro h
      cases hl : lookup k (fetchSources targetClient ns t sources []).1 with
      | none => simp [hl] at h
      | some obj =>
        simp only [hl, Option.map_some', Option.some.injEq] at h
        exact ⟨obj, (lookup_fetchSources _ _ _ _ hkeys k obj).1 hl, h.symm⟩
    · rintro ⟨obj, hobj, rfl⟩
      rw [(lookup_fetchSources _ _ _ _ hkeys k obj).2 hobj]
      rfl
  · intro template name hg
    exact ⟨_, newInput_gotemplate _ _ _ hg, rfl⟩

/-- C22, witness: three sources against a cluster that holds the ConfigMap
`svc-a` only; the Secret is not found and one source has no name. -/
theorem computeStatus_tolerates_missing_sources_witness :
    (keysOf exampleSources).Nodup ∧
    (∀ k obj, lookup k (fetchSources memoryClient "default" [configMap "svc-a" 1]
        exampleSources []).1 = some obj ↔
      ∃ val, (k, val) ∈ exampleSources ∧ val.Name ≠ "" ∧
        Cluster.find [configMap "svc-a" 1]
          { Kind := val.Kind, APIVersion := val.APIVersion, Name := val.Name,
            Namespace := "default" } = some obj) :=
  ⟨by decide,
   (computeStatus_tolerates_missing_sources memoryClient echoExternals "default"
      [configMap "svc-a" 1] exampleSources (by decide)).2.2.2.1 [configMap "svc-a" 1]⟩

/-- C22 at the same input: the input built for the status template holds the
content of the ConfigMap under `config` and nothing else. -/
theorem computeStatus_status_input_example :
    GetPropertiesRendererInput
        { Action := "status", Type' := "gotemplate", URL := "", Content := "status" }
        { Name := "instance-1", Namespace := "default" }
        (fetchSources memoryClient "default" [configMap "svc-a" 1] exampleSources []).1 =
      .ok (Input.gotemplate "status" "instance-1"
        [("config", .map (configMap "svc-a" 1).Object)]) := by
  decide

/-- C22 at the same input, evaluated: one object is collected, and the status
is computed from it. -/
theorem computeStatus_missing_sources_example :
    (fetchAttempts memoryClient "default" [configMap "svc-a" 1] exampleSources).1 =
      [("config", some (.ok (configMap "svc-a" 1))),
       ("secret", some (.error { IsNotFound := true, message := "not found" })),
       ("unnamed", none)] ∧
    fetchSources memoryClient "default" [configMap "svc-a" 1] exampleSources [] =
      ([("config", configMap "svc-a" 1)], [configMap "svc-a" 1]) ∧
    ComputeStatus exampleSourceClient memoryClient echoExternals () [configMap "svc-a" 1]
        "instance-1" "" "service-1" "plan-1" "provision" "default" =
      (.ok (some (.str "the status")), (), [configMap "svc-a" 1]) := by
  decide

/-- C23, what the code does.  When the rendered file list is empty, both
readers return a nil result with the nil error of `ListFiles` (`return nil,
err` after `len(files) == 0`), so `ComputeStatus` returns neither a status nor
an error: for every externals and output for the sources template, and at two
concrete inputs, one where the sources template and one where the status
template renders no file. -/
theorem computeStatus_returns_neither :
    (∀ (ext : Externals) (output : Output), output.ListFiles = .ok [] →
      readSources ext output = .ok none ∧ readStatus ext output = .ok none) ∧
    (∀ {τ : Type} (targetClient : Client τ) (ext : Externals) (t : τ) instance' binding
        service plan action ns name template output,
      targetName action ns instance' binding = .ok name →
      plan.GetTemplate SourcesAction = .ok template →
      renderTemplate ext template
        (GetRendererInput ext template (some service) (some plan) instance' binding name) =
          .ok output →
      output.ListFiles = .ok [] →
      observedStatusOf targetClient ext t instance' binding service plan action ns =
        (.ok none, t)) ∧
    ComputeStatus exampleSourceClient memoryClient emptyOutputExternals () []
        "instance-1" "" "service-1" "plan-1" "provision" "default" = (.ok none, (), []) ∧
    ComputeStatus exampleSourceClient memoryClient emptyStatusExternals () [configMap "svc-a" 1]
        "instance-1" "" "service-1" "plan-1" "provision" "default" =
      (.ok none, (), [configMap "svc-a" 1]) ∧
    ComputeStatus exampleSourceClient memoryClient echoExternals () [configMap "svc-a" 1]
        "instance-1" "" "service-1" "plan-1" "provision" "default" =
      (.ok (some (.str "the status")), (), [configMap "svc-a" 1]) := by
  refine ⟨?_, ?_, by decide, by decide, by decide⟩
  · intro ext output h
    simp [readSources, readStatus, h]
  · intro τ targetClient ext t instance' binding service plan action ns name template output
      hname htemplate hrender hfiles
    simp [observedStatusOf, hname, htemplate, hrender, readSources, hfiles]

/-! ## The remaining list, the binding state and the plan controller: the claims -/

/-- C26.  For every client and input list, the remaining list of
`DeleteSubResources` is the input Sources whose deletion attempt did not
answer not-found, in input order: it is the attempts filtered and projected,
the attempts are one per input Source in order, so it is a subsequence of the
input; a Source is in it iff one of its attempts did not answer not-found, and
in particular a Source whose attempt returned no error is in it.  On a
cluster holding a Director object and a ConfigMap, the state-transition update
and the delete are both issued successfully and both Sources remain. -/
theorem deleteSubResources_remaining_subsequence {σ : Type} (client : Client σ) (s : σ)
    (subResources : List Source) :
    (DeleteSubResources client s subResources).1.1 =
      ((deleteAttempts client s subResources).1.filter
        (fun p => !attemptNotFound p.2)).map Prod.fst ∧
    (deleteAttempts client s subResources).1.map Prod.fst = subResources ∧
    List.Sublist (DeleteSubResources client s subResources).1.1 subResources ∧
    (∀ x, x ∈ (DeleteSubResources client s subResources).1.1 ↔
      ∃ r, (x, r) ∈ (deleteAttempts client s subResources).1 ∧ attemptNotFound r = false) ∧
    (∀ x, (x, none) ∈ (deleteAttempts client s subResources).1 →
      x ∈ (DeleteSubResources client s subResources).1.1) ∧
    (DeleteSubResources memoryClient [exampleDirector, configMap "b" 1]
        [exampleDirectorSource, exampleB, exampleC]).1 =
      ([exampleDirectorSource, exampleB], none) := by
  rw [DeleteSubResources_eq]
  refine ⟨rfl, deleteAttempts_sources client subResources s, ?_, ?_, ?_, by decide⟩
  · have h : List.Sublist (keptSources (deleteAttempts client s subResources).1)
        ((deleteAttempts client s subResources).1.map Prod.fst) :=
      List.Sublist.map _ (List.filter_sublist _)
    rw [deleteAttempts_sources] at h
    exact h
  · intro x
    exact mem_keptSources _ x
  · intro x hx
    exact (mem_keptSources _ x).2 ⟨none, hx, rfl⟩

/-- C27, what the code does.  For the nil receiver the guard `r == nil` holds
and the branch then evaluates `r.GetName()`, a method call through the nil
pointer: `GetState` ends in a run-time panic instead of returning the empty
string.  For a non-nil receiver `GetState` returns `Status.State`; `SetState`
on a non-nil receiver changes `Status.State` only, after which `GetState`
returns the state set; `SetState` on the nil receiver does nothing. -/
theorem getState_nil_receiver_panics :
    SFServiceBinding.GetState none = .panic ∧
    (∀ b : SFServiceBinding, SFServiceBinding.GetState (some b) = .ok b.Status.State) ∧
    (∀ (b : SFServiceBinding) (state : String),
      SFServiceBinding.GetState (SFServiceBinding.SetState (some b) state) = .ok state) ∧
    (∀ (b : SFServiceBinding) (state : String),
      SFServiceBinding.SetState (some b) state =
        some { ObjectMeta := b.ObjectMeta, Spec := b.Spec,
               Status := { State := state, Error := b.Status.Error,
                           Response := b.Status.Response, AppliedSpec := b.Status.AppliedSpec,
                           Resources := b.Status.Resources } }) ∧
    (∀ state : String, SFServiceBinding.SetState none state = none) ∧
    SFServiceBinding.GetState (some exampleBinding) = .ok "succeeded" := by
  refine ⟨rfl, ?_, ?_, fun _ _ => rfl, fun _ => rfl, by decide⟩
  · intro b
    by_cases h : b.Status.State = ""
    · simp [SFServiceBinding.GetState, SFServiceBinding.GetName, h]
    · simp [SFServiceBinding.GetState, SFServiceBinding.GetName, h]
  · intro b state
    by_cases h : state = ""
    · simp [SFServiceBinding.GetState, SFServiceBinding.GetName, SFServiceBinding.SetState, h]
    · simp [SFServiceBinding.GetState, SFServiceBinding.GetName, SFServiceBinding.SetState, h]

theorem findService_loop_spec (serviceID : String) (items : List Service) :
    ∀ (obj : Option Service) (isSet : Bool),
      findService.loop serviceID items obj isSet =
        ((items.getLast?).or obj,
          isSet || items.any (fun item => decide (item.ID = serviceID))) := by
  induction items with
  | nil => intro obj isSet; simp [findService.loop]
  | cons item rest ih =>
    intro obj isSet
    rw [findService.loop, ih, getLast?_cons_or]
    simp [Bool.or_assoc]

theorem findService_spec (items : List Service) (serviceID : String) :
    findService items serviceID =
      if items.any (fun item => decide (item.ID = serviceID)) then items.getLast? else none := by
  unfold findService
  rw [findService_loop_spec]
  cases h : items.any (fun item => decide (item.ID = serviceID)) with
  | false => cases items.getLast? <;> simp
  | true => cases items.getLast? <;> simp

/-- C28, what the code does.  `service = &obj` takes the address of the one
loop variable, so after the loop `service` points to the last listed item
whenever some item has the ID of the plan's service: with the services
`[service-1, service-2]` and a plan of `service-1`, the owner handed to
`SetControllerReference` is `service-2`, whose ID differs, and the plan is
updated with that owner.  When no listed service has the ID and the labels of
the plan are not nil, `Reconcile` returns the error `unable to find service
with id ...` in the state left by `List`, without an `Update`; with nil labels
it ends in a run-time panic before listing. -/
theorem reconcilePlan_owner_is_last_item :
    (∀ (items : List Service) (serviceID : String),
      findService items serviceID =
        if items.any (fun item => decide (item.ID = serviceID)) then items.getLast?
        else none) ∧
    findService [serviceOne, serviceTwo] labelledPlan.Spec.ServiceID = some serviceTwo ∧
    serviceOne.ID = labelledPlan.Spec.ServiceID ∧
    serviceTwo.ID ≠ labelledPlan.Spec.ServiceID ∧
    ReconcilePlan.Reconcile (examplePlanClient labelledPlan [serviceOne, serviceTwo])
        examplePlanExternals [] { Name := "plan-1", Namespace := "default" } =
      (.ok (), [{ labelledPlan with OwnerReferences :=
          [{ APIVersion := "osb.servicefabrik.io/v1alpha1", Kind := "Service",
             Name := "service-two", UID := "" }] }]) ∧
    (∀ {σ : Type} (client : PlanClient σ) (ext : PlanExternals) (s s1 s2 : σ)
        (request : NamespacedName) (instance' : Plan) labels1 update1 labels2 update2 items,
      client.Get s request = (.ok instance', s1) →
      checkLabel instance'.Labels "serviceId" instance'.Spec.ServiceID false =
        .ok (labels1, update1) →
      checkLabel labels1 "planId" instance'.Spec.ID update1 = .ok (labels2, update2) →
      client.List s1 [("serviceId", instance'.Spec.ServiceID)] request.Namespace =
        (.ok items, s2) →
      (∀ item ∈ items, item.ID ≠ instance'.Spec.ServiceID) →
      ReconcilePlan.Reconcile client ext s request =
        (.error (.plain (serviceNotFoundError instance'.Spec.ServiceID)), s2)) ∧
    ReconcilePlan.Reconcile (examplePlanClient labelledPlan [serviceTwo])
        examplePlanExternals [] { Name := "plan-1", Namespace := "default" } =
      (.error (.plain (serviceNotFoundError "service-1")), []) ∧
    ReconcilePlan.Reconcile
        (examplePlanClient { labelledPlan with Labels := none } [serviceOne])
        examplePlanExternals [] { Name := "plan-1", Namespace := "default" } =
      (.panic, []) := by
  refine ⟨findService_spec, by decide, by decide, by decide, by decide, ?_, by decide,
    by decide⟩
  intro σ client ext s s1 s2 request instance' labels1 update1 labels2 update2 items hget h1 h2
    hlist hnone
  have hany : items.any (fun item => decide (item.ID = instance'.Spec.ServiceID)) = false := by
    rw [List.any_eq_false]
    intro item hitem
    simpa using hnone item hitem
  have hfind : findService items instance'.Spec.ServiceID = none := by
    rw [findService_spec, hany]
    rfl
  simp [ReconcilePlan.Reconcile, hget, h1, h2, hlist, hfind]

end Interoperator
